import Mathlib

/-!
# Assessment grading workflow of `src/actions/interview.js`

A shallow embedding of the server action that grades a stored quiz
(`submitAssessmentAnswers`), together with the authentication helper of
`src/lib/auth.js` and the part of the record store the action touches.

* JavaScript numbers are binary64 values.  The only arithmetic the grader does is
  `Math.round((correctAnswers / totalQuestions) * 100)`; it is modelled exactly, with
  round-to-nearest, ties-to-even, on non-negative values.
* Stored questions are JSON objects.  They are modelled as records whose fields the
  grader reads may be absent (`none` is a property that is missing and reads as
  `undefined`); a field that is present has the JSON type of the data model (strings,
  arrays of strings).
* JavaScript strings are sequences of UTF-16 code units; a Lean `String` stands for the
  string with the same code points, and `charCodeAt(0)` is computed on its UTF-16 form.
* A submitted entry is `undefined`, `null`, a string, or some other value, of which only
  the truthiness is kept (any method call on it is a `TypeError`).
* A thrown exception is an `Except` error; whatever is thrown inside the `try` block of
  the action is re-thrown by its `catch` with the fixed message of the action.  The
  database afterwards is returned next to the outcome.
-/

set_option exponentiation.threshold 4000
set_option maxRecDepth 100000

namespace SensAI

/-! ## binary64 arithmetic -/

/-- A non-negative finite binary64 value `d` is kept as the natural number `d * 2 ^ 1074`:
every finite double is a whole multiple of `2 ^ (-1074)`, the least positive one. -/
def unit64 : Nat := 2 ^ 1074

/-- Auxiliary for `floorLog2`, by recursion on a bound for the number of halvings. -/
def floorLog2Aux : Nat → Nat → Nat
  | 0, _ => 0
  | fuel + 1, n => if n < 2 then 0 else floorLog2Aux fuel (n / 2) + 1

/-- Index of the highest set bit of `n` (and `0` for `n = 0`). -/
def floorLog2 (n : Nat) : Nat := floorLog2Aux n n

/-- Quotient `a / b` rounded to the nearest integer, ties to the even one. -/
def rneDiv (a b : Nat) : Nat :=
  let f := a / b
  let r := a % b
  if 2 * r < b then f else if b < 2 * r then f + 1 else if f % 2 = 0 then f else f + 1

/-- Round the non-negative rational `a / b`, measured in units of `2 ^ (-1074)`, to the
nearest binary64 value (53 significant bits, ties to even, gradual underflow). -/
def roundBinary64 (a b : Nat) : Nat :=
  let j := floorLog2 (a / b) - 52
  rneDiv a (b * 2 ^ j) * 2 ^ j

/-- The JavaScript numbers that can occur in the score computation. -/
inductive JSNumber
  | nan
  | inf
  | fin (units : Nat)
  deriving DecidableEq, Repr

/-- Conversion of an array length or a counter (exact below `2 ^ 53`). -/
def JSNumber.ofCount (n : Nat) : JSNumber := .fin (n * unit64)

/-- JavaScript `x / y` on non-negative numbers. -/
def JSNumber.div : JSNumber → JSNumber → JSNumber
  | .fin a, .fin b =>
    if b = 0 then (if a = 0 then .nan else .inf) else .fin (roundBinary64 (a * unit64) b)
  | .fin _, .inf => .fin 0
  | .inf, .fin _ => .inf
  | _, _ => .nan

/-- JavaScript `x * y` on non-negative numbers. -/
def JSNumber.mul : JSNumber → JSNumber → JSNumber
  | .fin a, .fin b => .fin (roundBinary64 (a * b) unit64)
  | .inf, .fin b => if b = 0 then .nan else .inf
  | .fin a, .inf => if a = 0 then .nan else .inf
  | .inf, .inf => .inf
  | _, _ => .nan

/-- An integral JavaScript number, as returned by `Math.round` and stored in `quizScore`. -/
inductive Score
  | nan
  | inf
  | int (n : Nat)
  deriving DecidableEq, Repr

/-- JavaScript `Math.round`: the closest integer, a tie going towards plus infinity. -/
def mathRound : JSNumber → Score
  | .nan => .nan
  | .inf => .inf
  | .fin a => .int ((2 * a + unit64) / (2 * unit64))

/-- The expression `Math.round((correctAnswers / totalQuestions) * 100)`. -/
def computeScore (correctAnswers totalQuestions : Nat) : Score :=
  mathRound (((JSNumber.ofCount correctAnswers).div (.ofCount totalQuestions)).mul
    (.ofCount 100))

/-- JavaScript `score < bound` for an integer literal `bound`; false for `NaN`. -/
def Score.lt (s : Score) (bound : Nat) : Bool :=
  match s with
  | .int n => decide (n < bound)
  | _ => false

/-- Exact round-half-up of the rational `num / den` (for `den > 0`). -/
def roundHalfUp (num den : Nat) : Nat := (2 * num + den) / (2 * den)

/-! ## Data model -/

/-- A question as stored in the `questions` JSON column.  The last three fields are the
ones grading adds; they are absent on a freshly generated question. -/
structure Question where
  question : String
  options : Option (List String)
  correctAnswer : Option String
  explanation : Option String
  difficulty : Nat
  timeToAnswer : String
  skills : Option (List String)
  userAnswer : Option String
  correctAnswerText : Option String
  isCorrect : Option Bool
  deriving DecidableEq, Repr

/-- One element of the submitted `answers` array. `other` is any value that is neither
a string nor `null` nor `undefined`; only its truthiness matters to the grader. -/
inductive Entry
  | undefined
  | null
  | str (s : String)
  | other (truthy : Bool)
  deriving DecidableEq, Repr

/-- The `answers` argument: an array, or `none` for `null` / `undefined`. -/
abbrev Answers := Option (List Entry)

/-- Exceptions raised while an action runs. -/
inductive JSError
  | typeError
  | error (message : String)
  deriving DecidableEq, Repr

/-- A row of the assessment table. -/
structure Assessment where
  id : String
  userId : String
  category : String
  questions : List Question
  quizScore : Score
  improvementTip : Option String
  createdAt : Nat
  deriving DecidableEq, Repr

/-- A row of the user table (the fields the actions read). -/
structure User where
  id : String
  clerkUserId : String
  industry : String
  experience : Nat
  deriving DecidableEq, Repr

/-- The database. -/
structure Db where
  users : List User
  assessments : List Assessment
  deriving DecidableEq, Repr

/-! ## `src/lib/auth.js` -/

/-- The function `requireAuth`: `session` is the user id the Clerk session reports
(`none` when nobody is signed in); the result is the pair `{ user, userId }`. -/
def requireAuth (session : Option String) (db : Db) : Except String (User × String) :=
  match session with
  | none => .error "Authentication required"
  | some userId =>
    if userId = "" then .error "Authentication required"
    else
      match db.users.find? (fun u => u.clerkUserId == userId) with
      | none => .error "User not found in database"
      | some user => .ok (user, userId)

/-! ## The record store (`db.assessment`) -/

/-- The query `db.assessment.findUnique({ where: { id, userId } })`. -/
def Db.findUnique (db : Db) (id userId : String) : Option Assessment :=
  db.assessments.find? (fun a => a.id == id && a.userId == userId)

/-- The call `db.assessment.update({ where: { id, userId }, data })` with the three
columns `submitAssessmentAnswers` writes. -/
def Db.update (db : Db) (id userId : String) (quizScore : Score) (improvementTip : String)
    (questions : List Question) : Db :=
  { db with
    assessments := db.assessments.map (fun a =>
      if a.id == id && a.userId == userId then
        { a with quizScore := quizScore, improvementTip := some improvementTip,
                 questions := questions }
      else a) }

/-! ## Grading (`submitAssessmentAnswers`) -/

/-- JavaScript `s.charCodeAt(0)`: the first UTF-16 code unit, `none` (that is `NaN`) for
the empty string. -/
def charCodeAt0 (s : String) : Option Nat :=
  match s.data with
  | [] => none
  | c :: _ => some (if c.toNat < 65536 then c.toNat else 55296 + (c.toNat - 65536) / 1024)

/-- The element read `answers[i]`: a `TypeError` on `null` / `undefined`, `undefined`
past the end of the array. -/
def getEntry (answers : Answers) (i : Nat) : Except JSError Entry :=
  match answers with
  | none => .error .typeError
  | some xs => .ok (xs.getD i .undefined)

/-- Truthiness of a submitted entry. -/
def Entry.truthy : Entry → Bool
  | .str s => decide (s ≠ "")
  | .other b => b
  | _ => false

/-- The comparison `answers[i] === question.correctAnswer`. -/
def strictEq (a : Entry) (correctAnswer : Option String) : Bool :=
  match a, correctAnswer with
  | .undefined, none => true
  | .str s, some t => decide (s = t)
  | _, _ => false

/-- The counting loop `for (let i = 0; i < totalQuestions; i++) ...`, started at index `i`
with `correctAnswers` matches so far. -/
def countCorrect (answers : Answers) : List Question → Nat → Nat → Except JSError Nat
  | [], _, correctAnswers => .ok correctAnswers
  | q :: rest, i, correctAnswers =>
    match getEntry answers i with
    | .error e => .error e
    | .ok a =>
      countCorrect answers rest (i + 1)
        (if strictEq a q.correctAnswer then correctAnswers + 1 else correctAnswers)

/-- The three messages of the improvement tip. -/
def tipFundamentals : String :=
  "Focus on reviewing fundamental concepts in this area. Consider taking additional practice assessments."

/-- The message for a score from 50 up to, not including, 75. -/
def tipGoodEffort : String :=
  "Good effort! Review the questions you missed and practice similar problems."

/-- The message for the remaining scores. -/
def tipExcellent : String :=
  "Excellent work! Continue practicing to maintain your skills."

/-- The `if (score < 50) ... else if (score < 75) ... else ...` chain. -/
def improvementTipFor (score : Score) : String :=
  if score.lt 50 then tipFundamentals
  else if score.lt 75 then tipGoodEffort
  else tipExcellent

/-- The text substituted for an answer that does not resolve to an option. -/
def noAnswer : String := "No answer provided"

/-- The expression `userAnswerLabel ? userAnswerLabel.charCodeAt(0) - 65 : -1`;
`none` is `NaN`. -/
def userAnswerIndex (userAnswerLabel : Entry) : Except JSError (Option Int) :=
  if userAnswerLabel.truthy then
    match userAnswerLabel with
    | .str s => .ok ((charCodeAt0 s).map (fun c => (c : Int) - 65))
    | _ => .error .typeError
  else .ok (some (-1))

/-- The expression `index >= 0 && index < question.options.length ?
question.options[index] : "No answer provided"`. -/
def userAnswerText (question : Question) (index : Option Int) : Except JSError String :=
  match index with
  | none => .ok noAnswer
  | some k =>
    if 0 ≤ k then
      match question.options with
      | none => .error .typeError
      | some options =>
        if k < options.length then .ok (options.getD k.toNat noAnswer) else .ok noAnswer
    else .ok noAnswer

/-- The two statements computing `correctAnswerText`:
`question.options[question.correctAnswer.charCodeAt(0) - 65]`; `none` is `undefined`. -/
def correctAnswerTextOf (question : Question) : Except JSError (Option String) :=
  match question.correctAnswer with
  | none => .error .typeError
  | some correctAnswer =>
    match question.options with
    | none => .error .typeError
    | some options =>
      match (charCodeAt0 correctAnswer).map (fun c => (c : Int) - 65) with
      | none => .ok none
      | some k => if 0 ≤ k then .ok (options.get? k.toNat) else .ok none

/-- The expression `question.skills?.join(", ") || "relevant skills"`. -/
def skillsText (question : Question) : String :=
  match question.skills with
  | none => "relevant skills"
  | some skills =>
    if ", ".intercalate skills = "" then "relevant skills" else ", ".intercalate skills

/-- The expression `question.explanation || ...` with its template literal. -/
def explanationOf (question : Question) : String :=
  match question.explanation with
  | none => "This question tests your knowledge of " ++ skillsText question ++ "."
  | some e =>
    if e = "" then "This question tests your knowledge of " ++ skillsText question ++ "."
    else e

/-- The callback of `assessment.questions.map((question, index) => ...)`. -/
def gradeQuestion (answers : Answers) (question : Question) (index : Nat) :
    Except JSError Question :=
  match getEntry answers index with
  | .error e => .error e
  | .ok userAnswerLabel =>
    match userAnswerIndex userAnswerLabel with
    | .error e => .error e
    | .ok idx =>
      match userAnswerText question idx with
      | .error e => .error e
      | .ok text =>
        match correctAnswerTextOf question with
        | .error e => .error e
        | .ok correctText =>
          .ok { question with
                userAnswer := some text
                correctAnswerText := correctText
                isCorrect := some (strictEq userAnswerLabel question.correctAnswer)
                explanation := some (explanationOf question) }

/-- The `map` over the questions, started at index `i`. -/
def mapQuestions (answers : Answers) : List Question → Nat → Except JSError (List Question)
  | [], _ => .ok []
  | q :: rest, i =>
    match gradeQuestion answers q i with
    | .error e => .error e
    | .ok g =>
      match mapQuestions answers rest (i + 1) with
      | .error e => .error e
      | .ok gs => .ok (g :: gs)

/-- What `submitAssessmentAnswers` computes between reading the record and writing it. -/
structure Graded where
  score : Score
  improvementTip : String
  questionsWithAnswers : List Question
  deriving DecidableEq, Repr

/-- Lines 157-198 of `submitAssessmentAnswers`: count, score, tip, annotated questions. -/
def grade (questions : List Question) (answers : Answers) : Except JSError Graded :=
  match countCorrect answers questions 0 0 with
  | .error e => .error e
  | .ok correctAnswers =>
    let totalQuestions := questions.length
    let score := computeScore correctAnswers totalQuestions
    let improvementTip := improvementTipFor score
    match mapQuestions answers questions 0 with
    | .error e => .error e
    | .ok questionsWithAnswers => .ok ⟨score, improvementTip, questionsWithAnswers⟩

/-- The server action `submitAssessmentAnswers(assessmentId, answers)`, called with the
given session on the given database: the outcome and the database afterwards. -/
def submitAssessmentAnswers (session : Option String) (db : Db) (assessmentId : String)
    (answers : Answers) : Except String Assessment × Db :=
  match requireAuth session db with
  | .error e => (.error e, db)
  | .ok (user, _) =>
    match db.findUnique assessmentId user.id with
    | none => (.error "Failed to submit assessment", db)
    | some assessment =>
      match grade assessment.questions answers with
      | .error _ => (.error "Failed to submit assessment", db)
      | .ok g =>
        (.ok { assessment with quizScore := g.score, improvementTip := some g.improvementTip,
                               questions := g.questionsWithAnswers },
         db.update assessmentId user.id g.score g.improvementTip g.questionsWithAnswers)

/-- The count `c` of the specification: the number of indices `i` below the number of
questions, counted from `start`, at which `answers[i] === questions[i].correctAnswer`. -/
def matchCount (xs : List Entry) (questions : List Question) (start : Nat) : Nat :=
  ((questions.enumFrom start).filter
    (fun p => strictEq (xs.getD p.1 .undefined) p.2.correctAnswer)).length

/-! ## Reading and deleting (`getAssessment`, `deleteAssessment`) -/

/-- The server action `getAssessment(id)`: the outcome and the database afterwards (the
action only reads). -/
def getAssessment (session : Option String) (db : Db) (id : String) :
    Except String Assessment × Db :=
  match requireAuth session db with
  | .error e => (.error e, db)
  | .ok (user, _) =>
    match db.findUnique id user.id with
    | none => (.error "Failed to get assessment", db)
    | some assessment => (.ok assessment, db)

/-- The call `db.assessment.delete({ where: { id } })`. -/
def Db.delete (db : Db) (id : String) : Db :=
  { db with assessments := db.assessments.filter (fun a => !(a.id == id)) }

/-- The value `{ success: true }` returned by `deleteAssessment`. -/
structure DeleteResult where
  success : Bool
  deriving DecidableEq, Repr

/-- The server action `deleteAssessment(assessmentId)`. -/
def deleteAssessment (session : Option String) (db : Db) (assessmentId : String) :
    Except String DeleteResult × Db :=
  match requireAuth session db with
  | .error e => (.error e, db)
  | .ok (user, _) =>
    match db.findUnique assessmentId user.id with
    | none => (.error "Failed to delete assessment", db)
    | some _ => (.ok ⟨true⟩, db.delete assessmentId)

/-! ## Generation (`generateAssessment`) -/

/-- The argument `{ topic, difficulty, questionCount }` of `generateAssessment`. -/
structure AssessmentRequest where
  topic : String
  difficulty : String
  questionCount : Nat
  deriving DecidableEq, Repr

/-- The template literal assigned to `prompt`. -/
def buildPrompt (user : User) (topic difficulty : String) (questionCount : Nat) : String :=
  "\n" ++
    "    As an expert interviewer and career advisor, generate a technical assessment for a " ++
    user.industry ++ " professional with " ++ toString user.experience ++
    " years of experience.\n" ++ "    \n" ++ "    Assessment Details:\n" ++ "    Topic: " ++
    topic ++ "\n" ++ "    Difficulty: " ++ difficulty ++ "\n" ++ "    Number of Questions: " ++
    toString questionCount ++ "\n" ++ "    \n" ++ "    Requirements:\n" ++
    "    1. Generate exactly " ++ toString questionCount ++ " multiple choice questions\n" ++
    "    2. Include a mix of question types (technical, behavioral, situational)\n" ++
    "    3. Tailor questions to " ++ difficulty ++ " difficulty level\n" ++
    "    4. Focus on " ++ topic ++ " within the context of " ++ user.industry ++ "\n" ++
    "    5. For each question, provide:\n" ++ "       - The question text\n" ++
    "       - Four answer options (A, B, C, D)\n" ++
    "       - The correct answer (one of A, B, C, or D)\n" ++
    "       - An explanation for the correct answer\n" ++
    "       - Difficulty rating (1-5)\n" ++
    "       - Estimated time to answer (in minutes)\n" ++
    "       - Key skills being assessed\n" ++
    "    6. Format the response as JSON with the following structure:\n" ++ "       \x7b\n" ++
    "         \"questions\": [\n" ++ "           \x7b\n" ++
    "             \"question\": \"Question text\",\n" ++
    "             \"options\": [\"Option A\", \"Option B\", \"Option C\", \"Option D\"],\n" ++
    "             \"correctAnswer\": \"A\", // or B, C, D\n" ++
    "             \"explanation\": \"Explanation of why the correct answer is right\",\n" ++
    "             \"difficulty\": 1-5,\n" ++ "             \"timeToAnswer\": \"minutes\",\n" ++
    "             \"skills\": [\"skill1\", \"skill2\"]\n" ++ "           \x7d\n" ++
    "         ]\n" ++ "       \x7d\n" ++
    "    7. Do not include any additional text, explanations, or markdown formatting\n" ++
    "    8. Make sure each question has exactly one correct answer\n" ++
    "    9. Ensure the options are plausible but only one is correct\n" ++ "  "

/-- JavaScript white space and line terminators: the characters `trim` strips. -/
def isJSWhiteSpace (c : Char) : Bool :=
  [9, 10, 11, 12, 13, 32, 160, 5760, 8232, 8233, 8239, 8287, 12288, 65279].contains c.toNat ||
    (8192 ≤ c.toNat && c.toNat ≤ 8202)

/-- The method `trim` on the characters of a string. -/
def trimChars (l : List Char) : List Char :=
  ((l.dropWhile isJSWhiteSpace).reverse.dropWhile isJSWhiteSpace).reverse

/-- JavaScript `s.trim()`. -/
def jsTrim (s : String) : String := ⟨trimChars s.data⟩

/-- Removal of every match of a literal pattern, scanning from the left; `skip` is the
number of characters of the current match that are still to be dropped. -/
def removeAllAux (pat : List Char) : Nat → List Char → List Char
  | _, [] => []
  | skip + 1, _ :: cs => removeAllAux pat skip cs
  | 0, c :: cs =>
    if pat.isPrefixOf (c :: cs) then removeAllAux pat (pat.length - 1) cs
    else c :: removeAllAux pat 0 cs

/-- JavaScript `s.replace(/pat/g, "")` for a pattern without special characters. -/
def removeAll (pat s : String) : String := ⟨removeAllAux pat.data 0 s.data⟩

/-- The expression assigned to `cleanedContent`:
`assessmentContent.replace(/```json/g, "").replace(/```/g, "").trim()`. -/
def cleanedContent (assessmentContent : String) : String :=
  jsTrim (removeAll "```" (removeAll "```json" assessmentContent))

/-- The value of the `questions` property of the parsed response, when there is one:
an array of questions, or some JSON value that is not an array. -/
inductive QuestionsField
  | array (questions : List Question)
  | notArray
  deriving DecidableEq, Repr

/-- The result of `JSON.parse`, as far as the action looks at it: `null`, a JSON object
(with its `questions` property, `none` when it has none), or any other JSON value
(boolean, number, string, array), on which `.questions` reads as `undefined`. -/
inductive ParsedContent
  | null
  | nonObject
  | object (questions : Option QuestionsField)
  deriving DecidableEq, Repr

/-- The property read `parsedContent.questions`; `none` is `undefined`. -/
def questionsOf (parsedContent : ParsedContent) : Except JSError (Option QuestionsField) :=
  match parsedContent with
  | .null => .error .typeError
  | .nonObject => .ok none
  | .object questions => .ok questions

/-- What `generateAssessment` obtains from outside the repository: the text-generation
service (`model.generateContent(prompt)` followed by `response.text()`, which may throw),
the built-in `JSON.parse` (`none` when it throws), and the identifier and creation time
the store assigns to a new row. -/
structure Environment where
  generateContent : String → Except String String
  jsonParse : String → Option ParsedContent
  newId : String
  now : Nat

/-- Modelled from the spec: the schema of the assessment table is not among the sources.
By section 3 the `questions` column is an ordered sequence of questions and by section
4.4 `create(userId, category, questions)` yields an assessment with `quizScore = 0` and
`improvementTip = null` without any validation. The call
`db.assessment.create({ data: { userId, quizScore: 0, category, questions } })` appends
the new row; an array is stored as given, with `questions: undefined` the column is left
empty.  That a value which is not an array does not fit the column and is refused is an
assumption of this model (neither the specification nor the sources settle it); no
statement about a successful generation depends on it. -/
def Db.create (db : Db) (id : String) (createdAt : Nat) (userId category : String)
    (questions : Option QuestionsField) : Except JSError (Assessment × Db) :=
  match questions with
  | some .notArray => .error (.error "Invalid value for the questions column")
  | some (.array qs) =>
    .ok (⟨id, userId, category, qs, .int 0, none, createdAt⟩,
         { db with assessments :=
             db.assessments ++ [⟨id, userId, category, qs, .int 0, none, createdAt⟩] })
  | none =>
    .ok (⟨id, userId, category, [], .int 0, none, createdAt⟩,
         { db with assessments :=
             db.assessments ++ [⟨id, userId, category, [], .int 0, none, createdAt⟩] })

/-- The inner `try` block: cleaning and `JSON.parse`, whose exception is replaced by
`Error("Failed to parse assessment content")`. -/
def parseStep (env : Environment) (assessmentContent : String) : Except JSError ParsedContent :=
  match env.jsonParse (cleanedContent assessmentContent) with
  | none => .error (.error "Failed to parse assessment content")
  | some parsedContent => .ok parsedContent

/-- The body of the outer `try` block of `generateAssessment`. -/
def generateBody (env : Environment) (db : Db) (user : User) (request : AssessmentRequest) :
    Except JSError (Assessment × Db) :=
  match env.generateContent
      (buildPrompt user request.topic request.difficulty request.questionCount) with
  | .error e => .error (.error e)
  | .ok text =>
    match parseStep env (jsTrim text) with
    | .error e => .error e
    | .ok parsedContent =>
      match questionsOf parsedContent with
      | .error e => .error e
      | .ok questions => db.create env.newId env.now user.id request.topic questions

/-- The server action `generateAssessment({ topic, difficulty, questionCount })`: whatever
the `try` block throws is replaced by `Error("Failed to generate assessment")`. -/
def generateAssessment (env : Environment) (session : Option String) (db : Db)
    (request : AssessmentRequest) : Except String Assessment × Db :=
  match requireAuth session db with
  | .error e => (.error e, db)
  | .ok (user, _) =>
    match generateBody env db user request with
    | .error _ => (.error "Failed to generate assessment", db)
    | .ok (assessment, db2) => (.ok assessment, db2)

/-- The character U+0060 that makes up a code fence. -/
def backtick : Char := Char.ofNat 96

/-! ## Listing (`getAssessments`) and the views that read assessments -/

/-- The query `db.assessment.findMany({ where: { userId }, orderBy: { createdAt: "desc" } })`:
the rows of the user, newest first (rows created at the same time keep their order). -/
def Db.findMany (db : Db) (userId : String) : List Assessment :=
  (db.assessments.filter (fun a => a.userId == userId)).insertionSort
    (fun a b => b.createdAt ≤ a.createdAt)

/-- The server action `getAssessments()`. -/
def getAssessments (session : Option String) (db : Db) : Except String (List Assessment) × Db :=
  match requireAuth session db with
  | .error e => (.error e, db)
  | .ok (user, _) => (.ok (db.findMany user.id), db)

/-- The constant `latestAssessment` of `DashboardView`:
`assessments?.length > 0 ? assessments[assessments.length - 1] : null`. -/
def latestAssessment (assessments : List Assessment) : Option Assessment :=
  if assessments.length > 0 then assessments[assessments.length - 1]? else none

/-- The constant `correctAnswers` of `QuizResult`:
`result.questions?.filter(q => q.isCorrect).length || 0`. -/
def quizResultCorrectAnswers (result : Assessment) : Nat :=
  (result.questions.filter (fun q => q.isCorrect == some true)).length

/-- The constant `totalQuestions` of `QuizResult`: `result.questions?.length || 0`. -/
def quizResultTotalQuestions (result : Assessment) : Nat := result.questions.length

/-- The constant `optionLabel` of the quiz view: `String.fromCharCode(65 + index)`
(a single UTF-16 code unit; the model is exact for `65 + index` below the surrogates). -/
def optionLabel (index : Nat) : String := String.singleton (Char.ofNat (65 + index))

/-- The constant `displayOption` of the quiz view:
`option.startsWith(optionLabel + ".") ? option.substring(optionLabel.length + 2).trim()
: option`.  Characters stand for UTF-16 code units, so the model is exact when the third
character of the option lies in the Basic Multilingual Plane. -/
def displayOption (option : String) (index : Nat) : String :=
  if ((optionLabel index) ++ ".").data.isPrefixOf option.data then
    jsTrim ⟨option.data.drop ((optionLabel index).length + 2)⟩
  else option

/-! ## Example data -/

/-- A user row used in the examples. -/
def exampleUser : User := ⟨"u1", "clerk1", "tech", 3⟩

/-- A freshly generated four-option question with the given correct label. -/
def exampleQuestion (correctAnswer : String) : Question :=
  { question := "Which one?", options := some ["w", "x", "y", "z"],
    correctAnswer := some correctAnswer, explanation := some "because", difficulty := 3,
    timeToAnswer := "2", skills := some ["sql"], userAnswer := none,
    correctAnswerText := none, isCorrect := none }

/-- The assessment `a1` of `exampleUser`, as `generateAssessment` stores it. -/
def exampleAssessment (questions : List Question) : Assessment :=
  ⟨"a1", "u1", "SQL", questions, .int 0, none, 5⟩

/-- A database holding `exampleUser` and one assessment with the given questions. -/
def exampleDb (questions : List Question) : Db :=
  ⟨[exampleUser], [exampleAssessment questions]⟩

/-- The scenario of the specification: two questions with correct labels `B` and `D`. -/
def scenarioDb : Db := exampleDb [exampleQuestion "B", exampleQuestion "D"]

/-- The labels submitted in the scenario. -/
def scenarioAnswers : Answers := some [.str "B", .str "C"]

/-- The record the scenario ends with. -/
def scenarioResult : Assessment :=
  { exampleAssessment
      [{ exampleQuestion "B" with userAnswer := some "x", correctAnswerText := some "x",
                                  isCorrect := some true },
       { exampleQuestion "D" with userAnswer := some "y", correctAnswerText := some "z",
                                  isCorrect := some false }] with
    quizScore := .int 50, improvementTip := some tipGoodEffort }

/-- The response text of a model that returned one well-formed question. -/
def oneQuestionJson : String :=
  "\x7b\"questions\":[\x7b\"question\":\"Which one?\",\"options\":[\"w\",\"x\",\"y\",\"z\"]," ++
  "\"correctAnswer\":\"A\",\"explanation\":\"because\",\"difficulty\":3," ++
  "\"timeToAnswer\":\"2\",\"skills\":[\"sql\"]\x7d]\x7d"

/-- The function `JSON.parse` on the texts used in the examples; every other text, such
as `oops`, stands for a text that is not JSON. -/
def exampleJsonParse (s : String) : Option ParsedContent :=
  if s = oneQuestionJson then some (.object (some (.array [exampleQuestion "A"])))
  else if s = "\x7b\x7d" then some (.object none)
  else if s = "\x7b\"questions\":\"x\"\x7d" then some (.object (some .notArray))
  else if s = "[]" then some .nonObject
  else if s = "null" then some .null
  else none

/-- An environment whose generation service answers with the given text. -/
def exampleEnv (text : String) : Environment :=
  ⟨fun _ => .ok text, exampleJsonParse, "a2", 6⟩

/-- An environment whose generation service throws. -/
def failingEnv : Environment :=
  ⟨fun _ => .error "fetch failed", exampleJsonParse, "a2", 6⟩

/-- A request for two medium SQL questions. -/
def exampleRequest : AssessmentRequest := ⟨"SQL", "Medium", 2⟩

/-- A second user, who owns no assessment. -/
def otherUser : User := ⟨"u2", "clerk2", "law", 1⟩

/-- The scenario database with the second user added. -/
def twoUserDb : Db := ⟨[exampleUser, otherUser], scenarioDb.assessments⟩

/-- The scenario database without any assessment. -/
def emptyStoreDb : Db := ⟨[exampleUser, otherUser], []⟩

/-- A database in which `exampleUser` has an older assessment `a1` (created at 5) and a
newer one `a2` (created at 6), and `otherUser` has `b1` (created at 7). -/
def historyDb : Db :=
  ⟨[exampleUser, otherUser],
   [⟨"a1", "u1", "SQL", [exampleQuestion "B"], .int 0, none, 5⟩,
    ⟨"b1", "u2", "Law", [exampleQuestion "C"], .int 0, none, 7⟩,
    ⟨"a2", "u1", "Go", [exampleQuestion "D"], .int 0, none, 6⟩]⟩

/-- The record `a1` of `historyDb` after the answer `B` was submitted for it. -/
def historyResult : Assessment :=
  ⟨"a1", "u1", "SQL",
   [{ exampleQuestion "B" with
      userAnswer := some "x", correctAnswerText := some "x", isCorrect := some true }],
   .int 100, some tipExcellent, 5⟩

/-- Four questions with stored labels `B`, `E`, `E`, `D`; the label `E` indexes none of
the four options. -/
def unansweredQuestions : List Question :=
  [exampleQuestion "B", exampleQuestion "E", exampleQuestion "E", exampleQuestion "D"]

/-! ## Lemmas about the model -/

theorem submit_unfold (session : Option String) (db : Db) (id : String) (answers : Answers)
    (user : User) (uid : String) (a : Assessment)
    (hauth : requireAuth session db = .ok (user, uid))
    (hfind : db.findUnique id user.id = some a) :
    submitAssessmentAnswers session db id answers =
      match grade a.questions answers with
      | .error _ => (.error "Failed to submit assessment", db)
      | .ok g =>
        (.ok { a with quizScore := g.score, improvementTip := some g.improvementTip,
                      questions := g.questionsWithAnswers },
         db.update id user.id g.score g.improvementTip g.questionsWithAnswers) := by
  simp only [submitAssessmentAnswers, hauth, hfind]

theorem grade_ok_iff (qs : List Question) (answers : Answers) (g : Graded) :
    grade qs answers = .ok g ↔
      ∃ c gs, countCorrect answers qs 0 0 = .ok c ∧ mapQuestions answers qs 0 = .ok gs ∧
        g = ⟨computeScore c qs.length, improvementTipFor (computeScore c qs.length), gs⟩ := by
  unfold grade
  cases hc : countCorrect answers qs 0 0 with
  | error e => simp
  | ok c =>
    cases hm : mapQuestions answers qs 0 with
    | error e => simp
    | ok gs =>
      simp only [Except.ok.injEq]
      constructor
      · intro h; exact ⟨c, gs, rfl, rfl, h.symm⟩
      · rintro ⟨c2, gs2, h1, h2, h3⟩
        cases h1; cases h2; exact h3.symm

theorem submit_ok (session : Option String) (db : Db) (id : String) (answers : Answers)
    (user : User) (uid : String) (a r : Assessment)
    (hauth : requireAuth session db = .ok (user, uid))
    (hfind : db.findUnique id user.id = some a)
    (hok : (submitAssessmentAnswers session db id answers).1 = .ok r) :
    ∃ g, grade a.questions answers = .ok g ∧
      r = { a with quizScore := g.score, improvementTip := some g.improvementTip,
                   questions := g.questionsWithAnswers } := by
  rw [submit_unfold session db id answers user uid a hauth hfind] at hok
  cases hg : grade a.questions answers with
  | error e => simp [hg] at hok
  | ok g =>
    simp only [hg, Except.ok.injEq] at hok
    exact ⟨g, rfl, hok.symm⟩

theorem mapQuestions_ok (answers : Answers) :
    ∀ (qs : List Question) (i : Nat) (gs : List Question),
      mapQuestions answers qs i = .ok gs →
      gs.length = qs.length ∧
      ∀ j q, qs[j]? = some q →
        ∃ gq, gs[j]? = some gq ∧ gradeQuestion answers q (i + j) = .ok gq := by
  intro qs
  induction qs with
  | nil =>
    intro i gs h
    simp [mapQuestions] at h
    subst h
    simp
  | cons q rest ih =>
    intro i gs h
    unfold mapQuestions at h
    cases hg : gradeQuestion answers q i with
    | error e => simp [hg] at h
    | ok g =>
      cases hr : mapQuestions answers rest (i + 1) with
      | error e => simp [hg, hr] at h
      | ok gs2 =>
        simp [hg, hr] at h
        subst h
        obtain ⟨hl, hj⟩ := ih (i + 1) gs2 hr
        refine ⟨by simp [hl], ?_⟩
        intro j q2 hq2
        cases j with
        | zero =>
          simp at hq2
          subst hq2
          exact ⟨g, by simp, by simpa using hg⟩
        | succ j =>
          simp at hq2
          obtain ⟨gq, h1, h2⟩ := hj j q2 hq2
          refine ⟨gq, by simpa using h1, ?_⟩
          have : i + (j + 1) = i + 1 + j := by omega
          rw [this]; exact h2

/-- Every question of a successful submission is the callback applied to the stored one. -/
theorem submit_question (session : Option String) (db : Db) (id : String) (answers : Answers)
    (user : User) (uid : String) (a r : Assessment)
    (hauth : requireAuth session db = .ok (user, uid))
    (hfind : db.findUnique id user.id = some a)
    (hok : (submitAssessmentAnswers session db id answers).1 = .ok r)
    (i : Nat) (q : Question) (hq : a.questions[i]? = some q) :
    ∃ gq, r.questions[i]? = some gq ∧ gradeQuestion answers q i = .ok gq := by
  obtain ⟨g, hg, hr⟩ := submit_ok session db id answers user uid a r hauth hfind hok
  obtain ⟨c, gs, _, hm, hgs⟩ := (grade_ok_iff _ _ _).1 hg
  obtain ⟨_, hj⟩ := mapQuestions_ok answers a.questions 0 gs hm
  obtain ⟨gq, h1, h2⟩ := hj i q hq
  refine ⟨gq, ?_, by simpa using h2⟩
  subst hr; subst hgs
  simpa using h1

/-- What a successful run of the callback returns. -/
theorem gradeQuestion_ok (answers : Answers) (q g : Question) (i : Nat)
    (h : gradeQuestion answers q i = .ok g) :
    ∃ e idx text ct, getEntry answers i = .ok e ∧ userAnswerIndex e = .ok idx ∧
      userAnswerText q idx = .ok text ∧ correctAnswerTextOf q = .ok ct ∧
      g = { q with userAnswer := some text, correctAnswerText := ct,
                   isCorrect := some (strictEq e q.correctAnswer),
                   explanation := some (explanationOf q) } := by
  unfold gradeQuestion at h
  cases h1 : getEntry answers i with
  | error e => simp [h1] at h
  | ok e =>
    cases h2 : userAnswerIndex e with
    | error e2 => simp [h1, h2] at h
    | ok idx =>
      cases h3 : userAnswerText q idx with
      | error e3 => simp [h1, h2, h3] at h
      | ok text =>
        cases h4 : correctAnswerTextOf q with
        | error e4 => simp [h1, h2, h3, h4] at h
        | ok ct =>
          simp only [h1, h2, h3, h4, Except.ok.injEq] at h
          exact ⟨e, idx, text, ct, rfl, h2, h3, rfl, h.symm⟩

/-- The callback only succeeds on a question that has a `correctAnswer` and `options`. -/
theorem correctAnswerTextOf_ok (q : Question) (ct : Option String)
    (h : correctAnswerTextOf q = .ok ct) :
    ∃ ca opts, q.correctAnswer = some ca ∧ q.options = some opts := by
  unfold correctAnswerTextOf at h
  cases hca : q.correctAnswer with
  | none => simp [hca] at h
  | some ca =>
    cases ho : q.options with
    | none => simp [hca, ho] at h
    | some opts => exact ⟨ca, opts, rfl, rfl⟩

/-! ## Claims -/

/-- C1 (evaluation at the failing input). An assessment with 40 questions of which exactly
23 are answered with the correct label is stored with `quizScore = 57`, although
`100 * 23 / 40 = 57.5` rounds half-up to 58: in binary64 `23 / 40` is
`2589569785738035 / 2 ^ 52` and its product with 100 is `8092405580431359 / 2 ^ 47`,
that is `57.49999999999999`.  The worked examples of the claim (1 of 3, 2 of 3, 1 of 2)
do give 33, 67 and 50. -/
theorem score_23_of_40_is_57 :
    ((submitAssessmentAnswers (some "clerk1")
        (exampleDb (List.replicate 40 (exampleQuestion "A"))) "a1"
        (some (List.replicate 23 (.str "A") ++ List.replicate 17 (.str "B")))).1.toOption.map
      (fun r => r.quizScore)) = some (.int 57) ∧
    matchCount (List.replicate 23 (.str "A") ++ List.replicate 17 (.str "B"))
      (List.replicate 40 (exampleQuestion "A")) 0 = 23 ∧
    roundHalfUp (100 * 23) 40 = 58 ∧
    (JSNumber.ofCount 23).div (.ofCount 40) = .fin (2589569785738035 * 2 ^ 1022) ∧
    ((JSNumber.ofCount 23).div (.ofCount 40)).mul (.ofCount 100) =
      .fin (8092405580431359 * 2 ^ 1027) ∧
    computeScore 1 3 = .int 33 ∧ computeScore 2 3 = .int 67 ∧ computeScore 1 2 = .int 50 := by
  decide

/-- C2. In every successful submission, the graded question at index `i` has `isCorrect`
set to a boolean, and it is `true` exactly when the submitted entry at `i` is a string
identical to the stored `correctAnswer` string; whether that label resolves to an option
text plays no part. -/
theorem isCorrect_iff_same_label (session : Option String) (db : Db) (id : String)
    (answers : Answers) (user : User) (uid : String) (a r : Assessment)
    (hauth : requireAuth session db = .ok (user, uid))
    (hfind : db.findUnique id user.id = some a)
    (hok : (submitAssessmentAnswers session db id answers).1 = .ok r)
    (i : Nat) (q : Question) (hq : a.questions[i]? = some q) :
    ∃ gq e, r.questions[i]? = some gq ∧ getEntry answers i = .ok e ∧
      (gq.isCorrect = some true ∨ gq.isCorrect = some false) ∧
      (gq.isCorrect = some true ↔ ∃ s, e = .str s ∧ q.correctAnswer = some s) := by
  obtain ⟨gq, hgq, hgrade⟩ :=
    submit_question session db id answers user uid a r hauth hfind hok i q hq
  obtain ⟨e, idx, text, ct, he, _, _, hct, hg⟩ := gradeQuestion_ok answers q gq i hgrade
  obtain ⟨ca, opts, hca, _⟩ := correctAnswerTextOf_ok q ct hct
  refine ⟨gq, e, hgq, he, ?_, ?_⟩
  · subst hg
    cases strictEq e q.correctAnswer <;> simp
  · subst hg
    cases e <;> simp [strictEq, hca, eq_comm]

/-- C2 (witness). The scenario of the specification: correct labels `B` and `D`, submitted
labels `B` and `C`. -/
theorem isCorrect_iff_same_label_witness :
    (submitAssessmentAnswers (some "clerk1") scenarioDb "a1" scenarioAnswers).1 =
      .ok scenarioResult ∧
    ∃ gq e, scenarioResult.questions[1]? = some gq ∧ getEntry scenarioAnswers 1 = .ok e ∧
      (gq.isCorrect = some true ∨ gq.isCorrect = some false) ∧
      (gq.isCorrect = some true ↔
        ∃ s, e = .str s ∧ (exampleQuestion "D").correctAnswer = some s) :=
  ⟨by rfl,
   isCorrect_iff_same_label (some "clerk1") scenarioDb "a1" scenarioAnswers exampleUser "clerk1"
    (exampleAssessment [exampleQuestion "B", exampleQuestion "D"]) scenarioResult
    (by rfl) (by rfl) (by rfl) 1 (exampleQuestion "D") (by rfl)⟩


/-- C3. In every successful submission, if the entry submitted at index `i` is a string
whose first UTF-16 code unit is `65 + k` and `k` is below the number of options of the
stored question, the graded question's `userAnswer` is the option at index `k`. -/
theorem userAnswer_is_labelled_option (session : Option String) (db : Db) (id : String)
    (answers : Answers) (user : User) (uid : String) (a r : Assessment)
    (hauth : requireAuth session db = .ok (user, uid))
    (hfind : db.findUnique id user.id = some a)
    (hok : (submitAssessmentAnswers session db id answers).1 = .ok r)
    (i k : Nat) (q : Question) (label : String) (opts : List String)
    (hq : a.questions[i]? = some q) (hlabel : getEntry answers i = .ok (.str label))
    (hcode : charCodeAt0 label = some (65 + k))
    (hopts : q.options = some opts) (hk : k < opts.length) :
    ∃ gq, r.questions[i]? = some gq ∧ gq.userAnswer = some opts[k] := by
  obtain ⟨gq, hgq, hgrade⟩ :=
    submit_question session db id answers user uid a r hauth hfind hok i q hq
  obtain ⟨e, idx, text, ct, he, hidx, htext, _, hg⟩ := gradeQuestion_ok answers q gq i hgrade
  refine ⟨gq, hgq, ?_⟩
  rw [hlabel] at he
  cases he
  have hne : label ≠ "" := by
    intro h
    subst h
    simp [charCodeAt0] at hcode
  have hidx2 : idx = some (k : Int) := by
    simp [userAnswerIndex, Entry.truthy, hne, hcode] at hidx
    rw [← hidx]
  subst hidx2
  have : text = opts[k] := by
    simp [userAnswerText, hopts, hk] at htext
    rw [← htext]
  subst hg
  simp [this]

/-- C3 (witness). The scenario of the specification: submitting `["B", "C"]` makes the
`userAnswer` of question 1 the text of option index 2. -/
theorem userAnswer_is_labelled_option_witness :
    (submitAssessmentAnswers (some "clerk1") scenarioDb "a1" scenarioAnswers).1 =
      .ok scenarioResult ∧
    ∃ gq, scenarioResult.questions[1]? = some gq ∧ gq.userAnswer = some "y" :=
  ⟨by rfl,
   userAnswer_is_labelled_option (some "clerk1") scenarioDb "a1" scenarioAnswers exampleUser
    "clerk1" (exampleAssessment [exampleQuestion "B", exampleQuestion "D"]) scenarioResult
    (by rfl) (by rfl) (by rfl) 1 2 (exampleQuestion "D") "C" ["w", "x", "y", "z"]
    (by rfl) (by rfl) (by rfl) (by rfl) (by decide)⟩


/-- C4. The `improvementTip` a successful submission stores is a function of the stored
`quizScore` alone, with thresholds 50 and 75: a score below 50 gives the fundamentals
message, a score from 50 up to 74 the good-effort message, a score of 75 or more the
excellent message; the three messages are different strings. -/
theorem tip_follows_score_bands (session : Option String) (db : Db) (id : String)
    (answers : Answers) (user : User) (uid : String) (a r : Assessment)
    (hauth : requireAuth session db = .ok (user, uid))
    (hfind : db.findUnique id user.id = some a)
    (hok : (submitAssessmentAnswers session db id answers).1 = .ok r) :
    r.improvementTip = some (improvementTipFor r.quizScore) ∧
    (∀ n, n < 50 → improvementTipFor (.int n) = tipFundamentals) ∧
    (∀ n, 50 ≤ n → n < 75 → improvementTipFor (.int n) = tipGoodEffort) ∧
    (∀ n, 75 ≤ n → improvementTipFor (.int n) = tipExcellent) ∧
    tipFundamentals ≠ tipGoodEffort ∧ tipGoodEffort ≠ tipExcellent ∧
    tipFundamentals ≠ tipExcellent := by
  obtain ⟨g, hg, hr⟩ := submit_ok session db id answers user uid a r hauth hfind hok
  obtain ⟨c, gs, _, _, hgs⟩ := (grade_ok_iff _ _ _).1 hg
  refine ⟨?_, ?_, ?_, ?_, by decide, by decide, by decide⟩
  · subst hr; subst hgs; rfl
  · intro n hn
    simp [improvementTipFor, Score.lt, hn]
  · intro n h1 h2
    have : ¬ n < 50 := by omega
    simp [improvementTipFor, Score.lt, this, h2]
  · intro n h1
    have h2 : ¬ n < 50 := by omega
    have h3 : ¬ n < 75 := by omega
    simp [improvementTipFor, Score.lt, h2, h3]

/-- C4 (witness). The scenario of the specification scores 50 and stores the good-effort
message; 49, 50, 74 and 75 fall on the stated sides of the two thresholds. -/
theorem tip_follows_score_bands_witness :
    (submitAssessmentAnswers (some "clerk1") scenarioDb "a1" scenarioAnswers).1 =
      .ok scenarioResult ∧
    scenarioResult.improvementTip = some tipGoodEffort ∧
    improvementTipFor (.int 49) = tipFundamentals ∧
    improvementTipFor (.int 50) = tipGoodEffort ∧
    improvementTipFor (.int 74) = tipGoodEffort ∧
    improvementTipFor (.int 75) = tipExcellent :=
  have h := tip_follows_score_bands (some "clerk1") scenarioDb "a1" scenarioAnswers exampleUser
    "clerk1" (exampleAssessment [exampleQuestion "B", exampleQuestion "D"]) scenarioResult
    (by rfl) (by rfl) (by rfl)
  ⟨by rfl, h.1, h.2.1 49 (by decide), h.2.2.1 50 (by decide) (by decide),
   h.2.2.1 74 (by decide) (by decide), h.2.2.2.1 75 (by decide)⟩


/-- The callback succeeds on a question with `options` and a `correctAnswer` when the
entry at its index is not a truthy non-string. -/
theorem gradeQuestion_total (xs : List Entry) (q : Question) (i : Nat)
    (hq : q.options ≠ none ∧ q.correctAnswer ≠ none)
    (he : xs.getD i .undefined ≠ .other true) :
    ∃ g, gradeQuestion (some xs) q i = .ok g := by
  obtain ⟨ho, hc⟩ := hq
  obtain ⟨opts, ho⟩ := Option.ne_none_iff_exists'.1 ho
  obtain ⟨ca, hc⟩ := Option.ne_none_iff_exists'.1 hc
  have h2 : ∃ idx, userAnswerIndex (xs.getD i .undefined) = .ok idx := by
    cases hx : xs.getD i .undefined with
    | undefined => exact ⟨_, rfl⟩
    | null => exact ⟨_, rfl⟩
    | str s =>
      unfold userAnswerIndex
      split <;> exact ⟨_, rfl⟩
    | other b =>
      cases b with
      | true => exact absurd hx he
      | false => exact ⟨_, rfl⟩
  obtain ⟨idx, hidx⟩ := h2
  have h3 : ∃ text, userAnswerText q idx = .ok text := by
    unfold userAnswerText
    rw [ho]
    cases idx with
    | none => exact ⟨_, rfl⟩
    | some k =>
      dsimp only
      split
      · split <;> exact ⟨_, rfl⟩
      · exact ⟨_, rfl⟩
  obtain ⟨text, htext⟩ := h3
  have h4 : ∃ ct, correctAnswerTextOf q = .ok ct := by
    unfold correctAnswerTextOf
    rw [ho, hc]
    dsimp only
    cases (charCodeAt0 ca).map (fun c => (c : Int) - 65) with
    | none => exact ⟨_, rfl⟩
    | some k =>
      dsimp only
      split <;> exact ⟨_, rfl⟩
  obtain ⟨ct, hct⟩ := h4
  unfold gradeQuestion getEntry
  simp only [hidx, htext, hct]
  exact ⟨_, rfl⟩

/-- An element read from an array is one of its elements or `undefined`. -/
theorem getD_ne_other (xs : List Entry) (i : Nat) (hxs : ∀ e ∈ xs, e ≠ .other true) :
    xs.getD i .undefined ≠ .other true := by
  by_cases hi : i < xs.length
  · rw [List.getD_eq_getElem _ _ hi]
    exact hxs _ (List.getElem_mem _)
  · rw [List.getD_eq_default _ _ (by omega)]
    simp

/-- The `map` succeeds when every callback does. -/
theorem mapQuestions_total (xs : List Entry) (hxs : ∀ e ∈ xs, e ≠ .other true) :
    ∀ (qs : List Question) (i : Nat),
      (∀ q ∈ qs, q.options ≠ none ∧ q.correctAnswer ≠ none) →
      ∃ gs, mapQuestions (some xs) qs i = .ok gs := by
  intro qs
  induction qs with
  | nil => intro i _; exact ⟨[], rfl⟩
  | cons q rest ih =>
    intro i hqs
    obtain ⟨g, hg⟩ := gradeQuestion_total xs q i (hqs q (by simp)) (getD_ne_other xs i hxs)
    obtain ⟨gs, hgs⟩ := ih (i + 1) (fun q2 h2 => hqs q2 (by simp [h2]))
    exact ⟨g :: gs, by simp only [mapQuestions, hg, hgs]⟩

/-- The counting loop never fails on an array. -/
theorem countCorrect_total (xs : List Entry) :
    ∀ (qs : List Question) (i acc : Nat), ∃ c, countCorrect (some xs) qs i acc = .ok c := by
  intro qs
  induction qs with
  | nil => intro i acc; exact ⟨acc, rfl⟩
  | cons q rest ih =>
    intro i acc
    obtain ⟨c, hc⟩ := ih (i + 1)
      (if strictEq (xs.getD i .undefined) q.correctAnswer then acc + 1 else acc)
    exact ⟨c, by simp only [countCorrect, getEntry, hc]⟩

/-- Grading an array of answers succeeds on well-formed questions. -/
theorem grade_total (xs : List Entry) (qs : List Question)
    (hqs : ∀ q ∈ qs, q.options ≠ none ∧ q.correctAnswer ≠ none)
    (hxs : ∀ e ∈ xs, e ≠ .other true) :
    ∃ g, grade qs (some xs) = .ok g := by
  obtain ⟨c, hc⟩ := countCorrect_total xs qs 0 0
  obtain ⟨gs, hgs⟩ := mapQuestions_total xs hxs qs 0 hqs
  exact ⟨_, (grade_ok_iff _ _ _).2 ⟨c, gs, hc, hgs, rfl⟩⟩

/-- A successful lookup and a successful grading make the submission succeed. -/
theorem submit_total (session : Option String) (db : Db) (id : String) (answers : Answers)
    (user : User) (uid : String) (a : Assessment) (g : Graded)
    (hauth : requireAuth session db = .ok (user, uid))
    (hfind : db.findUnique id user.id = some a)
    (hg : grade a.questions answers = .ok g) :
    submitAssessmentAnswers session db id answers =
      (.ok { a with quizScore := g.score, improvementTip := some g.improvementTip,
                    questions := g.questionsWithAnswers },
       db.update id user.id g.score g.improvementTip g.questionsWithAnswers) := by
  rw [submit_unfold session db id answers user uid a hauth hfind, hg]


/-- The callback on an entry that is missing (also past the end of a shorter array),
`undefined`, `null` or another falsy non-string: no answer, not correct. -/
theorem gradeQuestion_absent (xs : List Entry) (q g : Question) (i : Nat)
    (hun : xs[i]? = none ∨ xs[i]? = some .undefined ∨ xs[i]? = some .null ∨
      xs[i]? = some (.other false))
    (hg : gradeQuestion (some xs) q i = .ok g) :
    g.userAnswer = some noAnswer ∧ g.isCorrect = some false := by
  obtain ⟨e, idx, text, ct, he, hidx, htext, hct, hgq⟩ := gradeQuestion_ok (some xs) q g i hg
  obtain ⟨ca, opts, hc, _⟩ := correctAnswerTextOf_ok q ct hct
  simp only [getEntry, Except.ok.injEq, List.getD_eq_getElem?_getD] at he
  subst hgq
  simp only [Option.some.injEq]
  have hcase : e = .undefined ∨ e = .null ∨ e = .other false := by
    rcases hun with h | h | h | h
    · left; rw [← he, h]; rfl
    · left; rw [← he, h]; rfl
    · right; left; rw [← he, h]; rfl
    · right; right; rw [← he, h]; rfl
  have hi : idx = some (-1) := by
    rcases hcase with h2 | h2 | h2 <;> subst h2 <;>
      simp [userAnswerIndex, Entry.truthy] at hidx <;> exact hidx.symm
  subst hi
  refine ⟨by simpa [userAnswerText] using htext.symm, ?_⟩
  rcases hcase with h2 | h2 | h2 <;> subst h2 <;> simp [strictEq, hc]

/-- The callback on a submitted string that resolves to no option (its first code unit
is not `65 + j` for any `j` below the number of options; the empty string included): no
answer, and `isCorrect` is the comparison of the string with the stored label. -/
theorem gradeQuestion_out_of_range (xs : List Entry) (q g : Question) (i : Nat)
    (opts : List String) (s : String)
    (ho : q.options = some opts) (hs : xs[i]? = some (.str s))
    (hout : ∀ j, charCodeAt0 s = some (65 + j) → opts.length ≤ j)
    (hg : gradeQuestion (some xs) q i = .ok g) :
    g.userAnswer = some noAnswer ∧
    g.isCorrect = some (decide (q.correctAnswer = some s)) := by
  obtain ⟨e, idx, text, ct, he, hidx, htext, hct, hgq⟩ := gradeQuestion_ok (some xs) q g i hg
  obtain ⟨ca, opts2, hc, _⟩ := correctAnswerTextOf_ok q ct hct
  simp only [getEntry, Except.ok.injEq, List.getD_eq_getElem?_getD] at he
  subst hgq
  simp only [Option.some.injEq]
  have hes : e = .str s := by rw [← he, hs]; rfl
  subst hes
  constructor
  · unfold userAnswerIndex at hidx
    split at hidx
    · simp only [Except.ok.injEq] at hidx
      subst hidx
      cases hcs : charCodeAt0 s with
      | none => simpa [userAnswerText, hcs] using htext.symm
      | some c =>
        simp only [userAnswerText, hcs, Option.map_some', ho] at htext
        by_cases h0 : (0 : Int) ≤ (c : Int) - 65
        · have hc65 : c = 65 + (c - 65) := by omega
          have hlen := hout (c - 65) (by rw [hcs, ← hc65])
          have : ¬ ((c : Int) - 65 < (opts.length : Int)) := by omega
          simpa [h0, this] using htext.symm
        · simpa [h0] using htext.symm
    · simp only [Except.ok.injEq] at hidx
      subst hidx
      simpa [userAnswerText] using htext.symm
  · simp [strictEq, hc, eq_comm]

/-- A stored question whose own `correctAnswer` indexes none of its options is not
rejected by the code, and `isCorrect` remains label equality there: four options,
`correctAnswer` `E`, answered with `E` gives `userAnswer = "No answer provided"` and
`isCorrect = true`. -/
theorem out_of_range_label_is_marked_correct :
    charCodeAt0 "E" = some (65 + 4) ∧
    (exampleQuestion "E").options = some ["w", "x", "y", "z"] ∧
    ((submitAssessmentAnswers (some "clerk1") (exampleDb [exampleQuestion "E"]) "a1"
        (some [.str "E"])).1.toOption.map
      (fun r => r.questions.map (fun g => (g.userAnswer, g.isCorrect)))) =
      some [(some "No answer provided", some true)] := by
  decide

/-- C5. When every stored question has `options` and a `correctAnswer` and the submitted
array holds no truthy non-string, grading does not fail, and for every question index
`i`: an entry that is missing (also every index past the end of a shorter array),
`undefined`, `null` or another falsy non-string is graded
`userAnswer = "No answer provided"` and `isCorrect = false`; a label that resolves
outside `[0, options.length)` is graded `userAnswer = "No answer provided"` and
`isCorrect` is `true` only if the label is the stored `correctAnswer` itself, so it is
`false` whenever the stored `correctAnswer` is a valid label (one that resolves inside
the options). -/
theorem unanswered_entry_graded_as_no_answer (session : Option String) (db : Db)
    (id : String) (xs : List Entry) (user : User) (uid : String) (a : Assessment)
    (hauth : requireAuth session db = .ok (user, uid))
    (hfind : db.findUnique id user.id = some a)
    (hqs : ∀ q ∈ a.questions, q.options ≠ none ∧ q.correctAnswer ≠ none)
    (hxs : ∀ e ∈ xs, e ≠ .other true) :
    ∃ r, (submitAssessmentAnswers session db id (some xs)).1 = .ok r ∧
      r.questions.length = a.questions.length ∧
      ∀ (i : Nat) (q : Question) (opts : List String),
        a.questions[i]? = some q → q.options = some opts →
        ∃ gq, r.questions[i]? = some gq ∧
          ((xs[i]? = none ∨ xs[i]? = some .undefined ∨ xs[i]? = some .null ∨
              xs[i]? = some (.other false)) →
            gq.userAnswer = some noAnswer ∧ gq.isCorrect = some false) ∧
          (∀ s, xs[i]? = some (.str s) →
            (∀ j, charCodeAt0 s = some (65 + j) → opts.length ≤ j) →
            gq.userAnswer = some noAnswer ∧
            (gq.isCorrect = some true ∨ gq.isCorrect = some false) ∧
            (gq.isCorrect = some true ↔ q.correctAnswer = some s) ∧
            (∀ (ca : String) (k : Nat), q.correctAnswer = some ca →
              charCodeAt0 ca = some (65 + k) → k < opts.length →
              gq.isCorrect = some false)) := by
  obtain ⟨g, hg⟩ := grade_total xs a.questions hqs hxs
  have hsub := submit_total session db id (some xs) user uid a g hauth hfind hg
  have hok : (submitAssessmentAnswers session db id (some xs)).1 =
      .ok { a with quizScore := g.score, improvementTip := some g.improvementTip,
                   questions := g.questionsWithAnswers } := by rw [hsub]
  refine ⟨_, hok, ?_, ?_⟩
  · obtain ⟨c, gs, _, hm, hgs⟩ := (grade_ok_iff _ _ _).1 hg
    subst hgs
    exact (mapQuestions_ok (some xs) a.questions 0 gs hm).1
  · intro i q opts hq ho
    obtain ⟨gq, hgq, hgrade⟩ :=
      submit_question session db id (some xs) user uid a _ hauth hfind hok i q hq
    refine ⟨gq, hgq, ?_, ?_⟩
    · intro hun
      exact gradeQuestion_absent xs q gq i hun hgrade
    · intro s hs hout
      obtain ⟨h1, h2⟩ := gradeQuestion_out_of_range xs q gq i opts s ho hs hout hgrade
      refine ⟨h1, ?_, ?_, ?_⟩
      · rw [h2]
        cases decide (q.correctAnswer = some s) <;> simp
      · rw [h2]
        simp
      · intro ca k hca hcode hk
        rw [h2, hca]
        have hne : ca ≠ s := by
          intro h
          subst h
          have := hout k hcode
          omega
        simp [hne]

/-- C5 (witness). Four questions with stored labels `B`, `E`, `E`, `D` (the label `E`
indexes none of the four options) and the submitted array `["E", "F", null]`: index 0
carries a label outside the options, index 1 another such label on a question whose own
label is `E`, index 2 is `null`, index 3 is past the end of the array. All four are
graded `No answer provided` and not correct. -/
theorem unanswered_entry_graded_as_no_answer_witness :
    ∃ r, (submitAssessmentAnswers (some "clerk1") (exampleDb unansweredQuestions) "a1"
        (some [.str "E", .str "F", .null])).1 = .ok r ∧
      r.questions.length = 4 ∧
      (∃ gq, r.questions[0]? = some gq ∧ gq.userAnswer = some noAnswer ∧
        gq.isCorrect = some false) ∧
      (∃ gq, r.questions[1]? = some gq ∧ gq.userAnswer = some noAnswer ∧
        gq.isCorrect = some false) ∧
      (∃ gq, r.questions[2]? = some gq ∧ gq.userAnswer = some noAnswer ∧
        gq.isCorrect = some false) ∧
      (∃ gq, r.questions[3]? = some gq ∧ gq.userAnswer = some noAnswer ∧
        gq.isCorrect = some false) := by
  obtain ⟨r, h1, h2, h3⟩ :=
    unanswered_entry_graded_as_no_answer (some "clerk1") (exampleDb unansweredQuestions) "a1"
      [.str "E", .str "F", .null] exampleUser "clerk1" (exampleAssessment unansweredQuestions)
      (by rfl) (by rfl) (by decide) (by decide)
  have houtE : ∀ j, charCodeAt0 "E" = some (65 + j) → ["w", "x", "y", "z"].length ≤ j := by
    intro j hj
    have : (69 : Nat) = 65 + j := by simpa [charCodeAt0] using hj
    simp
    omega
  have houtF : ∀ j, charCodeAt0 "F" = some (65 + j) → ["w", "x", "y", "z"].length ≤ j := by
    intro j hj
    have : (70 : Nat) = 65 + j := by simpa [charCodeAt0] using hj
    simp
    omega
  refine ⟨r, h1, h2, ?_, ?_, ?_, ?_⟩
  · obtain ⟨gq, hgq, _, hlab⟩ :=
      h3 0 (exampleQuestion "B") ["w", "x", "y", "z"] (by rfl) (by rfl)
    obtain ⟨hua, _, _, hvalid⟩ := hlab "E" (by rfl) houtE
    exact ⟨gq, hgq, hua, hvalid "B" 1 (by rfl) (by rfl) (by decide)⟩
  · obtain ⟨gq, hgq, _, hlab⟩ :=
      h3 1 (exampleQuestion "E") ["w", "x", "y", "z"] (by rfl) (by rfl)
    obtain ⟨hua, hbool, hiff, _⟩ := hlab "F" (by rfl) houtF
    refine ⟨gq, hgq, hua, ?_⟩
    rcases hbool with ht | hf
    · exact absurd (hiff.1 ht) (by decide)
    · exact hf
  · obtain ⟨gq, hgq, habs, _⟩ :=
      h3 2 (exampleQuestion "E") ["w", "x", "y", "z"] (by rfl) (by rfl)
    obtain ⟨hua, hic⟩ := habs (Or.inr (Or.inr (Or.inl (by rfl))))
    exact ⟨gq, hgq, hua, hic⟩
  · obtain ⟨gq, hgq, habs, _⟩ :=
      h3 3 (exampleQuestion "D") ["w", "x", "y", "z"] (by rfl) (by rfl)
    obtain ⟨hua, hic⟩ := habs (Or.inl (by rfl))
    exact ⟨gq, hgq, hua, hic⟩


/-- An exact quotient is its own nearest integer. -/
theorem rneDiv_mul_left (b m : Nat) (hb : 0 < b) : rneDiv (b * m) b = m := by
  unfold rneDiv
  simp [Nat.mul_div_cancel_left m hb, Nat.mul_mod_right, hb]

/-- In binary64, `n / n` is exactly `1` for every positive count `n`. -/
theorem div_self_eq_one (n : Nat) (hn : 0 < n) :
    (JSNumber.ofCount n).div (.ofCount n) = .fin unit64 := by
  have hU : 0 < unit64 := by decide
  have hb : 0 < n * unit64 := Nat.mul_pos hn hU
  have hne : n * unit64 ≠ 0 := Nat.pos_iff_ne_zero.1 hb
  have hlog : floorLog2 unit64 - 52 = 1022 := by decide
  have hsplit : unit64 = 2 ^ 1022 * 2 ^ 52 := by decide
  simp only [JSNumber.ofCount, JSNumber.div, hne, if_false]
  congr 1
  unfold roundBinary64
  simp only [Nat.mul_div_cancel_left unit64 hb, hlog]
  have h1 : n * unit64 * unit64 = n * unit64 * 2 ^ 1022 * 2 ^ 52 := by
    rw [Nat.mul_assoc (n * unit64) (2 ^ 1022) (2 ^ 52), ← hsplit]
  rw [h1, rneDiv_mul_left _ _ (Nat.mul_pos hb (by decide))]
  decide

/-- All answers correct: the score expression evaluates to 100. -/
theorem computeScore_self (n : Nat) (hn : 0 < n) : computeScore n n = .int 100 := by
  unfold computeScore
  rw [div_self_eq_one n hn]
  decide


/-- The `map` succeeds when each question is well formed and the entry read at its index
is not a truthy non-string. -/
theorem mapQuestions_total_at (xs : List Entry) :
    ∀ (qs : List Question) (i : Nat),
      (∀ j q, qs[j]? = some q → (q.options ≠ none ∧ q.correctAnswer ≠ none) ∧
        xs.getD (i + j) .undefined ≠ .other true) →
      ∃ gs, mapQuestions (some xs) qs i = .ok gs := by
  intro qs
  induction qs with
  | nil => intro i _; exact ⟨[], rfl⟩
  | cons q rest ih =>
    intro i h
    have h0 := h 0 q (by simp)
    obtain ⟨g, hg⟩ := gradeQuestion_total xs q i h0.1 (by simpa using h0.2)
    obtain ⟨gs, hgs⟩ := ih (i + 1) (fun j q2 hj => by
      have := h (j + 1) q2 (by simpa using hj)
      have e : i + 1 + j = i + (j + 1) := by omega
      rw [e]; exact this)
    exact ⟨g :: gs, by simp only [mapQuestions, hg, hgs]⟩

/-- The counting loop counts every question when every comparison succeeds. -/
theorem countCorrect_all (xs : List Entry) :
    ∀ (qs : List Question) (i acc : Nat),
      (∀ j q, qs[j]? = some q → strictEq (xs.getD (i + j) .undefined) q.correctAnswer = true) →
      countCorrect (some xs) qs i acc = .ok (acc + qs.length) := by
  intro qs
  induction qs with
  | nil => intro i acc _; rfl
  | cons q rest ih =>
    intro i acc h
    have h0 : strictEq (xs.getD i .undefined) q.correctAnswer = true := by
      simpa using h 0 q (by simp)
    have hr := ih (i + 1) (acc + 1) (fun j q2 hj => by
      have := h (j + 1) q2 (by simpa using hj)
      have e : i + 1 + j = i + (j + 1) := by omega
      rw [e]; exact this)
    simp only [countCorrect, getEntry, h0, if_true, hr, List.length_cons]
    congr 1
    omega

/-- C6. For every assessment with at least one question (each carrying its `options`),
submitting at every index the very string stored as that question's `correctAnswer`
succeeds, stores `quizScore = 100`, and marks every graded question `isCorrect = true`. -/
theorem all_correct_scores_100 (session : Option String) (db : Db) (id : String)
    (xs : List Entry) (user : User) (uid : String) (a : Assessment)
    (hauth : requireAuth session db = .ok (user, uid))
    (hfind : db.findUnique id user.id = some a)
    (hne : a.questions ≠ [])
    (hopts : ∀ q ∈ a.questions, q.options ≠ none)
    (hall : ∀ (i : Nat) (q : Question), a.questions[i]? = some q →
      ∃ s, q.correctAnswer = some s ∧ xs[i]? = some (.str s)) :
    ∃ r, (submitAssessmentAnswers session db id (some xs)).1 = .ok r ∧
      r.quizScore = .int 100 ∧ r.questions.length = a.questions.length ∧
      ∀ (i : Nat) (gq : Question), r.questions[i]? = some gq → gq.isCorrect = some true := by
  have hget : ∀ i q, a.questions[i]? = some q →
      ∃ s, q.correctAnswer = some s ∧ xs.getD i .undefined = .str s := by
    intro i q hq
    obtain ⟨s, h1, h2⟩ := hall i q hq
    exact ⟨s, h1, by simp [List.getD_eq_getElem?_getD, h2]⟩
  have hcount : countCorrect (some xs) a.questions 0 0 = .ok (0 + a.questions.length) :=
    countCorrect_all xs a.questions 0 0 (fun j q hq => by
      obtain ⟨s, h1, h2⟩ := hget j q hq
      rw [Nat.zero_add, h1, h2]
      simp [strictEq])
  obtain ⟨gs, hgs⟩ := mapQuestions_total_at xs a.questions 0 (fun j q hq => by
    obtain ⟨s, h1, h2⟩ := hget j q hq
    refine ⟨⟨hopts q (List.getElem?_mem hq), by simp [h1]⟩, ?_⟩
    rw [Nat.zero_add, h2]
    simp)
  have hg := (grade_ok_iff a.questions (some xs) _).2 ⟨_, gs, hcount, hgs, rfl⟩
  have hsub := submit_total session db id (some xs) user uid a _ hauth hfind hg
  have hpos : 0 < a.questions.length := List.length_pos.2 hne
  obtain ⟨hlen, hj⟩ := mapQuestions_ok (some xs) a.questions 0 gs hgs
  refine ⟨_, by rw [hsub], ?_, hlen, ?_⟩
  · simp only [Nat.zero_add]
    exact computeScore_self _ hpos
  · intro i gq hgq
    have hgq2 : gs[i]? = some gq := hgq
    have hi : i < a.questions.length := by
      rw [← hlen]
      exact (List.getElem?_eq_some_iff.1 hgq2).1
    obtain ⟨gq2, h1, h2⟩ := hj i _ (List.getElem?_eq_getElem hi)
    rw [hgq2] at h1
    cases h1
    obtain ⟨e, idx, text, ct, he, _, _, _, hrec⟩ := gradeQuestion_ok _ _ _ _ h2
    obtain ⟨s, hs1, hs2⟩ := hget i _ (List.getElem?_eq_getElem hi)
    simp only [getEntry, Nat.zero_add, Except.ok.injEq] at he
    rw [hs2] at he
    subst he
    rw [hrec]
    simp [strictEq, hs1]

/-- C6 (witness). Submitting `["B", "D"]` to the scenario assessment. -/
theorem all_correct_scores_100_witness :
    ∃ r, (submitAssessmentAnswers (some "clerk1") scenarioDb "a1"
        (some [.str "B", .str "D"])).1 = .ok r ∧
      r.quizScore = .int 100 ∧ r.questions.length = 2 ∧
      ∀ (i : Nat) (gq : Question), r.questions[i]? = some gq → gq.isCorrect = some true :=
  all_correct_scores_100 (some "clerk1") scenarioDb "a1" [.str "B", .str "D"] exampleUser
    "clerk1" (exampleAssessment [exampleQuestion "B", exampleQuestion "D"])
    (by rfl) (by rfl) (by decide) (by decide) (by
      intro i q hq
      match i, hq with
      | 0, hq => exact ⟨"B", by simp [exampleAssessment] at hq; rw [← hq]; rfl, rfl⟩
      | 1, hq => exact ⟨"D", by simp [exampleAssessment] at hq; rw [← hq]; rfl, rfl⟩
      | n + 2, hq => simp [exampleAssessment] at hq)


/-- With no questions neither loop body runs: grading succeeds for every `answers`
argument, with `0 / 0 = NaN` as the score and, `NaN < 50` and `NaN < 75` being false,
the excellent message as the tip. -/
theorem grade_nil (answers : Answers) :
    grade [] answers = .ok ⟨.nan, tipExcellent, []⟩ := by
  rfl

/-- C7 (evaluation at the failing input). An assessment stored with zero questions is not
rejected: grading computes the score `NaN` and the excellent improvement tip, and the
update is issued with them (the store is modelled as taking every value it is given). -/
theorem zero_questions_not_rejected :
    grade [] (some []) = .ok ⟨.nan, tipExcellent, []⟩ ∧
    (submitAssessmentAnswers (some "clerk1") (exampleDb []) "a1" (some [])).1 =
      .ok { exampleAssessment [] with
            quizScore := .nan, improvementTip := some tipExcellent } ∧
    (submitAssessmentAnswers (some "clerk1") (exampleDb []) "a1" (some [])).2 =
      ⟨[exampleUser], [{ exampleAssessment [] with
                         quizScore := .nan, improvementTip := some tipExcellent }]⟩ ∧
    (submitAssessmentAnswers (some "clerk1") (exampleDb []) "a1" (some [])).2 ≠
      exampleDb [] := by
  refine ⟨by rfl, by rfl, by rfl, by decide⟩

/-- C8 (counterexample). For a stored question with four options whose `correctAnswer` is
`E` (index 4, outside the options), the graded `correctAnswerText` is absent, not the
string `No answer provided`; the same label submitted as an answer does get that
string as `userAnswer`. -/
theorem correctAnswerText_has_no_fallback :
    charCodeAt0 "E" = some (65 + 4) ∧
    ((submitAssessmentAnswers (some "clerk1") (exampleDb [exampleQuestion "E"]) "a1"
        (some [.str "E"])).1.toOption.map
      (fun r => r.questions.map (fun g => (g.userAnswer, g.correctAnswerText)))) =
      some [(some "No answer provided", none)] := by
  decide

/-- C8 (amended). In every successful submission, `correctAnswerText` of the graded
question is `options[k]` with `k` = (first UTF-16 code unit of `correctAnswer`) - 65:
the option at index `k` when `0 <= k < options.length`, the same element the label rule
for `userAnswer` selects; for every other `correctAnswer` it is left absent
(`undefined`) and no fallback string is substituted. -/
theorem correctAnswerText_is_labelled_option (session : Option String) (db : Db)
    (id : String) (answers : Answers) (user : User) (uid : String) (a r : Assessment)
    (hauth : requireAuth session db = .ok (user, uid))
    (hfind : db.findUnique id user.id = some a)
    (hok : (submitAssessmentAnswers session db id answers).1 = .ok r)
    (i : Nat) (q : Question) (opts : List String) (ca : String)
    (hq : a.questions[i]? = some q) (ho : q.options = some opts)
    (hc : q.correctAnswer = some ca) :
    ∃ gq, r.questions[i]? = some gq ∧
      (∀ (k : Nat) (hk : k < opts.length), charCodeAt0 ca = some (65 + k) →
        gq.correctAnswerText = some opts[k]) ∧
      (∀ k : Nat, charCodeAt0 ca = some (65 + k) → opts.length ≤ k →
        gq.correctAnswerText = none) ∧
      ((∀ k : Nat, charCodeAt0 ca ≠ some (65 + k)) → gq.correctAnswerText = none) := by
  obtain ⟨gq, hgq, hgrade⟩ :=
    submit_question session db id answers user uid a r hauth hfind hok i q hq
  obtain ⟨e, idx, text, ct, _, _, _, hct, hg⟩ := gradeQuestion_ok answers q gq i hgrade
  refine ⟨gq, hgq, ?_⟩
  subst hg
  simp only
  unfold correctAnswerTextOf at hct
  rw [hc, ho] at hct
  simp only at hct
  refine ⟨?_, ?_, ?_⟩
  · intro k hk hcode
    simp [hcode] at hct
    rw [← hct]
    simp [hk]
  · intro k hcode hk
    simp [hcode] at hct
    rw [← hct]
    simp [hk]
  · intro hno
    cases hcs : charCodeAt0 ca with
    | none =>
      simp [hcs] at hct
      exact hct.symm
    | some c =>
      simp only [hcs, Option.map_some'] at hct
      by_cases h0 : (0 : Int) ≤ (c : Int) - 65
      · exact absurd (by rw [hcs]; congr 1; omega) (hno (c - 65))
      · simp [h0] at hct
        exact hct.symm

/-- C8 (witness). In the scenario the correct label `D` of question 1 resolves to option
index 3. -/
theorem correctAnswerText_is_labelled_option_witness :
    (submitAssessmentAnswers (some "clerk1") scenarioDb "a1" scenarioAnswers).1 =
      .ok scenarioResult ∧
    ∃ gq, scenarioResult.questions[1]? = some gq ∧ gq.correctAnswerText = some "z" := by
  obtain ⟨gq, h1, h2, _, _⟩ :=
    correctAnswerText_is_labelled_option (some "clerk1") scenarioDb "a1" scenarioAnswers
      exampleUser "clerk1" (exampleAssessment [exampleQuestion "B", exampleQuestion "D"])
      scenarioResult (by rfl) (by rfl) (by rfl) 1 (exampleQuestion "D") ["w", "x", "y", "z"]
      "D" (by rfl) (by rfl) (by rfl)
  exact ⟨by rfl, gq, h1, h2 3 (by decide) (by rfl)⟩


/-- The explanation stored by grading is never the empty string. -/
theorem explanationOf_ne_empty (q : Question) : explanationOf q ≠ "" := by
  have htemplate : ∀ s : String, "This question tests your knowledge of " ++ s ++ "." ≠ "" := by
    intro s h
    have := congrArg String.length h
    simp [String.length_append] at this
    exact absurd this.2 (by decide)
  unfold explanationOf
  cases q.explanation with
  | none => exact htemplate _
  | some e =>
    by_cases he : e = ""
    · simp only [he, if_true]; exact htemplate _
    · simp only [he, if_false]; exact he

/-- A non-empty stored explanation is kept. -/
theorem explanationOf_of_some (g : Question) (x : String) (h : g.explanation = some x)
    (hx : x ≠ "") : explanationOf g = x := by
  unfold explanationOf
  rw [h]
  simp only [hx, if_false]

/-- Grading a question that was already graded gives what grading the original gives. -/
theorem gradeQuestion_regrade (a1 a2 : Answers) (q g1 : Question) (i j : Nat)
    (h : gradeQuestion a1 q i = .ok g1) :
    gradeQuestion a2 g1 j = gradeQuestion a2 q j := by
  obtain ⟨e, idx, text, ct, _, _, _, _, hg⟩ := gradeQuestion_ok a1 q g1 i h
  have hexp : explanationOf g1 = explanationOf q := by
    apply explanationOf_of_some g1 _ _ (explanationOf_ne_empty q)
    subst hg
    rfl
  have htext : ∀ k, userAnswerText g1 k = userAnswerText q k := by
    intro k; subst hg; rfl
  have hct : correctAnswerTextOf g1 = correctAnswerTextOf q := by
    subst hg; rfl
  have hca : g1.correctAnswer = q.correctAnswer := by subst hg; rfl
  unfold gradeQuestion
  simp only [htext, hct, hca, hexp]
  subst hg
  rfl

/-- The `map` over graded questions agrees with the `map` over the original ones. -/
theorem mapQuestions_regrade (a1 a2 : Answers) :
    ∀ (qs gs : List Question) (i j : Nat), mapQuestions a1 qs i = .ok gs →
      mapQuestions a2 gs j = mapQuestions a2 qs j := by
  intro qs
  induction qs with
  | nil =>
    intro gs i j h
    simp [mapQuestions] at h
    subst h; rfl
  | cons q rest ih =>
    intro gs i j h
    unfold mapQuestions at h
    cases hg : gradeQuestion a1 q i with
    | error e => simp [hg] at h
    | ok g =>
      cases hr : mapQuestions a1 rest (i + 1) with
      | error e => simp [hg, hr] at h
      | ok gs2 =>
        simp [hg, hr] at h
        subst h
        simp only [mapQuestions, gradeQuestion_regrade a1 a2 q g i j hg, ih gs2 (i + 1) (j + 1) hr]

/-- The counting loop reads only `correctAnswer`, which grading leaves alone. -/
theorem countCorrect_regrade (a1 a2 : Answers) :
    ∀ (qs gs : List Question) (i j acc : Nat), mapQuestions a1 qs i = .ok gs →
      countCorrect a2 gs j acc = countCorrect a2 qs j acc := by
  intro qs
  induction qs with
  | nil =>
    intro gs i j acc h
    simp [mapQuestions] at h
    subst h; rfl
  | cons q rest ih =>
    intro gs i j acc h
    unfold mapQuestions at h
    cases hg : gradeQuestion a1 q i with
    | error e => simp [hg] at h
    | ok g =>
      cases hr : mapQuestions a1 rest (i + 1) with
      | error e => simp [hg, hr] at h
      | ok gs2 =>
        simp [hg, hr] at h
        subst h
        obtain ⟨e, idx, text, ct, _, _, _, _, hrec⟩ := gradeQuestion_ok a1 q g i hg
        have hca : g.correctAnswer = q.correctAnswer := by subst hrec; rfl
        unfold countCorrect
        cases getEntry a2 j with
        | error e => rfl
        | ok x =>
          simp only [hca]
          exact ih gs2 (i + 1) (j + 1) _ hr

/-- Grading the stored result of an earlier grading is grading the original questions. -/
theorem grade_regrade (a1 a2 : Answers) (qs : List Question) (g1 : Graded)
    (h : grade qs a1 = .ok g1) :
    grade g1.questionsWithAnswers a2 = grade qs a2 := by
  obtain ⟨c, gs, _, hm, hg⟩ := (grade_ok_iff _ _ _).1 h
  subst hg
  have hlen := (mapQuestions_ok a1 qs 0 gs hm).1
  unfold grade
  simp only [countCorrect_regrade a1 a2 qs gs 0 0 0 hm, mapQuestions_regrade a1 a2 qs gs 0 0 hm,
    hlen]


/-- The update does not touch the user table. -/
theorem requireAuth_update (session : Option String) (db : Db) (id userId : String)
    (s : Score) (t : String) (qs : List Question) :
    requireAuth session (db.update id userId s t qs) = requireAuth session db := by
  rfl

/-- After the update, the lookup returns the record with the three columns replaced. -/
theorem findUnique_update (db : Db) (id userId : String) (a : Assessment)
    (s : Score) (t : String) (qs : List Question)
    (h : db.findUnique id userId = some a) :
    (db.update id userId s t qs).findUnique id userId =
      some { a with quizScore := s, improvementTip := some t, questions := qs } := by
  unfold Db.findUnique Db.update at *
  simp only
  generalize db.assessments = l at h
  induction l with
  | nil => simp at h
  | cons x rest ih =>
    cases hx : (x.id == id && x.userId == userId) with
    | true =>
      rw [List.find?_cons, hx] at h
      cases h
      rw [List.map_cons, List.find?_cons]
      simp only [hx, if_true]
    | false =>
      rw [List.find?_cons, hx] at h
      rw [List.map_cons, List.find?_cons]
      simp only [hx, Bool.false_eq_true, if_false]
      exact ih h

/-- A second update of the same record overwrites the first one. -/
theorem update_update (db : Db) (id userId : String) (s1 s2 : Score) (t1 t2 : String)
    (q1 q2 : List Question) :
    (db.update id userId s1 t1 q1).update id userId s2 t2 q2 = db.update id userId s2 t2 q2 := by
  unfold Db.update
  simp only [List.map_map, Db.mk.injEq, true_and]
  apply List.map_congr_left
  intro x _
  cases hx : (x.id == id && x.userId == userId) with
  | true => simp only [Function.comp, hx, if_true]
  | false => simp only [Function.comp, hx, Bool.false_eq_true, if_false]

/-- A submission that follows an earlier one behaves as if the earlier one had not
happened, provided it succeeds on its own. -/
theorem submit_after_submit (session : Option String) (db : Db) (id : String)
    (a1 a2 : Answers) (r2 : Assessment)
    (h2 : (submitAssessmentAnswers session db id a2).1 = .ok r2) :
    submitAssessmentAnswers session (submitAssessmentAnswers session db id a1).2 id a2 =
      submitAssessmentAnswers session db id a2 := by
  cases hauth : requireAuth session db with
  | error e => simp [submitAssessmentAnswers, hauth] at h2
  | ok p =>
    obtain ⟨user, uid⟩ := p
    cases hfind : db.findUnique id user.id with
    | none => simp [submitAssessmentAnswers, hauth, hfind] at h2
    | some a =>
      obtain ⟨g2, hg2, _⟩ := submit_ok session db id a2 user uid a r2 hauth hfind h2
      cases hg1 : grade a.questions a1 with
      | error e =>
        have : (submitAssessmentAnswers session db id a1).2 = db := by
          rw [submit_unfold session db id a1 user uid a hauth hfind, hg1]
        rw [this]
      | ok g1 =>
        rw [submit_total session db id a1 user uid a g1 hauth hfind hg1]
        simp only
        have hauth1 := (requireAuth_update session db id user.id g1.score g1.improvementTip
          g1.questionsWithAnswers).trans hauth
        have hfind1 := findUnique_update db id user.id a g1.score g1.improvementTip
          g1.questionsWithAnswers hfind
        have hg21 := (grade_regrade a1 a2 a.questions g1 hg1).trans hg2
        rw [submit_total session _ id a2 user uid _ g2 hauth1 hfind1 hg21,
          submit_total session db id a2 user uid a g2 hauth hfind hg2, update_update]


/-- A successful submission authenticated, found the record and graded it. -/
theorem submit_ok_inv (session : Option String) (db : Db) (id : String) (answers : Answers)
    (r : Assessment) (h : (submitAssessmentAnswers session db id answers).1 = .ok r) :
    ∃ user uid a g, requireAuth session db = .ok (user, uid) ∧
      db.findUnique id user.id = some a ∧ grade a.questions answers = .ok g ∧
      r = { a with quizScore := g.score, improvementTip := some g.improvementTip,
                   questions := g.questionsWithAnswers } := by
  cases hauth : requireAuth session db with
  | error e => simp [submitAssessmentAnswers, hauth] at h
  | ok p =>
    obtain ⟨user, uid⟩ := p
    cases hfind : db.findUnique id user.id with
    | none => simp [submitAssessmentAnswers, hauth, hfind] at h
    | some a =>
      obtain ⟨g, hg, hr⟩ := submit_ok session db id answers user uid a r hauth hfind h
      exact ⟨user, uid, a, g, rfl, hfind, hg, hr⟩

/-- C9. If submitting `answers` to an assessment succeeds, submitting the same `answers`
to the same assessment id again succeeds with the same record and leaves the database
exactly as the first submission left it (same `quizScore`, same `questions`); grading
the already graded questions with `answers` reproduces them and the score. -/
theorem resubmission_is_idempotent (session : Option String) (db : Db) (id : String)
    (answers : Answers) (r : Assessment)
    (h : (submitAssessmentAnswers session db id answers).1 = .ok r) :
    (submitAssessmentAnswers session (submitAssessmentAnswers session db id answers).2 id
        answers).1 = .ok r ∧
    (submitAssessmentAnswers session (submitAssessmentAnswers session db id answers).2 id
        answers).2 = (submitAssessmentAnswers session db id answers).2 ∧
    grade r.questions answers = .ok ⟨r.quizScore, improvementTipFor r.quizScore, r.questions⟩ := by
  have hs := submit_after_submit session db id answers answers r h
  refine ⟨by rw [hs]; exact h, by rw [hs], ?_⟩
  obtain ⟨user, uid, a, g, _, _, hg, hr⟩ := submit_ok_inv session db id answers r h
  have hre := (grade_regrade answers answers a.questions g hg).trans hg
  obtain ⟨c, gs, _, _, hgs⟩ := (grade_ok_iff _ _ _).1 hg
  subst hr
  subst hgs
  exact hre

/-- C9 (witness). The scenario of the specification, submitted twice. -/
theorem resubmission_is_idempotent_witness :
    (submitAssessmentAnswers (some "clerk1") scenarioDb "a1" scenarioAnswers).1 =
      .ok scenarioResult ∧
    (submitAssessmentAnswers (some "clerk1")
        (submitAssessmentAnswers (some "clerk1") scenarioDb "a1" scenarioAnswers).2 "a1"
        scenarioAnswers).1 = .ok scenarioResult ∧
    (submitAssessmentAnswers (some "clerk1")
        (submitAssessmentAnswers (some "clerk1") scenarioDb "a1" scenarioAnswers).2 "a1"
        scenarioAnswers).2 =
      (submitAssessmentAnswers (some "clerk1") scenarioDb "a1" scenarioAnswers).2 ∧
    grade scenarioResult.questions scenarioAnswers =
      .ok ⟨scenarioResult.quizScore, improvementTipFor scenarioResult.quizScore,
           scenarioResult.questions⟩ :=
  ⟨by rfl,
   resubmission_is_idempotent (some "clerk1") scenarioDb "a1" scenarioAnswers scenarioResult
     (by rfl)⟩

/-- A successful grading shows that every question has `options` and a `correctAnswer`. -/
theorem grade_ok_wellformed (qs : List Question) (answers : Answers) (g : Graded)
    (h : grade qs answers = .ok g) :
    ∀ q ∈ qs, q.options ≠ none ∧ q.correctAnswer ≠ none := by
  obtain ⟨c, gs, _, hm, _⟩ := (grade_ok_iff _ _ _).1 h
  intro q hq
  obtain ⟨j, hj⟩ := List.mem_iff_getElem?.1 hq
  obtain ⟨gq, _, hgq⟩ := (mapQuestions_ok answers qs 0 gs hm).2 j q hj
  obtain ⟨e, idx, text, ct, _, _, _, hct, _⟩ := gradeQuestion_ok answers q gq _ hgq
  obtain ⟨ca, opts, h1, h2⟩ := correctAnswerTextOf_ok q ct hct
  simp [h1, h2]

/-- C10. Let `a1` and `a2` be two submissions to the same assessment such that `a2` is
accepted on its own, or both are arrays whose entries are strings, `null`, `undefined`
or other falsy values. Then submitting `a1` first and `a2` afterwards returns the same
outcome and ends in the same database as submitting `a2` alone to the original
assessment: the stored `quizScore`, `improvementTip` and `questions` are those of `a2`,
and nothing of the first attempt is kept. -/
theorem resubmission_overwrites (session : Option String) (db : Db) (id : String)
    (a1 a2 : Answers)
    (h : (∃ r2, (submitAssessmentAnswers session db id a2).1 = .ok r2) ∨
      ∃ xs1 xs2, a1 = some xs1 ∧ a2 = some xs2 ∧
        (∀ e ∈ xs1, e ≠ .other true) ∧ (∀ e ∈ xs2, e ≠ .other true)) :
    submitAssessmentAnswers session (submitAssessmentAnswers session db id a1).2 id a2 =
      submitAssessmentAnswers session db id a2 := by
  rcases h with ⟨r2, h2⟩ | ⟨xs1, xs2, h1, h2, hx1, hx2⟩
  · exact submit_after_submit session db id a1 a2 r2 h2
  · subst h1; subst h2
    cases hauth : requireAuth session db with
    | error e =>
      have : (submitAssessmentAnswers session db id (some xs1)).2 = db := by
        simp [submitAssessmentAnswers, hauth]
      rw [this]
    | ok p =>
      obtain ⟨user, uid⟩ := p
      cases hfind : db.findUnique id user.id with
      | none =>
        have : (submitAssessmentAnswers session db id (some xs1)).2 = db := by
          simp [submitAssessmentAnswers, hauth, hfind]
        rw [this]
      | some a =>
        cases hg1 : grade a.questions (some xs1) with
        | error e =>
          have : (submitAssessmentAnswers session db id (some xs1)).2 = db := by
            rw [submit_unfold session db id (some xs1) user uid a hauth hfind, hg1]
          rw [this]
        | ok g1 =>
          obtain ⟨g2, hg2⟩ :=
            grade_total xs2 a.questions (grade_ok_wellformed _ _ g1 hg1) hx2
          exact submit_after_submit session db id (some xs1) (some xs2) _
            (by rw [submit_total session db id (some xs2) user uid a g2 hauth hfind hg2])

/-- C10 (witness). A first attempt `["A", "A"]` is stored, then `["B", "C"]` is submitted:
the outcome and the database are those of `["B", "C"]` alone. -/
theorem resubmission_overwrites_witness :
    (submitAssessmentAnswers (some "clerk1") scenarioDb "a1" (some [.str "A", .str "A"])).2 ≠
      scenarioDb ∧
    (submitAssessmentAnswers (some "clerk1") scenarioDb "a1" scenarioAnswers).1 =
      .ok scenarioResult ∧
    submitAssessmentAnswers (some "clerk1")
        (submitAssessmentAnswers (some "clerk1") scenarioDb "a1"
          (some [.str "A", .str "A"])).2 "a1" scenarioAnswers =
      submitAssessmentAnswers (some "clerk1") scenarioDb "a1" scenarioAnswers :=
  ⟨by decide, by rfl,
   resubmission_overwrites (some "clerk1") scenarioDb "a1" (some [.str "A", .str "A"])
     scenarioAnswers (Or.inl ⟨scenarioResult, by rfl⟩)⟩


/-- On an array, the counting loop returns the count `c` of the specification. -/
theorem countCorrect_eq_matchCount (xs : List Entry) :
    ∀ (qs : List Question) (i acc : Nat),
      countCorrect (some xs) qs i acc = .ok (acc + matchCount xs qs i) := by
  intro qs
  induction qs with
  | nil => intro i acc; rfl
  | cons q rest ih =>
    intro i acc
    simp only [countCorrect, getEntry, ih, matchCount, List.enumFrom_cons, List.filter_cons]
    congr 1
    cases strictEq (xs.getD i .undefined) q.correctAnswer with
    | true => simp only [if_true, List.length_cons]; omega
    | false => simp

/-- The score a successful submission of an array stores is the score expression applied
to the count `c` of matching indices and the number of questions. -/
theorem submit_score_eq (session : Option String) (db : Db) (id : String) (xs : List Entry)
    (user : User) (uid : String) (a r : Assessment)
    (hauth : requireAuth session db = .ok (user, uid))
    (hfind : db.findUnique id user.id = some a)
    (hok : (submitAssessmentAnswers session db id (some xs)).1 = .ok r) :
    r.quizScore = computeScore (matchCount xs a.questions 0) a.questions.length := by
  obtain ⟨g, hg, hr⟩ := submit_ok session db id (some xs) user uid a r hauth hfind hok
  obtain ⟨c, gs, hc, _, hgs⟩ := (grade_ok_iff _ _ _).1 hg
  rw [countCorrect_eq_matchCount] at hc
  simp only [Except.ok.injEq, Nat.zero_add] at hc
  subst hr; subst hgs; subst hc
  rfl


/-- The bounded recursion computes the binary logarithm whenever the bound is large enough. -/
theorem floorLog2Aux_eq_log2 : ∀ (fuel n : Nat), n ≤ fuel → floorLog2Aux fuel n = Nat.log2 n := by
  intro fuel
  induction fuel with
  | zero =>
    intro n hn
    have : n = 0 := by omega
    subst this
    simp [floorLog2Aux, Nat.log2_zero]
  | succ fuel ih =>
    intro n hn
    rw [Nat.log2]
    by_cases h2 : n < 2
    · have : ¬ n ≥ 2 := by omega
      simp [floorLog2Aux, h2, this]
    · have : n ≥ 2 := by omega
      simp only [floorLog2Aux, h2, this, if_true, if_false]
      rw [ih (n / 2) (by omega)]

/-- The exponent used by `roundBinary64` is the floor of the binary logarithm. -/
theorem floorLog2_eq_log2 (n : Nat) : floorLog2 n = Nat.log2 n :=
  floorLog2Aux_eq_log2 n n (Nat.le_refl n)


/-- The rounded quotient is within half a unit of the exact one. -/
theorem rneDiv_error (a b : Nat) (hb : 0 < b) :
    2 * (rneDiv a b * b) ≤ 2 * a + b ∧ 2 * a ≤ 2 * (rneDiv a b * b) + b := by
  have hdm := Nat.div_add_mod a b
  have hr := Nat.mod_lt a hb
  have hsucc : (a / b + 1) * b = b * (a / b) + b := by ring
  have hcomm : a / b * b = b * (a / b) := Nat.mul_comm _ _
  unfold rneDiv
  simp only
  split
  · rw [hcomm]; omega
  · split
    · rw [hsucc]; omega
    · split
      · rw [hcomm]; omega
      · rw [hsucc]; omega

/-- Relative error of binary64 rounding in the normal range: at most `2 ^ (-53)`. -/
theorem roundBinary64_error (a b : Nat) (hb : 0 < b) (hnorm : b * 2 ^ 52 ≤ a) :
    2 ^ 53 * (roundBinary64 a b * b) ≤ 2 ^ 53 * a + a ∧
    2 ^ 53 * a ≤ 2 ^ 53 * (roundBinary64 a b * b) + a := by
  have hq : 2 ^ 52 ≤ a / b := (Nat.le_div_iff_mul_le hb).2 (by rw [Nat.mul_comm]; exact hnorm)
  have hq0 : a / b ≠ 0 := by
    have : 0 < 2 ^ 52 := by decide
    omega
  have hlog : 52 ≤ floorLog2 (a / b) := by
    rw [floorLog2_eq_log2]
    exact (Nat.le_log2 hq0).2 hq
  have hpow : 2 ^ (floorLog2 (a / b) - 52) * 2 ^ 52 ≤ a / b := by
    rw [← Nat.pow_add, Nat.sub_add_cancel hlog, floorLog2_eq_log2]
    exact Nat.log2_self_le hq0
  have hB : b * 2 ^ (floorLog2 (a / b) - 52) * 2 ^ 52 ≤ a := by
    calc b * 2 ^ (floorLog2 (a / b) - 52) * 2 ^ 52
        = b * (2 ^ (floorLog2 (a / b) - 52) * 2 ^ 52) := by ring
      _ ≤ b * (a / b) := Nat.mul_le_mul_left b hpow
      _ ≤ a := Nat.mul_div_le a b
  have hBpos : 0 < b * 2 ^ (floorLog2 (a / b) - 52) :=
    Nat.mul_pos hb (Nat.pow_pos (by decide))
  obtain ⟨h1, h2⟩ := rneDiv_error a (b * 2 ^ (floorLog2 (a / b) - 52)) hBpos
  have hx : roundBinary64 a b * b =
      rneDiv a (b * 2 ^ (floorLog2 (a / b) - 52)) * (b * 2 ^ (floorLog2 (a / b) - 52)) := by
    unfold roundBinary64
    ring
  rw [hx]
  generalize rneDiv a (b * 2 ^ (floorLog2 (a / b) - 52)) *
    (b * 2 ^ (floorLog2 (a / b) - 52)) = y at h1 h2 ⊢
  generalize b * 2 ^ (floorLog2 (a / b) - 52) = B at hB h1 h2
  have e53 : (2 : Nat) ^ 53 = 9007199254740992 := by norm_num
  have e52 : (2 : Nat) ^ 52 = 4503599627370496 := by norm_num
  rw [e53]
  rw [e52] at hB
  constructor <;> omega


/-- Agreement with exact rounding away from ties: for an assessment of fewer than `2 ^ 32`
questions (the bound on a JavaScript array length), the score expression yields the
round-half-up percentage whenever `100 * c / n` is not exactly halfway between two
integers. -/
theorem computeScore_eq_roundHalfUp (c n : Nat) (hn : 0 < n) (hc : c ≤ n) (hsize : n < 2 ^ 32)
    (htie : (200 * c + n) % (2 * n) ≠ 0) :
    computeScore c n = .int (roundHalfUp (100 * c) n) := by
  have hU : 0 < unit64 := by decide
  have hUbig : 2 ^ 200 ≤ unit64 := by decide
  have e32 : (2 : Nat) ^ 32 = 4294967296 := by norm_num
  have e52 : (2 : Nat) ^ 52 = 4503599627370496 := by norm_num
  have e53 : (2 : Nat) ^ 53 = 9007199254740992 := by norm_num
  have e200 : (2 : Nat) ^ 200 = 1606938044258990275541962092341162602522202993782792835301376 := by
    norm_num
  rw [e32] at hsize
  rw [e200] at hUbig
  have hnU : n * unit64 ≠ 0 := Nat.pos_iff_ne_zero.1 (Nat.mul_pos hn hU)
  unfold computeScore roundHalfUp
  simp only [JSNumber.ofCount, JSNumber.div, JSNumber.mul, mathRound, hnU, if_false]
  congr 1
  generalize hx1 : roundBinary64 (c * unit64 * unit64) (n * unit64) = x1
  generalize hx2 : roundBinary64 (x1 * (100 * unit64)) unit64 = x2
  -- the remainder of the exact rounding
  have hdm := Nat.div_add_mod (200 * c + n) (2 * n)
  have hrlt := Nat.mod_lt (200 * c + n) (show 0 < 2 * n by omega)
  generalize hk : (200 * c + n) / (2 * n) = k at hdm
  generalize hr : (200 * c + n) % (2 * n) = r at hdm hrlt htie
  have h2 : 2 * (100 * c) + n = 200 * c + n := by ring
  rw [h2, hk]
  rcases Nat.eq_zero_or_pos c with hc0 | hcpos
  · -- no correct answer
    subst hc0
    have hx1z : x1 = 0 := by
      rw [← hx1]
      simp [roundBinary64, rneDiv, floorLog2, floorLog2Aux]
    subst hx1z
    have hx2z : x2 = 0 := by
      rw [← hx2]
      simp [roundBinary64, rneDiv, floorLog2, floorLog2Aux]
    subst hx2z
    have hk0 : k = 0 := by
      rw [← hk]
      simp only [Nat.mul_zero, Nat.zero_add]
      exact Nat.div_eq_of_lt (by omega)
    rw [hk0]
    simp only [Nat.mul_zero, Nat.zero_add]
    exact Nat.div_eq_of_lt (by omega)
  · -- first rounding: the quotient
    have hCU : unit64 ≤ c * unit64 := Nat.le_mul_of_pos_left _ hcpos
    have hCle : c * unit64 ≤ 4294967296 * unit64 := Nat.mul_le_mul_right _ (by omega)
    have hnU52 : n * 2 ^ 52 ≤ 4294967296 * 2 ^ 52 := Nat.mul_le_mul_right _ (by omega)
    have hnorm1 : n * unit64 * 2 ^ 52 ≤ c * unit64 * unit64 := by
      have : n * 2 ^ 52 ≤ c * unit64 := by rw [e52] at hnU52 ⊢; omega
      calc n * unit64 * 2 ^ 52 = n * 2 ^ 52 * unit64 := by ring
        _ ≤ c * unit64 * unit64 := Nat.mul_le_mul_right _ this
    obtain ⟨ha, hb⟩ := roundBinary64_error _ _ (Nat.mul_pos hn hU) hnorm1
    rw [hx1] at ha hb
    have ha2 : 2 ^ 53 * (x1 * n) ≤ 2 ^ 53 * (c * unit64) + c * unit64 := by
      apply Nat.le_of_mul_le_mul_right _ hU
      calc 2 ^ 53 * (x1 * n) * unit64 = 2 ^ 53 * (x1 * (n * unit64)) := by ring
        _ ≤ 2 ^ 53 * (c * unit64 * unit64) + c * unit64 * unit64 := ha
        _ = (2 ^ 53 * (c * unit64) + c * unit64) * unit64 := by ring
    have hb2 : 2 ^ 53 * (c * unit64) ≤ 2 ^ 53 * (x1 * n) + c * unit64 := by
      apply Nat.le_of_mul_le_mul_right _ hU
      calc 2 ^ 53 * (c * unit64) * unit64 = 2 ^ 53 * (c * unit64 * unit64) := by ring
        _ ≤ 2 ^ 53 * (x1 * (n * unit64)) + c * unit64 * unit64 := hb
        _ = (2 ^ 53 * (x1 * n) + c * unit64) * unit64 := by ring
    -- second rounding: the product
    have hx1big : 2 ^ 52 ≤ 100 * x1 := by
      by_contra hlt
      have hx1lt : x1 ≤ 2 ^ 52 := by rw [e52] at hlt ⊢; omega
      have : x1 * n ≤ 2 ^ 52 * 4294967296 := Nat.mul_le_mul hx1lt (by omega)
      rw [e53] at hb2
      rw [e52] at this
      omega
    have hnorm2 : unit64 * 2 ^ 52 ≤ x1 * (100 * unit64) := by
      calc unit64 * 2 ^ 52 = 2 ^ 52 * unit64 := Nat.mul_comm _ _
        _ ≤ 100 * x1 * unit64 := Nat.mul_le_mul_right _ hx1big
        _ = x1 * (100 * unit64) := by ring
    obtain ⟨hc1, hd1⟩ := roundBinary64_error _ _ hU hnorm2
    rw [hx2] at hc1 hd1
    have hc2 : 2 ^ 53 * (x2 * n) ≤ 2 ^ 53 * (100 * (x1 * n)) + 100 * (x1 * n) := by
      apply Nat.le_of_mul_le_mul_right _ hU
      calc 2 ^ 53 * (x2 * n) * unit64 = (2 ^ 53 * (x2 * unit64)) * n := by ring
        _ ≤ (2 ^ 53 * (x1 * (100 * unit64)) + x1 * (100 * unit64)) * n :=
            Nat.mul_le_mul_right _ hc1
        _ = (2 ^ 53 * (100 * (x1 * n)) + 100 * (x1 * n)) * unit64 := by ring
    have hd2 : 2 ^ 53 * (100 * (x1 * n)) ≤ 2 ^ 53 * (x2 * n) + 100 * (x1 * n) := by
      apply Nat.le_of_mul_le_mul_right _ hU
      calc 2 ^ 53 * (100 * (x1 * n)) * unit64 = (2 ^ 53 * (x1 * (100 * unit64))) * n := by ring
        _ ≤ (2 ^ 53 * (x2 * unit64) + x1 * (100 * unit64)) * n := Nat.mul_le_mul_right _ hd1
        _ = (2 ^ 53 * (x2 * n) + 100 * (x1 * n)) * unit64 := by ring
    -- the exact rounding, multiplied by the unit
    have hK : unit64 * (2 * n * k) + unit64 * r = 200 * (c * unit64) + unit64 * n := by
      calc unit64 * (2 * n * k) + unit64 * r = unit64 * (2 * n * k + r) := by ring
        _ = unit64 * (200 * c + n) := by rw [hdm]
        _ = 200 * (c * unit64) + unit64 * n := by ring
    have hUr1 : unit64 ≤ unit64 * r := Nat.le_mul_of_pos_right _ (Nat.pos_of_ne_zero htie)
    have hUr2 : unit64 * r + unit64 ≤ unit64 * (2 * n) := by
      calc unit64 * r + unit64 = unit64 * (r + 1) := by ring
        _ ≤ unit64 * (2 * n) := Nat.mul_le_mul_left _ (by omega)
    have hUn2 : unit64 * (2 * n) = 2 * (unit64 * n) := by ring
    rw [e53] at ha2 hb2 hc2 hd2
    generalize c * unit64 = C at *
    generalize x1 * n = A1 at *
    generalize hA2 : x2 * n = A2 at *
    generalize hKd : unit64 * (2 * n * k) = K at *
    generalize unit64 * r = Ur at *
    generalize hUn : unit64 * n = Un at *
    apply Nat.div_eq_of_lt_le
    · apply Nat.le_of_mul_le_mul_right _ hn
      have e1 : k * (2 * unit64) * n = K := by rw [← hKd]; ring
      have e2 : (2 * x2 + unit64) * n = 2 * A2 + Un := by rw [← hA2, ← hUn]; ring
      rw [e1, e2]
      omega
    · apply Nat.lt_of_mul_lt_mul_right (a := n)
      have e1 : (k + 1) * (2 * unit64) * n = K + 2 * Un := by rw [← hKd, ← hUn]; ring
      have e2 : (2 * x2 + unit64) * n = 2 * A2 + Un := by rw [← hA2, ← hUn]; ring
      rw [e1, e2]
      omega


/-- C11 (counterexample). A stored question without an `explanation`, graded: the graded
question carries the explanation `This question tests your knowledge of sql.`, so the
`explanation` field is not kept unchanged. -/
theorem missing_explanation_is_filled_in :
    ({ exampleQuestion "A" with explanation := none } : Question).explanation = none ∧
    ((submitAssessmentAnswers (some "clerk1")
        (exampleDb [{ exampleQuestion "A" with explanation := none }]) "a1"
        (some [.str "A"])).1.toOption.map
      (fun r => r.questions.map (fun g => g.explanation))) =
      some [some "This question tests your knowledge of sql."] := by
  decide

/-- C11 (amended). The questions stored by a successful submission have the length and
the order of the assessment's questions; each graded question keeps `question`,
`options`, `correctAnswer`, `difficulty`, `timeToAnswer` and `skills` unchanged, keeps
`explanation` when it is a non-empty string and otherwise gets the default explanation
text, and has `userAnswer` and `isCorrect` set (and `correctAnswerText` assigned). -/
theorem graded_question_keeps_fields (session : Option String) (db : Db) (id : String)
    (answers : Answers) (user : User) (uid : String) (a r : Assessment)
    (hauth : requireAuth session db = .ok (user, uid))
    (hfind : db.findUnique id user.id = some a)
    (hok : (submitAssessmentAnswers session db id answers).1 = .ok r) :
    r.questions.length = a.questions.length ∧
    ∀ (i : Nat) (q : Question), a.questions[i]? = some q →
      ∃ gq, r.questions[i]? = some gq ∧
        gq.question = q.question ∧ gq.options = q.options ∧
        gq.correctAnswer = q.correctAnswer ∧ gq.difficulty = q.difficulty ∧
        gq.timeToAnswer = q.timeToAnswer ∧ gq.skills = q.skills ∧
        (∀ e, q.explanation = some e → e ≠ "" → gq.explanation = some e) ∧
        gq.explanation = some (explanationOf q) ∧
        gq.userAnswer ≠ none ∧ gq.isCorrect ≠ none := by
  constructor
  · obtain ⟨g, hg, hr⟩ := submit_ok session db id answers user uid a r hauth hfind hok
    obtain ⟨c, gs, _, hm, hgs⟩ := (grade_ok_iff _ _ _).1 hg
    subst hr; subst hgs
    exact (mapQuestions_ok answers a.questions 0 gs hm).1
  · intro i q hq
    obtain ⟨gq, hgq, hgrade⟩ :=
      submit_question session db id answers user uid a r hauth hfind hok i q hq
    obtain ⟨e, idx, text, ct, _, _, _, _, hg⟩ := gradeQuestion_ok answers q gq i hgrade
    refine ⟨gq, hgq, ?_⟩
    subst hg
    refine ⟨rfl, rfl, rfl, rfl, rfl, rfl, ?_, rfl, by simp, by simp⟩
    intro e he hne
    simp only [Option.some.injEq]
    exact explanationOf_of_some q e he hne

/-- C11 (witness). The scenario of the specification: question 1 keeps its fields and
its explanation `because`. -/
theorem graded_question_keeps_fields_witness :
    (submitAssessmentAnswers (some "clerk1") scenarioDb "a1" scenarioAnswers).1 =
      .ok scenarioResult ∧
    scenarioResult.questions.length = 2 ∧
    ∃ gq, scenarioResult.questions[1]? = some gq ∧
      gq.options = (exampleQuestion "D").options ∧ gq.explanation = some "because" := by
  obtain ⟨h1, h2⟩ :=
    graded_question_keeps_fields (some "clerk1") scenarioDb "a1" scenarioAnswers exampleUser
      "clerk1" (exampleAssessment [exampleQuestion "B", exampleQuestion "D"]) scenarioResult
      (by rfl) (by rfl) (by rfl)
  obtain ⟨gq, hgq, _, ho, _, _, _, _, he, _⟩ := h2 1 (exampleQuestion "D") (by rfl)
  exact ⟨by rfl, h1, gq, hgq, ho, he "because" (by rfl) (by decide)⟩


/-- Grading fails when a stored question lacks its `correctAnswer` or its `options`. -/
theorem grade_error_of_missing_field (qs : List Question) (answers : Answers)
    (h : ∃ q ∈ qs, q.correctAnswer = none ∨ q.options = none) :
    ∃ e, grade qs answers = .error e := by
  cases hg : grade qs answers with
  | error e => exact ⟨e, rfl⟩
  | ok g =>
    obtain ⟨q, hq, hmiss⟩ := h
    obtain ⟨h1, h2⟩ := grade_ok_wellformed qs answers g hg q hq
    rcases hmiss with hm | hm
    · exact absurd hm h2
    · exact absurd hm h1

/-- Grading fails on a `null` answers argument when there is a question to grade. -/
theorem grade_error_of_null (qs : List Question) (h : qs ≠ []) :
    ∃ e, grade qs none = .error e := by
  cases qs with
  | nil => exact absurd rfl h
  | cons q rest => exact ⟨.typeError, rfl⟩

/-- An action that ends in an error leaves the database as it was. -/
theorem submit_error_keeps_db (session : Option String) (db : Db) (id : String)
    (answers : Answers) (e : String)
    (h : (submitAssessmentAnswers session db id answers).1 = .error e) :
    (submitAssessmentAnswers session db id answers).2 = db := by
  unfold submitAssessmentAnswers at h ⊢
  cases hauth : requireAuth session db with
  | error e2 => rfl
  | ok p =>
    obtain ⟨user, uid⟩ := p
    simp only [hauth] at h ⊢
    cases hfind : db.findUnique id user.id with
    | none => rfl
    | some a =>
      simp only [hfind] at h ⊢
      cases hg : grade a.questions answers with
      | error e3 => rfl
      | ok g => simp [hg] at h

/-- C12. Whenever a step of grading inside `submitAssessmentAnswers` fails, the action
raises the error `Failed to submit assessment` and applies no update, so the database,
and the stored assessment in it, is exactly as before and a later submission is graded
as on the original store. Grading does fail when a stored question has no
`correctAnswer` or no `options`, and when the answers argument is `null` while there is
a question to grade. Every call that ends in an error leaves the database unchanged. -/
theorem failed_grading_applies_no_update (session : Option String) (db : Db) (id : String)
    (answers : Answers) (user : User) (uid : String) (a : Assessment)
    (hauth : requireAuth session db = .ok (user, uid))
    (hfind : db.findUnique id user.id = some a) :
    (∀ e, grade a.questions answers = .error e →
      submitAssessmentAnswers session db id answers =
        (.error "Failed to submit assessment", db) ∧
      ∀ later : Answers,
        submitAssessmentAnswers session (submitAssessmentAnswers session db id answers).2 id
          later = submitAssessmentAnswers session db id later) ∧
    ((∃ q ∈ a.questions, q.correctAnswer = none ∨ q.options = none) →
      ∃ e, grade a.questions answers = .error e) ∧
    (answers = none → a.questions ≠ [] → ∃ e, grade a.questions answers = .error e) ∧
    (∀ e, (submitAssessmentAnswers session db id answers).1 = .error e →
      (submitAssessmentAnswers session db id answers).2 = db) := by
  refine ⟨?_, grade_error_of_missing_field _ _, ?_, submit_error_keeps_db _ _ _ _⟩
  · intro e he
    have h := submit_unfold session db id answers user uid a hauth hfind
    rw [he] at h
    simp only at h
    refine ⟨h, ?_⟩
    intro later
    rw [h]
  · intro hnull hne
    subst hnull
    exact grade_error_of_null _ hne

/-- C12 (witness). A stored question without `correctAnswer`: the submission fails and
the database is unchanged. -/
theorem failed_grading_applies_no_update_witness :
    grade [{ exampleQuestion "A" with correctAnswer := none }] (some [.str "A"]) =
      .error .typeError ∧
    submitAssessmentAnswers (some "clerk1")
        (exampleDb [{ exampleQuestion "A" with correctAnswer := none }]) "a1"
        (some [.str "A"]) =
      (.error "Failed to submit assessment",
       exampleDb [{ exampleQuestion "A" with correctAnswer := none }]) :=
  ⟨by rfl,
   ((failed_grading_applies_no_update (some "clerk1")
      (exampleDb [{ exampleQuestion "A" with correctAnswer := none }]) "a1" (some [.str "A"])
      exampleUser "clerk1" (exampleAssessment [{ exampleQuestion "A" with correctAnswer := none }])
      (by rfl) (by rfl)).1 .typeError (by rfl)).1⟩


/-- The lookup finds nothing when no assessment with that id belongs to the user. -/
theorem findUnique_none_of_not_owned (db : Db) (id userId : String)
    (h : ∀ a ∈ db.assessments, a.id = id → a.userId ≠ userId) :
    db.findUnique id userId = none := by
  unfold Db.findUnique
  rw [List.find?_eq_none]
  intro a ha
  have := h a ha
  simp only [Bool.and_eq_true, beq_iff_eq, not_and]
  exact this

/-- The three actions on an id that names no assessment of the caller. -/
theorem actions_not_found (session : Option String) (db : Db) (id : String)
    (answers : Answers) (user : User) (uid : String)
    (hauth : requireAuth session db = .ok (user, uid))
    (h : ∀ a ∈ db.assessments, a.id = id → a.userId ≠ user.id) :
    getAssessment session db id = (.error "Failed to get assessment", db) ∧
    submitAssessmentAnswers session db id answers =
      (.error "Failed to submit assessment", db) ∧
    deleteAssessment session db id = (.error "Failed to delete assessment", db) := by
  have hfind := findUnique_none_of_not_owned db id user.id h
  refine ⟨?_, ?_, ?_⟩
  · simp only [getAssessment, hauth, hfind]
  · simp only [submitAssessmentAnswers, hauth, hfind]
  · simp only [deleteAssessment, hauth, hfind]

/-- C13. For every store, caller `A` and id such that no assessment with that id is owned
by `A` (the id is absent, or it names assessments of other users only), `getAssessment`
and `submitAssessmentAnswers` called as `A` both end in an error, return no assessment,
and leave the store as it was. -/
theorem unowned_id_is_rejected (session : Option String) (db : Db) (id : String)
    (answers : Answers) (userA : User) (uid : String)
    (hauth : requireAuth session db = .ok (userA, uid))
    (h : ∀ a ∈ db.assessments, a.id = id → a.userId ≠ userA.id) :
    getAssessment session db id = (.error "Failed to get assessment", db) ∧
    submitAssessmentAnswers session db id answers =
      (.error "Failed to submit assessment", db) := by
  obtain ⟨h1, h2, _⟩ := actions_not_found session db id answers userA uid hauth h
  exact ⟨h1, h2⟩

/-- C13 (witness). The second user asks for the assessment `a1` of the first user, and
for an id that does not exist. -/
theorem unowned_id_is_rejected_witness :
    (getAssessment (some "clerk1") twoUserDb "a1").1 =
      .ok (exampleAssessment [exampleQuestion "B", exampleQuestion "D"]) ∧
    (getAssessment (some "clerk2") twoUserDb "a1" =
        (.error "Failed to get assessment", twoUserDb) ∧
      submitAssessmentAnswers (some "clerk2") twoUserDb "a1" scenarioAnswers =
        (.error "Failed to submit assessment", twoUserDb)) ∧
    (getAssessment (some "clerk2") twoUserDb "zz" =
        (.error "Failed to get assessment", twoUserDb) ∧
      submitAssessmentAnswers (some "clerk2") twoUserDb "zz" scenarioAnswers =
        (.error "Failed to submit assessment", twoUserDb)) :=
  ⟨by rfl,
   unowned_id_is_rejected (some "clerk2") twoUserDb "a1" scenarioAnswers otherUser "clerk2"
     (by rfl) (by decide),
   unowned_id_is_rejected (some "clerk2") twoUserDb "zz" scenarioAnswers otherUser "clerk2"
     (by rfl) (by decide)⟩

/-- C14. No existence leakage. Take a store in which no assessment has the id, and the
store obtained from it by inserting, at any position, an assessment with that id that
does not belong to the caller. For every caller, `getAssessment`,
`submitAssessmentAnswers` and `deleteAssessment` end in the same outcome in both stores
(the same error with the same message), and each leaves its store as it was. -/
theorem no_existence_leak (session : Option String) (db : Db) (id : String)
    (answers : Answers) (other : Assessment) (front back : List Assessment)
    (hsplit : db.assessments = front ++ back)
    (habsent : ∀ a ∈ db.assessments, a.id ≠ id)
    (hid : other.id = id)
    (hother : ∀ user uid, requireAuth session db = .ok (user, uid) → other.userId ≠ user.id) :
    ((getAssessment session { db with assessments := front ++ other :: back } id).1 =
        (getAssessment session db id).1 ∧
      (submitAssessmentAnswers session { db with assessments := front ++ other :: back } id
          answers).1 = (submitAssessmentAnswers session db id answers).1 ∧
      (deleteAssessment session { db with assessments := front ++ other :: back } id).1 =
        (deleteAssessment session db id).1) ∧
    (∃ e, (getAssessment session db id).1 = .error e) ∧
    (∃ e, (submitAssessmentAnswers session db id answers).1 = .error e) ∧
    (∃ e, (deleteAssessment session db id).1 = .error e) ∧
    ((getAssessment session { db with assessments := front ++ other :: back } id).2 =
        { db with assessments := front ++ other :: back } ∧
      (submitAssessmentAnswers session { db with assessments := front ++ other :: back } id
          answers).2 = { db with assessments := front ++ other :: back } ∧
      (deleteAssessment session { db with assessments := front ++ other :: back } id).2 =
        { db with assessments := front ++ other :: back }) ∧
    ((getAssessment session db id).2 = db ∧
      (submitAssessmentAnswers session db id answers).2 = db ∧
      (deleteAssessment session db id).2 = db) := by
  have hauth1 : requireAuth session { db with assessments := front ++ other :: back } =
      requireAuth session db := rfl
  cases hauth : requireAuth session db with
  | error e =>
    have hauth2 := hauth1.trans hauth
    have a1 : getAssessment session db id = (.error e, db) := by
      simp only [getAssessment, hauth]
    have a2 : submitAssessmentAnswers session db id answers = (.error e, db) := by
      simp only [submitAssessmentAnswers, hauth]
    have a3 : deleteAssessment session db id = (.error e, db) := by
      simp only [deleteAssessment, hauth]
    have b1 : getAssessment session { db with assessments := front ++ other :: back } id =
        (.error e, { db with assessments := front ++ other :: back }) := by
      simp only [getAssessment, hauth2]
    have b2 : submitAssessmentAnswers session { db with assessments := front ++ other :: back }
        id answers = (.error e, { db with assessments := front ++ other :: back }) := by
      simp only [submitAssessmentAnswers, hauth2]
    have b3 : deleteAssessment session { db with assessments := front ++ other :: back } id =
        (.error e, { db with assessments := front ++ other :: back }) := by
      simp only [deleteAssessment, hauth2]
    rw [a1, a2, a3, b1, b2, b3]
    exact ⟨⟨rfl, rfl, rfl⟩, ⟨_, rfl⟩, ⟨_, rfl⟩, ⟨_, rfl⟩, ⟨rfl, rfl, rfl⟩, ⟨rfl, rfl, rfl⟩⟩
  | ok p =>
    obtain ⟨user, uid⟩ := p
    have hauth2 := hauth1.trans hauth
    have h0 : ∀ a ∈ db.assessments, a.id = id → a.userId ≠ user.id :=
      fun a ha hida => absurd hida (habsent a ha)
    have h1 : ∀ a ∈ ({ db with assessments := front ++ other :: back } : Db).assessments,
        a.id = id → a.userId ≠ user.id := by
      intro a ha hida
      simp only [List.mem_append, List.mem_cons] at ha
      rcases ha with ha | ha | ha
      · exact absurd hida (habsent a (by rw [hsplit]; simp [ha]))
      · subst ha; exact hother user uid hauth
      · exact absurd hida (habsent a (by rw [hsplit]; simp [ha]))
    obtain ⟨a1, a2, a3⟩ := actions_not_found session db id answers user uid hauth h0
    obtain ⟨b1, b2, b3⟩ := actions_not_found session _ id answers user uid hauth2 h1
    rw [a1, a2, a3, b1, b2, b3]
    exact ⟨⟨rfl, rfl, rfl⟩, ⟨_, rfl⟩, ⟨_, rfl⟩, ⟨_, rfl⟩, ⟨rfl, rfl, rfl⟩, ⟨rfl, rfl, rfl⟩⟩

/-- C14 (witness). The second user probes the id `a1`: once in the store without any
assessment, once in the store where `a1` belongs to the first user. -/
theorem no_existence_leak_witness :
    (getAssessment (some "clerk2") twoUserDb "a1").1 =
      (getAssessment (some "clerk2") emptyStoreDb "a1").1 ∧
    (submitAssessmentAnswers (some "clerk2") twoUserDb "a1" scenarioAnswers).1 =
      (submitAssessmentAnswers (some "clerk2") emptyStoreDb "a1" scenarioAnswers).1 ∧
    (deleteAssessment (some "clerk2") twoUserDb "a1").1 =
      (deleteAssessment (some "clerk2") emptyStoreDb "a1").1 ∧
    (deleteAssessment (some "clerk2") twoUserDb "a1").2 = twoUserDb :=
  have h := no_existence_leak (some "clerk2") emptyStoreDb "a1" scenarioAnswers
    (exampleAssessment [exampleQuestion "B", exampleQuestion "D"]) [] []
    (by rfl) (by decide) (by rfl) (by
      intro user uid hu
      have : user = otherUser := by
        have h2 : requireAuth (some "clerk2") emptyStoreDb = .ok (otherUser, "clerk2") := by rfl
        rw [h2] at hu
        simp only [Except.ok.injEq, Prod.mk.injEq] at hu
        exact hu.1.symm
      subst this
      decide)
  ⟨h.1.1, h.1.2.1, h.1.2.2, h.2.2.2.2.1.2.2⟩


/-- A successful generation authenticated, got a text, parsed it and created a row. -/
theorem generate_ok_inv (env : Environment) (session : Option String) (db : Db)
    (request : AssessmentRequest) (r : Assessment)
    (h : (generateAssessment env session db request).1 = .ok r) :
    ∃ user uid text parsed questions,
      requireAuth session db = .ok (user, uid) ∧
      env.generateContent
        (buildPrompt user request.topic request.difficulty request.questionCount) = .ok text ∧
      env.jsonParse (cleanedContent (jsTrim text)) = some parsed ∧
      questionsOf parsed = .ok questions ∧
      db.create env.newId env.now user.id request.topic questions =
        .ok (r, (generateAssessment env session db request).2) := by
  unfold generateAssessment at h ⊢
  cases hauth : requireAuth session db with
  | error e => simp [hauth] at h
  | ok p =>
    obtain ⟨user, uid⟩ := p
    simp only [hauth] at h ⊢
    cases hbody : generateBody env db user request with
    | error e => simp [hbody] at h
    | ok res =>
      obtain ⟨r2, db2⟩ := res
      simp only [hbody, Except.ok.injEq] at h ⊢
      subst h
      unfold generateBody at hbody
      cases hgen : env.generateContent
          (buildPrompt user request.topic request.difficulty request.questionCount) with
      | error e => simp [hgen] at hbody
      | ok text =>
        simp only [hgen] at hbody
        unfold parseStep at hbody
        cases hparse : env.jsonParse (cleanedContent (jsTrim text)) with
        | none => simp [hparse] at hbody
        | some parsed =>
          simp only [hparse] at hbody
          cases hq : questionsOf parsed with
          | error e => simp [hq] at hbody
          | ok questions =>
            simp only [hq] at hbody
            exact ⟨user, uid, text, parsed, questions, rfl, hgen, hparse, hq, hbody⟩

/-- What a successful `create` returns and stores. -/
theorem create_ok (db db2 : Db) (id : String) (createdAt : Nat) (userId category : String)
    (questions : Option QuestionsField) (r : Assessment)
    (h : db.create id createdAt userId category questions = .ok (r, db2)) :
    db2 = { db with assessments := db.assessments ++ [r] } ∧
    r.id = id ∧ r.createdAt = createdAt ∧ r.userId = userId ∧ r.category = category ∧
    r.quizScore = .int 0 ∧ r.improvementTip = none ∧
    (∀ qs, questions = some (.array qs) → r.questions = qs) ∧
    (questions = none → r.questions = []) ∧ questions ≠ some .notArray := by
  unfold Db.create at h
  cases questions with
  | none =>
    simp only [Except.ok.injEq, Prod.mk.injEq] at h
    obtain ⟨h1, h2⟩ := h
    subst h1; subst h2
    simp
  | some f =>
    cases f with
    | notArray => simp at h
    | array qs =>
      simp only [Except.ok.injEq, Prod.mk.injEq] at h
      obtain ⟨h1, h2⟩ := h
      subst h1; subst h2
      simp

/-- C15. A successful `generateAssessment` adds exactly one record to the store and
changes no existing one; the new record is the one returned, its `userId` is the
caller's user id, its `category` is the topic, its `quizScore` is 0, its
`improvementTip` is unset, and its `questions` are the `questions` array of the parsed
model response. -/
theorem generate_creates_one_record (env : Environment) (session : Option String) (db : Db)
    (request : AssessmentRequest) (r : Assessment)
    (h : (generateAssessment env session db request).1 = .ok r) :
    ∃ user uid text parsed,
      requireAuth session db = .ok (user, uid) ∧
      env.generateContent
        (buildPrompt user request.topic request.difficulty request.questionCount) = .ok text ∧
      env.jsonParse (cleanedContent (jsTrim text)) = some parsed ∧
      (generateAssessment env session db request).2 =
        { db with assessments := db.assessments ++ [r] } ∧
      r.userId = user.id ∧ r.category = request.topic ∧ r.quizScore = .int 0 ∧
      r.improvementTip = none ∧
      ∀ qs, parsed = .object (some (.array qs)) → r.questions = qs := by
  obtain ⟨user, uid, text, parsed, questions, h1, h2, h3, h4, h5⟩ :=
    generate_ok_inv env session db request r h
  obtain ⟨c1, _, _, c4, c5, c6, c7, c8, _, _⟩ := create_ok _ _ _ _ _ _ _ _ h5
  refine ⟨user, uid, text, parsed, h1, h2, h3, c1, c4, c5, c6, c7, ?_⟩
  intro qs hqs
  subst hqs
  simp only [questionsOf, Except.ok.injEq] at h4
  exact c8 qs h4.symm

/-- C15 (witness). The model answers with one question inside a code fence. -/
theorem generate_creates_one_record_witness :
    (generateAssessment (exampleEnv ("```json\n" ++ oneQuestionJson ++ "\n```"))
        (some "clerk1") scenarioDb exampleRequest).1 =
      .ok ⟨"a2", "u1", "SQL", [exampleQuestion "A"], .int 0, none, 6⟩ ∧
    (generateAssessment (exampleEnv ("```json\n" ++ oneQuestionJson ++ "\n```"))
        (some "clerk1") scenarioDb exampleRequest).2 =
      { scenarioDb with assessments := scenarioDb.assessments ++
          [⟨"a2", "u1", "SQL", [exampleQuestion "A"], .int 0, none, 6⟩] } := by
  have h0 : (generateAssessment (exampleEnv ("```json\n" ++ oneQuestionJson ++ "\n```"))
      (some "clerk1") scenarioDb exampleRequest).1 =
      .ok ⟨"a2", "u1", "SQL", [exampleQuestion "A"], .int 0, none, 6⟩ := by rfl
  obtain ⟨_, _, _, _, _, _, _, h4, _⟩ :=
    generate_creates_one_record (exampleEnv ("```json\n" ++ oneQuestionJson ++ "\n```"))
      (some "clerk1") scenarioDb exampleRequest _ h0
  exact ⟨h0, h4⟩

/-- C16 (counterexample). A request for two questions answered by a model response that
holds one question: `generateAssessment` succeeds and the created assessment has one
question. -/
theorem created_question_count_is_not_checked :
    exampleRequest.questionCount = 2 ∧
    ((generateAssessment (exampleEnv oneQuestionJson) (some "clerk1") scenarioDb
        exampleRequest).1.toOption.map (fun r => r.questions.length)) = some 1 := by
  decide

/-- C16 (amended). For every request with `questionCount = n` and every model response
for which `generateAssessment` succeeds, the created assessment has exactly as many
questions as the `questions` array of the parsed response holds; it has `n` questions
when the model returned `n` of them. -/
theorem created_question_count_is_the_response_count (env : Environment)
    (session : Option String) (db : Db) (request : AssessmentRequest) (r : Assessment)
    (user : User) (uid text : String) (qs : List Question)
    (h : (generateAssessment env session db request).1 = .ok r)
    (hauth : requireAuth session db = .ok (user, uid))
    (htext : env.generateContent
      (buildPrompt user request.topic request.difficulty request.questionCount) = .ok text)
    (hparse : env.jsonParse (cleanedContent (jsTrim text)) = some (.object (some (.array qs)))) :
    r.questions.length = qs.length ∧
    (qs.length = request.questionCount → r.questions.length = request.questionCount) := by
  obtain ⟨user2, uid2, text2, parsed, questions, h1, h2, h3, h4, h5⟩ :=
    generate_ok_inv env session db request r h
  rw [hauth] at h1
  simp only [Except.ok.injEq, Prod.mk.injEq] at h1
  obtain ⟨hu, _⟩ := h1
  subst hu
  rw [htext] at h2
  simp only [Except.ok.injEq] at h2
  subst h2
  rw [hparse] at h3
  simp only [Option.some.injEq] at h3
  subst h3
  simp only [questionsOf, Except.ok.injEq] at h4
  obtain ⟨_, _, _, _, _, _, _, c8, _, _⟩ := create_ok _ _ _ _ _ _ _ _ h5
  have := c8 qs h4.symm
  rw [this]
  exact ⟨rfl, fun h => h⟩

/-- C16 (witness). The response with one question, for a request of two. -/
theorem created_question_count_is_the_response_count_witness :
    (generateAssessment (exampleEnv oneQuestionJson) (some "clerk1") scenarioDb
        exampleRequest).1 = .ok ⟨"a2", "u1", "SQL", [exampleQuestion "A"], .int 0, none, 6⟩ ∧
    (⟨"a2", "u1", "SQL", [exampleQuestion "A"], .int 0, none, 6⟩ : Assessment).questions.length =
      [exampleQuestion "A"].length :=
  ⟨by rfl,
   (created_question_count_is_the_response_count (exampleEnv oneQuestionJson) (some "clerk1")
      scenarioDb exampleRequest _ exampleUser "clerk1" oneQuestionJson [exampleQuestion "A"]
      (by rfl) (by rfl) (by rfl) (by rfl)).1⟩


/-- C18 (evaluation at the failing input). The model answers with the text of the empty
JSON object, which is valid JSON without a `questions` array: `generateAssessment` makes
no check of the shape, reads `parsedContent.questions` as `undefined` and creates an
assessment, which is persisted without any question. A bare array as the response does
the same; only `null` makes the property read throw. -/
theorem shapeless_response_is_persisted :
    exampleJsonParse (cleanedContent (jsTrim "\x7b\x7d")) = some (.object none) ∧
    generateAssessment (exampleEnv "\x7b\x7d") (some "clerk1") scenarioDb exampleRequest =
      (.ok ⟨"a2", "u1", "SQL", [], .int 0, none, 6⟩,
       { scenarioDb with assessments := scenarioDb.assessments ++
           [⟨"a2", "u1", "SQL", [], .int 0, none, 6⟩] }) ∧
    generateAssessment (exampleEnv "[]") (some "clerk1") scenarioDb exampleRequest =
      (.ok ⟨"a2", "u1", "SQL", [], .int 0, none, 6⟩,
       { scenarioDb with assessments := scenarioDb.assessments ++
           [⟨"a2", "u1", "SQL", [], .int 0, none, 6⟩] }) ∧
    generateAssessment (exampleEnv "null") (some "clerk1") scenarioDb exampleRequest =
      (.error "Failed to generate assessment", scenarioDb) := by
  refine ⟨by rfl, by rfl, by rfl, by rfl⟩

/-- A generation that ends in an error leaves the database as it was. -/
theorem generate_error_keeps_db (env : Environment) (session : Option String) (db : Db)
    (request : AssessmentRequest) (e : String)
    (h : (generateAssessment env session db request).1 = .error e) :
    (generateAssessment env session db request).2 = db := by
  unfold generateAssessment at h ⊢
  cases hauth : requireAuth session db with
  | error e2 => rfl
  | ok p =>
    obtain ⟨user, uid⟩ := p
    simp only [hauth] at h ⊢
    cases hbody : generateBody env db user request with
    | error e3 => rfl
    | ok res => simp [hbody] at h

/-- C19. Generation is all-or-nothing: for an authenticated caller, whenever the call of
the generation service fails, or the service answers with a text whose cleaned form is
not valid JSON, `generateAssessment` raises an error and the store is unchanged, so no
assessment record is created; every generation that ends in an error leaves the store
unchanged. -/
theorem generation_is_all_or_nothing (env : Environment) (session : Option String) (db : Db)
    (request : AssessmentRequest) (user : User) (uid : String)
    (hauth : requireAuth session db = .ok (user, uid)) :
    ((∃ e, env.generateContent
        (buildPrompt user request.topic request.difficulty request.questionCount) = .error e) →
      generateAssessment env session db request =
        (.error "Failed to generate assessment", db)) ∧
    (∀ text, env.generateContent
        (buildPrompt user request.topic request.difficulty request.questionCount) = .ok text →
      env.jsonParse (cleanedContent (jsTrim text)) = none →
      generateAssessment env session db request =
        (.error "Failed to generate assessment", db)) ∧
    (∀ e, (generateAssessment env session db request).1 = .error e →
      (generateAssessment env session db request).2 = db) := by
  refine ⟨?_, ?_, generate_error_keeps_db env session db request⟩
  · rintro ⟨e, he⟩
    simp only [generateAssessment, hauth, generateBody, he]
  · intro text ht hp
    simp only [generateAssessment, hauth, generateBody, ht, parseStep, hp]

/-- C19 (witness). A failing service, and a response that is not JSON. -/
theorem generation_is_all_or_nothing_witness :
    generateAssessment failingEnv (some "clerk1") scenarioDb exampleRequest =
      (.error "Failed to generate assessment", scenarioDb) ∧
    generateAssessment (exampleEnv "oops") (some "clerk1") scenarioDb exampleRequest =
      (.error "Failed to generate assessment", scenarioDb) :=
  have h1 := generation_is_all_or_nothing failingEnv (some "clerk1") scenarioDb exampleRequest
    exampleUser "clerk1" (by rfl)
  have h2 := generation_is_all_or_nothing (exampleEnv "oops") (some "clerk1") scenarioDb
    exampleRequest exampleUser "clerk1" (by rfl)
  ⟨h1.1 ⟨"fetch failed", by rfl⟩, h2.2.1 "oops" (by rfl) (by rfl)⟩

/-- C20 (evaluation at the failing input). A response that is not JSON makes the inner
`catch` throw `Failed to parse assessment content`, and a failing service throws its own
error; both are caught by the outer `catch`, so the caller gets the same error
`Failed to generate assessment` in the two cases. -/
theorem parse_failure_is_not_told_apart :
    generateBody (exampleEnv "oops") scenarioDb exampleUser exampleRequest =
      .error (.error "Failed to parse assessment content") ∧
    generateBody failingEnv scenarioDb exampleUser exampleRequest =
      .error (.error "fetch failed") ∧
    (generateAssessment (exampleEnv "oops") (some "clerk1") scenarioDb exampleRequest).1 =
      .error "Failed to generate assessment" ∧
    (generateAssessment failingEnv (some "clerk1") scenarioDb exampleRequest).1 =
      .error "Failed to generate assessment" ∧
    (generateAssessment (exampleEnv "oops") (some "clerk1") scenarioDb exampleRequest).1 =
      (generateAssessment failingEnv (some "clerk1") scenarioDb exampleRequest).1 := by
  refine ⟨by rfl, by rfl, by rfl, by rfl, by rfl⟩


/-- The method `trim` drops white space from the left, then from the right. -/
theorem trimChars_eq (l : List Char) :
    trimChars l = List.rdropWhile isJSWhiteSpace (l.dropWhile isJSWhiteSpace) := rfl

/-- White space around a text does not change what `trim` returns. -/
theorem trimChars_pad (a b l : List Char) (ha : ∀ c ∈ a, isJSWhiteSpace c = true)
    (hb : ∀ c ∈ b, isJSWhiteSpace c = true) :
    trimChars (a ++ l ++ b) = trimChars l := by
  rw [trimChars_eq, trimChars_eq, List.append_assoc, List.dropWhile_append_of_pos ha,
    List.dropWhile_append]
  split
  · next h =>
    have h1 : List.dropWhile isJSWhiteSpace l = [] := by simpa using h
    have h2 : List.dropWhile isJSWhiteSpace b = [] := List.dropWhile_eq_nil_iff.2 hb
    rw [h1, h2]
  · unfold List.rdropWhile
    rw [List.reverse_append,
      List.dropWhile_append_of_pos (fun c hc => hb c (List.mem_reverse.1 hc))]

/-- Trimming twice is trimming once. -/
theorem trimChars_idempotent (l : List Char) : trimChars (trimChars l) = trimChars l := by
  have key : List.dropWhile isJSWhiteSpace
      (List.rdropWhile isJSWhiteSpace (l.dropWhile isJSWhiteSpace)) =
      List.rdropWhile isJSWhiteSpace (l.dropWhile isJSWhiteSpace) := by
    rw [List.dropWhile_eq_self_iff]
    intro hl
    have hpre : List.rdropWhile isJSWhiteSpace (l.dropWhile isJSWhiteSpace) <+:
        l.dropWhile isJSWhiteSpace := List.rdropWhile_prefix _ _
    have hlen : 0 < (l.dropWhile isJSWhiteSpace).length :=
      Nat.lt_of_lt_of_le hl hpre.length_le
    have h0 := List.dropWhile_get_zero_not isJSWhiteSpace l hlen
    have : (List.rdropWhile isJSWhiteSpace (l.dropWhile isJSWhiteSpace)).get ⟨0, hl⟩ =
        (l.dropWhile isJSWhiteSpace).get ⟨0, hlen⟩ := by
      simp only [List.get_eq_getElem]
      exact List.IsPrefix.getElem hpre hl
    rw [this]
    exact h0
  show List.rdropWhile isJSWhiteSpace (List.dropWhile isJSWhiteSpace
      (List.rdropWhile isJSWhiteSpace (l.dropWhile isJSWhiteSpace))) =
    List.rdropWhile isJSWhiteSpace (l.dropWhile isJSWhiteSpace)
  rw [key, List.rdropWhile_idempotent]

/-- The characters `trim` returns are characters of its argument. -/
theorem mem_of_mem_trimChars (l : List Char) (c : Char) (h : c ∈ trimChars l) : c ∈ l := by
  rw [trimChars_eq] at h
  exact (List.dropWhile_sublist _).subset ((List.rdropWhile_prefix _ _).subset h)

/-- A text between two characters that are not white space is left alone by `trim`. -/
theorem trimChars_of_ends (x y : Char) (l : List Char) (hx : isJSWhiteSpace x = false)
    (hy : isJSWhiteSpace y = false) : trimChars (x :: l ++ [y]) = x :: l ++ [y] := by
  rw [trimChars_eq]
  have h1 : List.dropWhile isJSWhiteSpace (x :: l ++ [y]) = x :: l ++ [y] := by
    simp [List.dropWhile_cons, hx]
  rw [h1]
  exact List.rdropWhile_concat_neg _ _ _ (by simp [hy])

/-- A pattern that begins with a backtick matches nowhere in a text without backticks:
the scan copies such a text and goes on behind it. -/
theorem removeAllAux_append_of_no_backtick (pat l tail : List Char)
    (hl : ∀ c ∈ l, c ≠ backtick) :
    removeAllAux (backtick :: pat) 0 (l ++ tail) =
      l ++ removeAllAux (backtick :: pat) 0 tail := by
  induction l with
  | nil => rfl
  | cons c cs ih =>
    have hc : (backtick == c) = false := by
      have := hl c (by simp)
      simp [Ne.symm this]
    simp only [List.cons_append, removeAllAux, List.isPrefixOf, hc, Bool.false_and,
      Bool.false_eq_true, if_false, List.append_eq]
    rw [ih (fun x hx => hl x (by simp [hx]))]

/-- The first replacement on a text fenced with the word `json`. -/
theorem removeAll_json_fenced (mid : List Char) (hmid : ∀ c ∈ mid, c ≠ backtick) :
    removeAllAux "```json".data 0 ("```json".data ++ (mid ++ "```".data)) =
      mid ++ "```".data := by
  have hp : ("```json" : String).data = backtick :: [backtick, backtick, 'j', 's', 'o', 'n'] := by
    rfl
  have hf : ("```" : String).data = [backtick, backtick, backtick] := by rfl
  rw [hp, hf]
  have h1 : removeAllAux (backtick :: [backtick, backtick, 'j', 's', 'o', 'n']) 0
      (backtick :: [backtick, backtick, 'j', 's', 'o', 'n'] ++
        (mid ++ [backtick, backtick, backtick])) =
      removeAllAux (backtick :: [backtick, backtick, 'j', 's', 'o', 'n']) 0
        (mid ++ [backtick, backtick, backtick]) := by
    simp [removeAllAux, List.isPrefixOf]
  rw [h1, removeAllAux_append_of_no_backtick _ _ _ hmid]
  congr 1

/-- The first replacement finds nothing in a text fenced without the word `json`, when
the text inside starts with a line break. -/
theorem removeAll_json_plain_fenced (mid : List Char) (hmid : ∀ c ∈ mid, c ≠ backtick) :
    removeAllAux "```json".data 0 ("```".data ++ ('\n' :: mid ++ "```".data)) =
      "```".data ++ ('\n' :: mid ++ "```".data) := by
  have hp : ("```json" : String).data = backtick :: [backtick, backtick, 'j', 's', 'o', 'n'] := by
    rfl
  have hf : ("```" : String).data = [backtick, backtick, backtick] := by rfl
  rw [hp, hf]
  have h2 := removeAllAux_append_of_no_backtick [backtick, backtick, 'j', 's', 'o', 'n']
    mid [backtick, backtick, backtick] hmid
  have h3 : removeAllAux (backtick :: [backtick, backtick, 'j', 's', 'o', 'n']) 0
      [backtick, backtick, backtick] = [backtick, backtick, backtick] := by decide
  rw [h3] at h2
  have hb : (backtick == backtick) = true := by decide
  have hj : ('j' == '\n') = false := by decide
  have hbn : (backtick == '\n') = false := by decide
  simp only [List.cons_append, List.nil_append, removeAllAux, List.isPrefixOf, hb, hj, hbn,
    Bool.true_and, Bool.false_and, Bool.and_false, Bool.false_eq_true, if_false,
    List.append_eq]
  rw [h2]

/-- The second replacement removes the two fences around a text without backticks. -/
theorem removeAll_fence_fenced (mid : List Char) (hmid : ∀ c ∈ mid, c ≠ backtick) :
    removeAllAux "```".data 0 ("```".data ++ (mid ++ "```".data)) = mid := by
  have hf : ("```" : String).data = backtick :: [backtick, backtick] := by rfl
  rw [hf]
  have h1 : removeAllAux (backtick :: [backtick, backtick]) 0
      (backtick :: [backtick, backtick] ++ (mid ++ backtick :: [backtick, backtick])) =
      removeAllAux (backtick :: [backtick, backtick]) 0
        (mid ++ backtick :: [backtick, backtick]) := by
    simp [removeAllAux, List.isPrefixOf]
  rw [h1, removeAllAux_append_of_no_backtick _ _ _ hmid]
  have h3 : removeAllAux (backtick :: [backtick, backtick]) 0
      (backtick :: [backtick, backtick]) = [] := by decide
  rw [h3, List.append_nil]

/-- The second replacement removes the closing fence behind a text without backticks. -/
theorem removeAll_fence_closing (mid : List Char) (hmid : ∀ c ∈ mid, c ≠ backtick) :
    removeAllAux "```".data 0 (mid ++ "```".data) = mid := by
  have hf : ("```" : String).data = backtick :: [backtick, backtick] := by rfl
  rw [hf, removeAllAux_append_of_no_backtick _ _ _ hmid]
  have h3 : removeAllAux (backtick :: [backtick, backtick]) 0
      (backtick :: [backtick, backtick]) = [] := by decide
  rw [h3, List.append_nil]

/-- Neither replacement changes a text without backticks. -/
theorem removeAll_of_no_backtick (pat l : List Char) (hl : ∀ c ∈ l, c ≠ backtick) :
    removeAllAux (backtick :: pat) 0 l = l := by
  have := removeAllAux_append_of_no_backtick pat l [] hl
  simpa [removeAllAux] using this

/-- The characters of the cleaned content. -/
theorem cleanedContent_data (s : String) :
    (cleanedContent s).data =
      trimChars (removeAllAux "```".data 0 (removeAllAux "```json".data 0 s.data)) := rfl

/-- Cleaning a text that is fenced, with or without the word `json`, or not fenced. -/
theorem cleanedContent_fenced (J : List Char) (hJ : ∀ c ∈ J, c ≠ backtick) :
    trimChars (removeAllAux "```".data 0 (removeAllAux "```json".data 0
      ("```json".data ++ ('\n' :: J ++ '\n' :: "```".data)))) = trimChars J ∧
    trimChars (removeAllAux "```".data 0 (removeAllAux "```json".data 0
      ("```".data ++ ('\n' :: J ++ '\n' :: "```".data)))) = trimChars J ∧
    trimChars (removeAllAux "```".data 0 (removeAllAux "```json".data 0 J)) = trimChars J := by
  have hnl : ∀ c ∈ '\n' :: J ++ ['\n'], c ≠ backtick := by
    intro c hc
    simp only [List.cons_append, List.mem_cons, List.mem_append, List.mem_singleton,
      List.not_mem_nil, or_false] at hc
    rcases hc with h | h | h
    · subst h; decide
    · exact hJ c h
    · subst h; decide
  have hJn : ∀ c ∈ J ++ ['\n'], c ≠ backtick := by
    intro c hc
    exact hnl c (by simp only [List.cons_append, List.mem_cons]; exact Or.inr hc)
  have hpad : trimChars ('\n' :: J ++ ['\n']) = trimChars J := by
    have := trimChars_pad ['\n'] ['\n'] J (by decide) (by decide)
    simpa using this
  have e1 : ('\n' :: J ++ '\n' :: "```".data) = ('\n' :: J ++ ['\n']) ++ "```".data := by simp
  have e2 : ('\n' :: J ++ '\n' :: "```".data) = '\n' :: (J ++ ['\n']) ++ "```".data := by simp
  have hj : ("```json" : String).data = backtick :: [backtick, backtick, 'j', 's', 'o', 'n'] := by
    rfl
  have hf : ("```" : String).data = backtick :: [backtick, backtick] := by rfl
  refine ⟨?_, ?_, ?_⟩
  · rw [e1, removeAll_json_fenced _ hnl, removeAll_fence_closing _ hnl, hpad]
  · rw [e2, removeAll_json_plain_fenced _ hJn]
    have e3 : "```".data ++ ('\n' :: (J ++ ['\n']) ++ "```".data) =
        "```".data ++ (('\n' :: J ++ ['\n']) ++ "```".data) := by simp
    rw [e3, removeAll_fence_fenced _ hnl, hpad]
  · rw [hj, removeAll_of_no_backtick _ _ hJ, hf, removeAll_of_no_backtick _ _ hJ]

/-- C17. Code fences do not change the parse: for every text `J` without a backtick, the
cleaning step maps `J` wrapped as three backticks, `json`, a line break, `J`, a line
break and three backticks, and `J` wrapped the same way without the word `json`, to the
same string as `J` itself, namely `J` with the surrounding white space trimmed; this
holds for the replacements and final `trim` alone and also when the `trim` that the
action applies to the response text beforehand is included. -/
theorem code_fences_do_not_change_the_parse (J : String) (hJ : ∀ c ∈ J.data, c ≠ backtick) :
    cleanedContent ("```json" ++ "\n" ++ J ++ "\n" ++ "```") = jsTrim J ∧
    cleanedContent ("```" ++ "\n" ++ J ++ "\n" ++ "```") = jsTrim J ∧
    cleanedContent J = jsTrim J ∧
    cleanedContent (jsTrim ("```json" ++ "\n" ++ J ++ "\n" ++ "```")) = jsTrim J ∧
    cleanedContent (jsTrim ("```" ++ "\n" ++ J ++ "\n" ++ "```")) = jsTrim J ∧
    cleanedContent (jsTrim J) = jsTrim J := by
  obtain ⟨h1, h2, h3⟩ := cleanedContent_fenced J.data hJ
  have hext : ∀ s t : String, s.data = t.data → s = t := fun s t h => String.ext h
  have hn : ("\n" : String).data = ['\n'] := rfl
  have d1 : ("```json" ++ "\n" ++ J ++ "\n" ++ "```").data =
      "```json".data ++ ('\n' :: J.data ++ '\n' :: "```".data) := by
    simp [String.data_append, hn]
  have d2 : ("```" ++ "\n" ++ J ++ "\n" ++ "```").data =
      "```".data ++ ('\n' :: J.data ++ '\n' :: "```".data) := by
    simp [String.data_append, hn]
  have hb : isJSWhiteSpace backtick = false := by decide
  have t1 : jsTrim ("```json" ++ "\n" ++ J ++ "\n" ++ "```") =
      "```json" ++ "\n" ++ J ++ "\n" ++ "```" := by
    apply hext
    show trimChars ("```json" ++ "\n" ++ J ++ "\n" ++ "```").data = _
    rw [d1]
    have e : "```json".data ++ ('\n' :: J.data ++ '\n' :: "```".data) =
        backtick :: ([backtick, backtick, 'j', 's', 'o', 'n'] ++
          ('\n' :: J.data ++ ['\n', backtick, backtick])) ++ [backtick] := by
      have hj : ("```json" : String).data =
          backtick :: [backtick, backtick, 'j', 's', 'o', 'n'] := rfl
      have hf : ("```" : String).data = [backtick, backtick, backtick] := rfl
      rw [hj, hf]; simp
    rw [e]
    exact trimChars_of_ends _ _ _ hb hb
  have t2 : jsTrim ("```" ++ "\n" ++ J ++ "\n" ++ "```") =
      "```" ++ "\n" ++ J ++ "\n" ++ "```" := by
    apply hext
    show trimChars ("```" ++ "\n" ++ J ++ "\n" ++ "```").data = _
    rw [d2]
    have e : "```".data ++ ('\n' :: J.data ++ '\n' :: "```".data) =
        backtick :: ([backtick, backtick] ++
          ('\n' :: J.data ++ ['\n', backtick, backtick])) ++ [backtick] := by
      have hf : ("```" : String).data = [backtick, backtick, backtick] := rfl
      rw [hf]; simp
    rw [e]
    exact trimChars_of_ends _ _ _ hb hb
  have c1 : cleanedContent ("```json" ++ "\n" ++ J ++ "\n" ++ "```") = jsTrim J := by
    apply hext
    rw [cleanedContent_data, d1]
    exact h1
  have c2 : cleanedContent ("```" ++ "\n" ++ J ++ "\n" ++ "```") = jsTrim J := by
    apply hext
    rw [cleanedContent_data, d2]
    exact h2
  have c3 : cleanedContent J = jsTrim J := by
    apply hext
    rw [cleanedContent_data]
    exact h3
  refine ⟨c1, c2, c3, by rw [t1]; exact c1, by rw [t2]; exact c2, ?_⟩
  apply hext
  rw [cleanedContent_data]
  have hT : ∀ c ∈ (jsTrim J).data, c ≠ backtick :=
    fun c hc => hJ c (mem_of_mem_trimChars J.data c hc)
  rw [(cleanedContent_fenced (jsTrim J).data hT).2.2]
  exact trimChars_idempotent J.data

/-- C17 (witness). The response with one question, padded with blanks. -/
theorem code_fences_do_not_change_the_parse_witness :
    jsTrim (" " ++ oneQuestionJson ++ " ") = oneQuestionJson ∧
    cleanedContent ("```json" ++ "\n" ++ (" " ++ oneQuestionJson ++ " ") ++ "\n" ++ "```") =
      jsTrim (" " ++ oneQuestionJson ++ " ") ∧
    cleanedContent ("```" ++ "\n" ++ (" " ++ oneQuestionJson ++ " ") ++ "\n" ++ "```") =
      jsTrim (" " ++ oneQuestionJson ++ " ") ∧
    cleanedContent (" " ++ oneQuestionJson ++ " ") = jsTrim (" " ++ oneQuestionJson ++ " ") :=
  have h := code_fences_do_not_change_the_parse (" " ++ oneQuestionJson ++ " ") (by decide)
  ⟨by decide, h.1, h.2.1, h.2.2.1⟩

/-- Whatever goes wrong inside the `try` block, an authenticated caller of
`generateAssessment` sees the one message `Failed to generate assessment`. -/
theorem generate_error_message (env : Environment) (session : Option String) (db : Db)
    (request : AssessmentRequest) (user : User) (uid e : String)
    (hauth : requireAuth session db = .ok (user, uid))
    (h : (generateAssessment env session db request).1 = .error e) :
    e = "Failed to generate assessment" := by
  unfold generateAssessment at h
  simp only [hauth] at h
  cases hbody : generateBody env db user request with
  | error e3 =>
    simp only [hbody, Except.error.injEq] at h
    exact h.symm
  | ok res => simp [hbody] at h

/-- What the update does to the row at each position. -/
theorem update_getElem? (db : Db) (id userId : String) (s : Score) (t : String)
    (qs : List Question) (i : Nat) :
    (db.update id userId s t qs).assessments[i]? =
      (db.assessments[i]?).map (fun a =>
        if a.id == id && a.userId == userId then
          { a with quizScore := s, improvementTip := some t, questions := qs }
        else a) := by
  simp [Db.update]

/-- C21. A successful `submitAssessmentAnswers(id, answers)` by user A leaves the user
table and the number and positions of the assessment rows as they were. Every row keeps
its `id`, `userId`, `category` and `createdAt`; a row that is not the assessment with
that id owned by A is unchanged in every column; the assessment with that id owned by A
gets the returned `questions`, `quizScore` and `improvementTip`. -/
theorem submit_changes_only_graded_columns (session : Option String) (db : Db)
    (id : String) (answers : Answers) (r : Assessment)
    (h : (submitAssessmentAnswers session db id answers).1 = .ok r) :
    ∃ (userA : User) (uid : String), requireAuth session db = .ok (userA, uid) ∧
      (submitAssessmentAnswers session db id answers).2.users = db.users ∧
      (submitAssessmentAnswers session db id answers).2.assessments.length =
        db.assessments.length ∧
      ∀ (i : Nat) (x : Assessment), db.assessments[i]? = some x →
        ∃ y, (submitAssessmentAnswers session db id answers).2.assessments[i]? = some y ∧
          y.id = x.id ∧ y.userId = x.userId ∧ y.category = x.category ∧
          y.createdAt = x.createdAt ∧
          (¬ (x.id = id ∧ x.userId = userA.id) → y = x) ∧
          (x.id = id ∧ x.userId = userA.id →
            y.questions = r.questions ∧ y.quizScore = r.quizScore ∧
            y.improvementTip = r.improvementTip) := by
  obtain ⟨user, uid, a, g, hauth, hfind, hg, hr⟩ := submit_ok_inv session db id answers r h
  rw [submit_total session db id answers user uid a g hauth hfind hg]
  refine ⟨user, uid, hauth, rfl, by simp [Db.update], ?_⟩
  intro i x hx
  rw [update_getElem?, hx]
  subst hr
  by_cases hc : x.id = id ∧ x.userId = user.id
  · have hb : (x.id == id && x.userId == user.id) = true := by simp [hc.1, hc.2]
    refine ⟨{ x with quizScore := g.score, improvementTip := some g.improvementTip,
                     questions := g.questionsWithAnswers },
      by simp only [Option.map_some', hb, if_true], rfl, rfl, rfl, rfl, ?_, ?_⟩
    · intro hn; exact absurd hc hn
    · intro _; exact ⟨rfl, rfl, rfl⟩
  · have hb : (x.id == id && x.userId == user.id) = false := by
      cases hbb : (x.id == id && x.userId == user.id) with
      | false => rfl
      | true =>
        simp only [Bool.and_eq_true, beq_iff_eq] at hbb
        exact absurd hbb hc
    refine ⟨x, by simp only [Option.map_some', hb, Bool.false_eq_true, if_false],
      rfl, rfl, rfl, rfl, ?_, ?_⟩
    · intro _; rfl
    · intro hp; exact absurd hp hc

/-- C21 (witness). The answer `B` submitted for `a1` in a store that also holds another
assessment of the caller and one of another user. -/
theorem submit_changes_only_graded_columns_witness :
    (submitAssessmentAnswers (some "clerk1") historyDb "a1" (some [.str "B"])).1 =
      .ok historyResult ∧
    ∃ (userA : User) (uid : String),
      requireAuth (some "clerk1") historyDb = .ok (userA, uid) ∧
      (submitAssessmentAnswers (some "clerk1") historyDb "a1" (some [.str "B"])).2.users =
        historyDb.users ∧
      (submitAssessmentAnswers (some "clerk1") historyDb "a1"
          (some [.str "B"])).2.assessments.length = historyDb.assessments.length ∧
      ∀ (i : Nat) (x : Assessment), historyDb.assessments[i]? = some x →
        ∃ y, (submitAssessmentAnswers (some "clerk1") historyDb "a1"
            (some [.str "B"])).2.assessments[i]? = some y ∧
          y.id = x.id ∧ y.userId = x.userId ∧ y.category = x.category ∧
          y.createdAt = x.createdAt ∧
          (¬ (x.id = "a1" ∧ x.userId = userA.id) → y = x) ∧
          (x.id = "a1" ∧ x.userId = userA.id →
            y.questions = historyResult.questions ∧
            y.quizScore = historyResult.quizScore ∧
            y.improvementTip = historyResult.improvementTip) :=
  ⟨by rfl, submit_changes_only_graded_columns (some "clerk1") historyDb "a1"
    (some [.str "B"]) historyResult (by rfl)⟩

/-- A record returned by the lookup is in the store and has the id and owner asked for. -/
theorem findUnique_some (db : Db) (id userId : String) (a : Assessment)
    (h : db.findUnique id userId = some a) :
    a ∈ db.assessments ∧ a.id = id ∧ a.userId = userId := by
  unfold Db.findUnique at h
  have h1 := List.mem_of_find?_eq_some h
  have h2 := List.find?_some h
  simp only [Bool.and_eq_true, beq_iff_eq] at h2
  exact ⟨h1, h2.1, h2.2⟩

/-- The lookup finds a record whenever one with the id and owner is in the store. -/
theorem findUnique_isSome (db : Db) (id userId : String) (a : Assessment)
    (hmem : a ∈ db.assessments) (hid : a.id = id) (hown : a.userId = userId) :
    ∃ b, db.findUnique id userId = some b := by
  cases h : db.findUnique id userId with
  | some b => exact ⟨b, rfl⟩
  | none =>
    unfold Db.findUnique at h
    have := List.find?_eq_none.1 h a hmem
    simp [hid, hown] at this

/-- In a store whose ids are unique, deleting by id removes the record with that id and
nothing else. -/
theorem delete_of_unique_ids (db : Db) (a : Assessment)
    (hids : (db.assessments.map (fun x => x.id)).Nodup) (hmem : a ∈ db.assessments) :
    (db.delete a.id).assessments = db.assessments.filter (fun x => decide (x ≠ a)) := by
  unfold Db.delete
  simp only
  apply List.filter_congr
  intro x hx
  by_cases hxa : x = a
  · subst hxa; simp
  · have hne : x.id ≠ a.id := fun he => hxa (List.inj_on_of_nodup_map hids hx hmem he)
    simp [hxa, hne]

/-- C22. In a store whose assessment ids are unique, for every signed-in user A and every
id: if an assessment `a` with that id owned by A exists, `deleteAssessment(id)` returns
`{ success: true }`, leaves the user table as it was and leaves exactly the assessments
other than `a`, unchanged and in their order; if no assessment with that id is owned by
A, it fails and the store is as before. In both cases every assessment that is gone
afterwards was owned by A. -/
theorem delete_removes_only_own_record (session : Option String) (db : Db) (id : String)
    (userA : User) (uid : String)
    (hauth : requireAuth session db = .ok (userA, uid))
    (hids : (db.assessments.map (fun x => x.id)).Nodup) :
    (∀ a ∈ db.assessments, a.id = id → a.userId = userA.id →
      (deleteAssessment session db id).1 = .ok ⟨true⟩ ∧
      (deleteAssessment session db id).2.users = db.users ∧
      (deleteAssessment session db id).2.assessments =
        db.assessments.filter (fun x => decide (x ≠ a))) ∧
    ((∀ a ∈ db.assessments, a.id = id → a.userId ≠ userA.id) →
      deleteAssessment session db id = (.error "Failed to delete assessment", db)) ∧
    (∀ x ∈ db.assessments, x ∉ (deleteAssessment session db id).2.assessments →
      x.userId = userA.id) := by
  refine ⟨?_, ?_, ?_⟩
  · intro a hmem hid hown
    obtain ⟨b, hb⟩ := findUnique_isSome db id userA.id a hmem hid hown
    have hd : deleteAssessment session db id = (.ok ⟨true⟩, db.delete id) := by
      simp only [deleteAssessment, hauth, hb]
    rw [hd]
    refine ⟨rfl, rfl, ?_⟩
    rw [← hid]
    exact delete_of_unique_ids db a hids hmem
  · intro h
    exact (actions_not_found session db id none userA uid hauth h).2.2
  · intro x hx hgone
    cases hf : db.findUnique id userA.id with
    | none =>
      simp only [deleteAssessment, hauth, hf] at hgone
      exact absurd hx hgone
    | some b =>
      obtain ⟨hbm, hbid, hbown⟩ := findUnique_some db id userA.id b hf
      simp only [deleteAssessment, hauth, hf] at hgone
      rw [← hbid, delete_of_unique_ids db b hids hbm] at hgone
      by_cases hxb : x = b
      · rw [hxb]; exact hbown
      · exact absurd (List.mem_filter.2 ⟨hx, by simpa using hxb⟩) hgone

/-- C22 (witness). In `historyDb`, the owner deletes `a1`; the rows `b1` and `a2` stay. -/
theorem delete_removes_only_own_record_witness :
    requireAuth (some "clerk1") historyDb = .ok (exampleUser, "clerk1") ∧
    (historyDb.assessments.map (fun x => x.id)).Nodup ∧
    (∀ a ∈ historyDb.assessments, a.id = "a1" → a.userId = exampleUser.id →
      (deleteAssessment (some "clerk1") historyDb "a1").1 = .ok ⟨true⟩ ∧
      (deleteAssessment (some "clerk1") historyDb "a1").2.users = historyDb.users ∧
      (deleteAssessment (some "clerk1") historyDb "a1").2.assessments =
        historyDb.assessments.filter (fun x => decide (x ≠ a))) ∧
    ((∀ a ∈ historyDb.assessments, a.id = "a1" → a.userId ≠ exampleUser.id) →
      deleteAssessment (some "clerk1") historyDb "a1" =
        (.error "Failed to delete assessment", historyDb)) ∧
    (∀ x ∈ historyDb.assessments,
      x ∉ (deleteAssessment (some "clerk1") historyDb "a1").2.assessments →
      x.userId = exampleUser.id) :=
  ⟨by rfl, by decide, delete_removes_only_own_record (some "clerk1") historyDb "a1"
    exampleUser "clerk1" (by rfl) (by decide)⟩

/-- C25. The function `requireAuth` ends in an error exactly when the session reports no
user id (none, or the empty string) or no row of the user table has that `clerkUserId`;
in every other case it returns `{ user, userId }` where `userId` is the id the session
reports and `user` is the row of the user table found for `clerkUserId = userId`. -/
theorem requireAuth_fails_iff_no_session_or_no_user (session : Option String) (db : Db) :
    ((∃ e, requireAuth session db = .error e) ↔
      (session = none ∨ session = some "" ∨
        ∃ uid, session = some uid ∧ ∀ u ∈ db.users, u.clerkUserId ≠ uid)) ∧
    ((∃ e, requireAuth session db = .error e) ∨
      ∃ user userId, requireAuth session db = .ok (user, userId) ∧
        session = some userId ∧ user ∈ db.users ∧ user.clerkUserId = userId ∧
        db.users.find? (fun u => u.clerkUserId == userId) = some user) := by
  cases session with
  | none => simp [requireAuth]
  | some uid =>
    by_cases he : uid = ""
    · subst he; simp [requireAuth]
    · cases hf : db.users.find? (fun u => u.clerkUserId == uid) with
      | none =>
        have hr : requireAuth (some uid) db = .error "User not found in database" := by
          simp only [requireAuth, he, if_false, hf]
        have hn := List.find?_eq_none.1 hf
        rw [hr]
        refine ⟨⟨fun _ => Or.inr (Or.inr ⟨uid, rfl, ?_⟩), fun _ => ⟨_, rfl⟩⟩,
          Or.inl ⟨_, rfl⟩⟩
        intro u hu hc
        exact hn u hu (by simp [hc])
      | some user =>
        have hr : requireAuth (some uid) db = .ok (user, uid) := by
          simp only [requireAuth, he, if_false, hf]
        have h1 := List.mem_of_find?_eq_some hf
        have h2 := List.find?_some hf
        simp only [beq_iff_eq] at h2
        rw [hr]
        refine ⟨⟨fun h => ?_, fun h => ?_⟩, Or.inr ⟨user, uid, rfl, rfl, h1, h2, hf⟩⟩
        · obtain ⟨e, h⟩ := h
          cases h
        · rcases h with h | h | ⟨x, hx, hall⟩
          · cases h
          · simp only [Option.some.injEq] at h
            exact absurd h he
          · simp only [Option.some.injEq] at hx
            subst hx
            exact absurd h2 (hall user h1)

/-- C25 (witness). Nobody signed in, a session without a user row, and the session of the
second user of `twoUserDb`. -/
theorem requireAuth_fails_iff_no_session_or_no_user_witness :
    requireAuth none twoUserDb = .error "Authentication required" ∧
    requireAuth (some "clerk9") twoUserDb = .error "User not found in database" ∧
    requireAuth (some "clerk2") twoUserDb = .ok (otherUser, "clerk2") ∧
    ((∃ e, requireAuth (some "clerk2") twoUserDb = .error e) ↔
      ((some "clerk2" : Option String) = none ∨ some "clerk2" = some "" ∨
        ∃ uid, some "clerk2" = some uid ∧ ∀ u ∈ twoUserDb.users, u.clerkUserId ≠ uid)) ∧
    ((∃ e, requireAuth (some "clerk2") twoUserDb = .error e) ∨
      ∃ user userId, requireAuth (some "clerk2") twoUserDb = .ok (user, userId) ∧
        some "clerk2" = some userId ∧ user ∈ twoUserDb.users ∧ user.clerkUserId = userId ∧
        twoUserDb.users.find? (fun u => u.clerkUserId == userId) = some user) :=
  ⟨by rfl, by rfl, by rfl,
   requireAuth_fails_iff_no_session_or_no_user (some "clerk2") twoUserDb⟩

/-- The ordering of `findMany`, newest first, is total. -/
theorem newestFirst_total :
    IsTotal Assessment (fun a b => b.createdAt ≤ a.createdAt) :=
  ⟨fun a b => Nat.le_total b.createdAt a.createdAt⟩

/-- The ordering of `findMany`, newest first, is transitive. -/
theorem newestFirst_trans :
    IsTrans Assessment (fun a b => b.createdAt ≤ a.createdAt) :=
  ⟨fun _ _ _ h1 h2 => Nat.le_trans h2 h1⟩

/-- The query returns the rows of the user, each as often as stored, newest first. -/
theorem findMany_spec (db : Db) (userId : String) :
    (db.findMany userId).Perm (db.assessments.filter (fun a => a.userId == userId)) ∧
    (db.findMany userId).Pairwise (fun x y => y.createdAt ≤ x.createdAt) := by
  haveI := newestFirst_total
  haveI := newestFirst_trans
  exact ⟨List.perm_insertionSort _ _, List.sorted_insertionSort _ _⟩

/-- C23. For every store and signed-in user A, `getAssessments()` returns a list holding
exactly the assessments whose `userId` is A's id (every one of them, each as often as it
is stored, and no assessment of another user), ordered by `createdAt` descending, and
leaves the store as it was. -/
theorem getAssessments_lists_own_newest_first (session : Option String) (db : Db)
    (userA : User) (uid : String)
    (hauth : requireAuth session db = .ok (userA, uid)) :
    ∃ l, getAssessments session db = (.ok l, db) ∧
      (∀ x, x ∈ l ↔ x ∈ db.assessments ∧ x.userId = userA.id) ∧
      l.Perm (db.assessments.filter (fun a => a.userId == userA.id)) ∧
      l.Pairwise (fun x y => y.createdAt ≤ x.createdAt) := by
  refine ⟨db.findMany userA.id, by simp only [getAssessments, hauth], ?_,
    (findMany_spec db userA.id).1, (findMany_spec db userA.id).2⟩
  intro x
  rw [(findMany_spec db userA.id).1.mem_iff, List.mem_filter]
  simp

/-- C23 (witness). In `historyDb` the first user gets `a2` (created at 6) before `a1`
(created at 5) and not the record `b1` of the other user. -/
theorem getAssessments_lists_own_newest_first_witness :
    requireAuth (some "clerk1") historyDb = .ok (exampleUser, "clerk1") ∧
    ((getAssessments (some "clerk1") historyDb).1.toOption.map
      (fun l => l.map (fun a => a.id))) = some ["a2", "a1"] ∧
    ∃ l, getAssessments (some "clerk1") historyDb = (.ok l, historyDb) ∧
      (∀ x, x ∈ l ↔ x ∈ historyDb.assessments ∧ x.userId = exampleUser.id) ∧
      l.Perm (historyDb.assessments.filter (fun a => a.userId == exampleUser.id)) ∧
      l.Pairwise (fun x y => y.createdAt ≤ x.createdAt) :=
  ⟨by rfl, by decide, getAssessments_lists_own_newest_first (some "clerk1") historyDb
    exampleUser "clerk1" (by rfl)⟩

/-- The card reads the last element of the list it is given. -/
theorem latestAssessment_eq_getLast? (l : List Assessment) :
    latestAssessment l = l.getLast? := by
  unfold latestAssessment
  cases l with
  | nil => rfl
  | cons x rest => simp [List.getLast?_eq_getElem?]

/-- On every list `getAssessments` returns, the element the card reads has the least
`createdAt` of the list: it is the oldest assessment. -/
theorem latestAssessment_findMany_is_oldest (db : Db) (userId : String) (y : Assessment)
    (hy : latestAssessment (db.findMany userId) = some y) :
    ∀ x ∈ db.findMany userId, y.createdAt ≤ x.createdAt := by
  have hs := (findMany_spec db userId).2
  rw [latestAssessment_eq_getLast?] at hy
  generalize db.findMany userId = l at hs hy
  intro x hx
  have hl : l = l.dropLast ++ [y] := by
    have hne : l ≠ [] := by
      intro h; subst h; simp at hy
    rw [List.getLast?_eq_getLast _ hne] at hy
    simp only [Option.some.injEq] at hy
    rw [← hy, List.dropLast_append_getLast]
  rw [hl] at hs hx
  rw [List.pairwise_append] at hs
  rcases List.mem_append.1 hx with h1 | h1
  · exact hs.2.2 x h1 y (by simp)
  · simp only [List.mem_singleton] at h1
    rw [h1]

/-- C26. The claim fails on every history with two assessments created at different
times. In `historyDb` the first user owns `a1` (created at 5) and `a2` (created at 6);
`getAssessments` returns them newest first, `[a2, a1]`, and `latestAssessment`, the last
element of that list, is `a1`, the assessment with the least `createdAt`, although `a2`
is the most recent one. -/
theorem latest_performance_card_reads_the_oldest :
    ∃ l, getAssessments (some "clerk1") historyDb = (.ok l, historyDb) ∧
      l.map (fun a => (a.id, a.createdAt)) = [("a2", 6), ("a1", 5)] ∧
      (latestAssessment l).map (fun a => (a.id, a.createdAt)) = some ("a1", 5) ∧
      ∃ x ∈ l, ∀ y, latestAssessment l = some y → y.createdAt < x.createdAt :=
  ⟨historyDb.findMany "u1", by rfl, by decide, by decide,
    ⟨"a2", "u1", "Go", [exampleQuestion "D"], .int 0, none, 6⟩, by decide, by
      intro y hy
      have h5 : latestAssessment (historyDb.findMany "u1") =
          some ⟨"a1", "u1", "SQL", [exampleQuestion "B"], .int 0, none, 5⟩ := by
        decide
      rw [h5] at hy
      cases hy
      decide⟩

/-- The characters of a label: the one character with code `65 + index`. -/
theorem optionLabel_data (index : Nat) : (optionLabel index).data = [Char.ofNat (65 + index)] := by
  rfl

/-- An option written as label, period, blank, text is displayed as the trimmed text. -/
theorem displayOption_label_period_blank (index : Nat) (t : String) :
    displayOption (optionLabel index ++ ". " ++ t) index = jsTrim t := by
  unfold displayOption
  have hd : (optionLabel index ++ ". " ++ t).data =
      Char.ofNat (65 + index) :: '.' :: ' ' :: t.data := by
    simp [String.data_append, optionLabel_data]
  have hp : ((optionLabel index) ++ ".").data = [Char.ofNat (65 + index), '.'] := by
    simp [String.data_append, optionLabel_data]
  have hl : (optionLabel index).length = 1 := by rfl
  rw [hd, hp, hl]
  simp [List.isPrefixOf]

/-- An option written as label, period, text (no blank) loses the first character of the
text: what is displayed is the rest of the text, trimmed. -/
theorem displayOption_label_period (index : Nat) (c : Char) (rest : String) :
    displayOption (optionLabel index ++ "." ++ (String.singleton c ++ rest)) index =
      jsTrim rest := by
  unfold displayOption
  have hd : (optionLabel index ++ "." ++ (String.singleton c ++ rest)).data =
      Char.ofNat (65 + index) :: '.' :: c :: rest.data := by
    simp [String.data_append, optionLabel_data]
  have hp : ((optionLabel index) ++ ".").data = [Char.ofNat (65 + index), '.'] := by
    simp [String.data_append, optionLabel_data]
  have hl : (optionLabel index).length = 1 := by rfl
  rw [hd, hp, hl]
  simp [List.isPrefixOf]

/-- An option that does not start with its label and a period is displayed as it is. -/
theorem displayOption_unlabelled (option : String) (index : Nat)
    (h : ((optionLabel index) ++ ".").data.isPrefixOf option.data = false) :
    displayOption option index = option := by
  unfold displayOption
  rw [h]
  rfl

/-- C27. The claim fails for an option that starts with its label and a period without a
blank: the option `A.text` at index 0 is displayed as `ext`, so the first character of
the text is lost (and `B.4 GB` at index 1 as `GB`). The other two cases are as claimed:
`A. text` is displayed as `text`, and an option without the label prefix is displayed
unchanged. -/
theorem display_drops_first_character_after_period :
    optionLabel 0 = "A" ∧ optionLabel 1 = "B" ∧
    displayOption ("A" ++ "." ++ "text") 0 = "ext" ∧
    displayOption ("B" ++ "." ++ "4 GB") 1 = "GB" ∧
    displayOption ("A" ++ ". " ++ "text") 0 = "text" ∧
    displayOption "text" 0 = "text" ∧
    displayOption "B. text" 0 = "B. text" := by
  decide

/-- Below the surrogates, `Char.ofNat` keeps the code. -/
theorem toNat_ofNat_of_lt (n : Nat) (h : n < 55296) : (Char.ofNat n).toNat = n := by
  have hv : n.isValidChar := Or.inl h
  simp only [Char.ofNat, hv, dif_pos, Char.ofNatAux, Char.toNat]
  show (UInt32.ofNatCore n _).toNat = n
  rfl

/-- The code unit `charCodeAt(0)` reads from the label of option `index`. -/
theorem charCodeAt0_optionLabel (index : Nat) (h : 65 + index < 55296) :
    charCodeAt0 (optionLabel index) = some (65 + index) := by
  unfold charCodeAt0
  rw [optionLabel_data]
  simp only [toNat_ofNat_of_lt _ h]
  have : 65 + index < 65536 := by omega
  simp [this]

/-- Different indices get different labels. -/
theorem optionLabel_injective (i j : Nat) (hi : 65 + i < 55296) (hj : 65 + j < 55296)
    (h : optionLabel i = optionLabel j) : i = j := by
  have h1 := charCodeAt0_optionLabel i hi
  have h2 := charCodeAt0_optionLabel j hj
  rw [h, h2] at h1
  simp only [Option.some.injEq] at h1
  omega

/-- The callback on a submitted string whose first code unit is `65 + k`, for a question
whose stored label has first code unit `65 + m`, both indices inside the options. -/
theorem gradeQuestion_labelled (answers : Answers) (q gq : Question) (i k : Nat)
    (label : String) (opts : List String)
    (hgrade : gradeQuestion answers q i = .ok gq)
    (hlabel : getEntry answers i = .ok (.str label))
    (hcode : charCodeAt0 label = some (65 + k))
    (hopts : q.options = some opts) (hk : k < opts.length) :
    gq.userAnswer = some opts[k] ∧
    gq.isCorrect = some (decide (q.correctAnswer = some label)) ∧
    ∀ (ca : String) (m : Nat) (hm : m < opts.length), q.correctAnswer = some ca →
      charCodeAt0 ca = some (65 + m) → gq.correctAnswerText = some opts[m] := by
  obtain ⟨e, idx, text, ct, he, hidx, htext, hct, hg⟩ := gradeQuestion_ok answers q gq i hgrade
  rw [hlabel] at he
  cases he
  have hne : label ≠ "" := by
    intro h
    subst h
    simp [charCodeAt0] at hcode
  have hidx2 : idx = some (k : Int) := by
    simp [userAnswerIndex, Entry.truthy, hne, hcode] at hidx
    rw [← hidx]
  subst hidx2
  have ht : text = opts[k] := by
    simp [userAnswerText, hopts, hk] at htext
    rw [← htext]
  subst hg
  refine ⟨by simp [ht], ?_, ?_⟩
  · cases hca : q.correctAnswer with
    | none => simp [strictEq]
    | some ca => simp [strictEq, eq_comm]
  · intro ca m hm hca hcm
    simp [correctAnswerTextOf, hca, hopts, hcm] at hct
    simp only
    rw [← hct]
    simp [hm]

/-- C29. For every successful submission, every stored question with at most 26 options
and every option index `k` below the number of options: if the entry submitted for the
question is the label the quiz view assigns to option `k`
(`String.fromCharCode(65 + k)`), the graded question's `userAnswer` is the option at
index `k`. -/
theorem ui_label_resolves_to_its_option (session : Option String) (db : Db) (id : String)
    (answers : Answers) (user : User) (uid : String) (a r : Assessment)
    (hauth : requireAuth session db = .ok (user, uid))
    (hfind : db.findUnique id user.id = some a)
    (hok : (submitAssessmentAnswers session db id answers).1 = .ok r)
    (i k : Nat) (q : Question) (opts : List String)
    (hq : a.questions[i]? = some q) (hopts : q.options = some opts)
    (hlen : opts.length ≤ 26) (hk : k < opts.length)
    (hlabel : getEntry answers i = .ok (.str (optionLabel k))) :
    ∃ gq, r.questions[i]? = some gq ∧ gq.userAnswer = some opts[k] := by
  obtain ⟨gq, hgq, hgrade⟩ :=
    submit_question session db id answers user uid a r hauth hfind hok i q hq
  exact ⟨gq, hgq, (gradeQuestion_labelled answers q gq i k (optionLabel k) opts hgrade hlabel
    (charCodeAt0_optionLabel k (by omega)) hopts hk).1⟩

/-- C29 (witness). The scenario of the specification: the view labels option index 2 with
`C`; submitting that label for question 1 stores the text of option index 2. -/
theorem ui_label_resolves_to_its_option_witness :
    (submitAssessmentAnswers (some "clerk1") scenarioDb "a1" scenarioAnswers).1 =
      .ok scenarioResult ∧
    getEntry scenarioAnswers 1 = .ok (.str (optionLabel 2)) ∧
    ∃ gq, scenarioResult.questions[1]? = some gq ∧ gq.userAnswer = some "y" :=
  ⟨by rfl, by rfl,
   ui_label_resolves_to_its_option (some "clerk1") scenarioDb "a1" scenarioAnswers exampleUser
    "clerk1" (exampleAssessment [exampleQuestion "B", exampleQuestion "D"]) scenarioResult
    (by rfl) (by rfl) (by rfl) 1 2 (exampleQuestion "D") ["w", "x", "y", "z"]
    (by rfl) (by rfl) (by decide) (by decide) (by rfl)⟩

/-- The code unit `charCodeAt(0)` reads from a string of one UTF-16 code unit. -/
theorem charCodeAt0_singleton (c : Char) (h : c.toNat < 65536) :
    charCodeAt0 (String.singleton c) = some c.toNat := by
  have hd : (String.singleton c).data = [c] := rfl
  simp [charCodeAt0, hd, h]

/-- Two strings of one character each are equal only when the characters have the same
code. -/
theorem singleton_eq_iff (c1 c2 : Char) :
    String.singleton c1 = String.singleton c2 ↔ c1.toNat = c2.toNat := by
  constructor
  · intro h
    have hd : (String.singleton c1).data = (String.singleton c2).data := by rw [h]
    have hc : [c1] = [c2] := hd
    simp only [List.cons.injEq, and_true] at hc
    rw [hc]
  · intro h
    have : c1 = c2 := Char.ext (UInt32.eq_of_val_eq (Fin.ext h))
    rw [this]

/-- C30. In every successful submission, for every stored question whose options are
pairwise distinct and whose `correctAnswer` is a single character (one UTF-16 code unit)
with code `65 + m`, `m` below the number of options, and for every submitted entry that
is a single character with code `65 + k`, `k` below the number of options: the graded
question has `userAnswer` the option at `k`, `correctAnswerText` the option at `m`, and
`isCorrect` is `true` exactly when `userAnswer` equals `correctAnswerText` (and `false`
otherwise). -/
theorem isCorrect_iff_same_option_text (session : Option String) (db : Db) (id : String)
    (answers : Answers) (user : User) (uid : String) (a r : Assessment)
    (hauth : requireAuth session db = .ok (user, uid))
    (hfind : db.findUnique id user.id = some a)
    (hok : (submitAssessmentAnswers session db id answers).1 = .ok r)
    (i k m : Nat) (q : Question) (opts : List String) (c1 c2 : Char)
    (hq : a.questions[i]? = some q) (hopts : q.options = some opts)
    (hdistinct : opts.Nodup)
    (hca : q.correctAnswer = some (String.singleton c2))
    (hu2 : c2.toNat < 65536) (hc2 : c2.toNat = 65 + m) (hm : m < opts.length)
    (hlabel : getEntry answers i = .ok (.str (String.singleton c1)))
    (hu1 : c1.toNat < 65536) (hc1 : c1.toNat = 65 + k) (hk : k < opts.length) :
    ∃ gq, r.questions[i]? = some gq ∧
      gq.userAnswer = some opts[k] ∧ gq.correctAnswerText = some opts[m] ∧
      (gq.isCorrect = some true ∨ gq.isCorrect = some false) ∧
      (gq.isCorrect = some true ↔ gq.userAnswer = gq.correctAnswerText) := by
  obtain ⟨gq, hgq, hgrade⟩ :=
    submit_question session db id answers user uid a r hauth hfind hok i q hq
  have hcode1 : charCodeAt0 (String.singleton c1) = some (65 + k) := by
    rw [charCodeAt0_singleton c1 hu1, hc1]
  have hcode2 : charCodeAt0 (String.singleton c2) = some (65 + m) := by
    rw [charCodeAt0_singleton c2 hu2, hc2]
  obtain ⟨h1, h2, h3⟩ := gradeQuestion_labelled answers q gq i k (String.singleton c1) opts
    hgrade hlabel hcode1 hopts hk
  have h4 := h3 (String.singleton c2) m hm hca hcode2
  refine ⟨gq, hgq, h1, h4, ?_, ?_⟩
  · rw [h2]
    cases decide (q.correctAnswer = some (String.singleton c1)) <;> simp
  · rw [h1, h2, h4, hca]
    simp only [Option.some.injEq, decide_eq_true_eq, singleton_eq_iff,
      List.Nodup.getElem_inj_iff hdistinct]
    omega

/-- C30 (witness). The scenario of the specification, question 1: the correct label is
`D`, the submitted label is `C`; the option texts `y` and `z` differ and `isCorrect` is
`false`. -/
theorem isCorrect_iff_same_option_text_witness :
    (submitAssessmentAnswers (some "clerk1") scenarioDb "a1" scenarioAnswers).1 =
      .ok scenarioResult ∧
    ∃ gq, scenarioResult.questions[1]? = some gq ∧
      gq.userAnswer = some "y" ∧ gq.correctAnswerText = some "z" ∧
      (gq.isCorrect = some true ∨ gq.isCorrect = some false) ∧
      (gq.isCorrect = some true ↔ gq.userAnswer = gq.correctAnswerText) :=
  ⟨by rfl,
   isCorrect_iff_same_option_text (some "clerk1") scenarioDb "a1" scenarioAnswers exampleUser
    "clerk1" (exampleAssessment [exampleQuestion "B", exampleQuestion "D"]) scenarioResult
    (by rfl) (by rfl) (by rfl) 1 2 3 (exampleQuestion "D") ["w", "x", "y", "z"] 'C' 'D'
    (by rfl) (by rfl) (by decide) (by rfl) (by decide) (by decide) (by decide)
    (by rfl) (by decide) (by decide) (by decide)⟩

/-- The counting loop and the `isCorrect` flags of the map agree: the loop adds to its
counter the number of graded questions flagged `isCorrect = true`. -/
theorem countCorrect_eq_flag_count (answers : Answers) :
    ∀ (qs : List Question) (i acc c : Nat) (gs : List Question),
      countCorrect answers qs i acc = .ok c → mapQuestions answers qs i = .ok gs →
      c = acc + (gs.filter (fun q => q.isCorrect == some true)).length := by
  intro qs
  induction qs with
  | nil =>
    intro i acc c gs hc hm
    simp only [countCorrect, Except.ok.injEq] at hc
    simp only [mapQuestions, Except.ok.injEq] at hm
    subst hc; subst hm
    simp
  | cons q rest ih =>
    intro i acc c gs hc hm
    unfold mapQuestions at hm
    cases hg : gradeQuestion answers q i with
    | error e => simp [hg] at hm
    | ok g =>
      cases hr : mapQuestions answers rest (i + 1) with
      | error e => simp [hg, hr] at hm
      | ok gs2 =>
        simp only [hg, hr, Except.ok.injEq] at hm
        subst hm
        obtain ⟨e, idx, text, ct, he, _, _, _, hgq⟩ := gradeQuestion_ok answers q g i hg
        unfold countCorrect at hc
        simp only [he] at hc
        have hrec := ih (i + 1) _ c gs2 hc hr
        have hflag : g.isCorrect = some (strictEq e q.correctAnswer) := by
          rw [hgq]
        rw [hrec, List.filter_cons, hflag]
        cases strictEq e q.correctAnswer with
        | true => simp only [if_true, beq_self_eq_true, List.length_cons]; omega
        | false => simp

/-- The score a successful submission stores is the score expression of the code applied
to the two numbers the result view recomputes: the number of questions flagged
`isCorrect` and the number of questions. -/
theorem submit_score_from_flags (session : Option String) (db : Db) (id : String)
    (answers : Answers) (r : Assessment)
    (hok : (submitAssessmentAnswers session db id answers).1 = .ok r) :
    r.quizScore = computeScore (quizResultCorrectAnswers r) (quizResultTotalQuestions r) := by
  obtain ⟨user, uid, a, g, _, _, hg, hr⟩ := submit_ok_inv session db id answers r hok
  obtain ⟨c, gs, hc, hm, hgs⟩ := (grade_ok_iff _ _ _).1 hg
  have hcount := countCorrect_eq_flag_count answers a.questions 0 0 c gs hc hm
  have hlen := (mapQuestions_ok answers a.questions 0 gs hm).1
  subst hr; subst hgs
  simp only [quizResultCorrectAnswers, quizResultTotalQuestions, hlen]
  rw [hcount, Nat.zero_add]

/-- C28 (evaluation at the failing input). An assessment with 40 questions is submitted
with 23 correct labels. The stored record has 40 questions, 23 of them flagged
`isCorrect = true`, and `quizScore = 57`, while round-half-up of `100 * 23 / 40 = 57.5`
is 58: the score the result view shows does not agree with the counts it recomputes from
the flags. -/
theorem stored_score_differs_from_flag_count :
    ((submitAssessmentAnswers (some "clerk1")
        (exampleDb (List.replicate 40 (exampleQuestion "A"))) "a1"
        (some (List.replicate 23 (.str "A") ++ List.replicate 17 (.str "B")))).1.toOption.map
      (fun r => (r.quizScore, quizResultCorrectAnswers r, quizResultTotalQuestions r))) =
      some (.int 57, 23, 40) ∧
    roundHalfUp (100 * 23) 40 = 58 := by
  decide

/-- A number below `2 ^ (k + 1)` has its highest set bit at index `k` or lower. -/
theorem floorLog2_le_of_lt (n k : Nat) (h : n < 2 ^ (k + 1)) : floorLog2 n ≤ k := by
  rw [floorLog2_eq_log2]
  by_cases hn : n = 0
  · subst hn
    simp [Nat.log2_zero]
  · have := (Nat.log2_lt hn).2 h
    omega

/-- Rounding a quotient to the nearest integer does not pass an integer bound of the
quotient. -/
theorem rneDiv_le (a b m : Nat) (hb : 0 < b) (h : a ≤ m * b) : rneDiv a b ≤ m := by
  have hdm := Nat.div_add_mod a b
  have hr := Nat.mod_lt a hb
  have hq : a / b ≤ m := Nat.div_le_of_le_mul (by rw [Nat.mul_comm]; exact h)
  rcases Nat.lt_or_eq_of_le hq with hlt | heq
  · unfold rneDiv
    simp only
    split
    · omega
    · split
      · omega
      · split <;> omega
  · have h0 : a % b = 0 := by
      rw [heq, Nat.mul_comm b m] at hdm
      omega
    unfold rneDiv
    simp only [h0]
    simp [hb, heq]

/-- Rounding to binary64 is monotone against a representable bound: a quotient that is
at most `m * 2 ^ k`, rounded at an exponent not above `k`, stays at most `m * 2 ^ k`. -/
theorem roundBinary64_le (a b m k : Nat) (hb : 0 < b)
    (hj : floorLog2 (a / b) - 52 ≤ k) (h : a ≤ m * 2 ^ k * b) :
    roundBinary64 a b ≤ m * 2 ^ k := by
  unfold roundBinary64
  simp only
  generalize floorLog2 (a / b) - 52 = j at hj
  have hk : 2 ^ k = 2 ^ (k - j) * 2 ^ j := by
    rw [← Nat.pow_add, Nat.sub_add_cancel hj]
  have hpos : 0 < b * 2 ^ j := Nat.mul_pos hb (Nat.pow_pos (by decide))
  have h1 : rneDiv a (b * 2 ^ j) ≤ m * 2 ^ (k - j) := by
    apply rneDiv_le _ _ _ hpos
    calc a ≤ m * 2 ^ k * b := h
      _ = m * (2 ^ (k - j) * 2 ^ j) * b := by rw [← hk]
      _ = m * 2 ^ (k - j) * (b * 2 ^ j) := by ring
  calc rneDiv a (b * 2 ^ j) * 2 ^ j ≤ m * 2 ^ (k - j) * 2 ^ j := Nat.mul_le_mul_right _ h1
    _ = m * (2 ^ (k - j) * 2 ^ j) := by ring
    _ = m * 2 ^ k := by rw [← hk]

/-- The score expression on `c` matches out of `n ≥ 1` questions, `c ≤ n`, is an integer
between 0 and 100, also where the binary64 result differs from the exact percentage. -/
theorem computeScore_le_100 (c n : Nat) (hn : 0 < n) (hc : c ≤ n) :
    ∃ s, computeScore c n = .int s ∧ s ≤ 100 := by
  have hU : 0 < unit64 := Nat.pow_pos (by decide)
  have hUe : unit64 = 2 ^ 1074 := rfl
  have hnU : 0 < n * unit64 := Nat.mul_pos hn hU
  have hne : n * unit64 ≠ 0 := by omega
  have hx : roundBinary64 (c * unit64 * unit64) (n * unit64) ≤ 1 * 2 ^ 1074 := by
    have hle : c * unit64 * unit64 ≤ n * unit64 * unit64 :=
      Nat.mul_le_mul_right _ (Nat.mul_le_mul_right _ hc)
    apply roundBinary64_le _ _ _ _ hnU
    · have hq : c * unit64 * unit64 / (n * unit64) ≤ unit64 :=
        Nat.div_le_of_le_mul hle
      have hlt : unit64 < 2 ^ (1074 + 1) := by
        rw [hUe]; exact Nat.pow_lt_pow_right (by decide) (by decide)
      have := floorLog2_le_of_lt _ 1074 (Nat.lt_of_le_of_lt hq hlt)
      omega
    · rw [← hUe, Nat.one_mul, Nat.mul_comm unit64 (n * unit64)]
      exact hle
  rw [Nat.one_mul, ← hUe] at hx
  obtain ⟨x, hxdef⟩ : ∃ x, x = roundBinary64 (c * unit64 * unit64) (n * unit64) := ⟨_, rfl⟩
  rw [← hxdef] at hx
  have h100 : 25 * 2 ^ 1076 = 100 * unit64 := by
    rw [hUe, show 1076 = 1074 + 2 from rfl, Nat.pow_add]
    generalize (2 : Nat) ^ 1074 = u
    omega
  have hy : roundBinary64 (x * (100 * unit64)) unit64 ≤ 25 * 2 ^ 1076 := by
    have hle : x * (100 * unit64) ≤ unit64 * (100 * unit64) := Nat.mul_le_mul_right _ hx
    apply roundBinary64_le _ _ _ _ hU
    · have hq : x * (100 * unit64) / unit64 ≤ 100 * unit64 := Nat.div_le_of_le_mul hle
      have hlt : 100 * unit64 < 2 ^ (1080 + 1) := by
        rw [hUe, show 1080 + 1 = 1074 + 7 from rfl, Nat.pow_add]
        generalize (2 : Nat) ^ 1074 = u at hU hUe
        rw [hUe] at hU
        omega
      have := floorLog2_le_of_lt _ 1080 (Nat.lt_of_le_of_lt hq hlt)
      omega
    · rw [h100, Nat.mul_comm (100 * unit64) unit64]
      exact hle
  rw [h100] at hy
  refine ⟨(2 * roundBinary64 (x * (100 * unit64)) unit64 + unit64) / (2 * unit64), ?_, ?_⟩
  · simp only [computeScore, JSNumber.ofCount, JSNumber.div, JSNumber.mul, mathRound, hne,
      if_false, ← hxdef]
  · generalize roundBinary64 (x * (100 * unit64)) unit64 = y at hy
    have : (2 * y + unit64) / (2 * unit64) < 101 := by
      apply (Nat.div_lt_iff_lt_mul (by omega)).2
      generalize unit64 = u at *
      omega
    omega

/-- The score a successful grading of at least one question computes is an integer
between 0 and 100. -/
theorem grade_score_le_100 (qs : List Question) (answers : Answers) (g : Graded)
    (hqs : qs ≠ []) (hg : grade qs answers = .ok g) :
    ∃ s, g.score = .int s ∧ s ≤ 100 := by
  obtain ⟨c, gs, hc, hm, hgs⟩ := (grade_ok_iff _ _ _).1 hg
  have hcount := countCorrect_eq_flag_count answers qs 0 0 c gs hc hm
  have hlen := (mapQuestions_ok answers qs 0 gs hm).1
  have hfl := List.length_filter_le (fun q => q.isCorrect == some true) gs
  have hpos : 0 < qs.length := List.length_pos.2 hqs
  subst hgs
  exact computeScore_le_100 c qs.length hpos (by omega)

/-- A generation whose service call succeeds and whose response parses to an object with
a `questions` array succeeds and returns a record with `quizScore = 0`. -/
theorem generate_total (env : Environment) (session : Option String) (db : Db)
    (request : AssessmentRequest) (user : User) (uid text : String) (qs : List Question)
    (hauth : requireAuth session db = .ok (user, uid))
    (hgen : env.generateContent
      (buildPrompt user request.topic request.difficulty request.questionCount) = .ok text)
    (hparse : env.jsonParse (cleanedContent (jsTrim text)) = some (.object (some (.array qs)))) :
    ∃ r, (generateAssessment env session db request).1 = .ok r ∧ r.quizScore = .int 0 := by
  refine ⟨⟨env.newId, user.id, request.topic, qs, .int 0, none, env.now⟩, ?_, rfl⟩
  simp only [generateAssessment, hauth, generateBody, hgen, parseStep, hparse, questionsOf,
    Db.create]

/-- C24. Every `quizScore` the workflow writes lies in `[0, 100]`. For every environment,
session, store and request (also a store in which the caller owns no assessment yet), a
successful `generateAssessment` returns and stores a record with `quizScore = 0`, and
the generation does succeed when the service answers and the answer parses to an object
with a `questions` array. For every assessment with at least one question and every
`answers`, a successful `submitAssessmentAnswers` returns a record whose `quizScore` is
an integer `s` with `0 ≤ s ≤ 100`, and that is the score the stored row has afterwards;
and the submission does succeed whenever the questions have `options` and a
`correctAnswer` and `answers` is an array without truthy non-strings. -/
theorem quizScore_within_0_100 :
    (∀ (env : Environment) (session : Option String) (db : Db) (request : AssessmentRequest)
        (r : Assessment),
      (generateAssessment env session db request).1 = .ok r →
      r.quizScore = .int 0 ∧
      r ∈ (generateAssessment env session db request).2.assessments) ∧
    (∀ (env : Environment) (session : Option String) (db : Db) (request : AssessmentRequest)
        (user : User) (uid text : String) (qs : List Question),
      requireAuth session db = .ok (user, uid) →
      env.generateContent
        (buildPrompt user request.topic request.difficulty request.questionCount) = .ok text →
      env.jsonParse (cleanedContent (jsTrim text)) = some (.object (some (.array qs))) →
      ∃ r, (generateAssessment env session db request).1 = .ok r ∧ r.quizScore = .int 0) ∧
    (∀ (session : Option String) (db : Db) (id : String) (answers : Answers) (user : User)
        (uid : String) (a r : Assessment),
      requireAuth session db = .ok (user, uid) → db.findUnique id user.id = some a →
      a.questions ≠ [] →
      (submitAssessmentAnswers session db id answers).1 = .ok r →
      ∃ s, r.quizScore = .int s ∧ 0 ≤ s ∧ s ≤ 100 ∧
        ((submitAssessmentAnswers session db id answers).2.findUnique id user.id).map
          (fun x => x.quizScore) = some (.int s)) ∧
    (∀ (session : Option String) (db : Db) (id : String) (xs : List Entry) (user : User)
        (uid : String) (a : Assessment),
      requireAuth session db = .ok (user, uid) → db.findUnique id user.id = some a →
      a.questions ≠ [] →
      (∀ q ∈ a.questions, q.options ≠ none ∧ q.correctAnswer ≠ none) →
      (∀ e ∈ xs, e ≠ .other true) →
      ∃ r s, (submitAssessmentAnswers session db id (some xs)).1 = .ok r ∧
        r.quizScore = .int s ∧ 0 ≤ s ∧ s ≤ 100) := by
  refine ⟨?_, ?_, ?_, ?_⟩
  · intro env session db request r h
    obtain ⟨u2, uid2, text, parsed, questions, _, _, _, _, h5⟩ :=
      generate_ok_inv env session db request r h
    obtain ⟨c1, _, _, _, _, c6, _⟩ := create_ok _ _ _ _ _ _ _ _ h5
    refine ⟨c6, ?_⟩
    rw [c1]
    simp
  · intro env session db request user uid text qs hauth hgen hparse
    exact generate_total env session db request user uid text qs hauth hgen hparse
  · intro session db id answers user uid a r hauth hfind hqs h
    obtain ⟨g, hg, hr⟩ := submit_ok session db id answers user uid a r hauth hfind h
    obtain ⟨s, hs, hle⟩ := grade_score_le_100 a.questions answers g hqs hg
    refine ⟨s, by rw [hr]; exact hs, Nat.zero_le s, hle, ?_⟩
    rw [submit_total session db id answers user uid a g hauth hfind hg]
    simp only
    rw [findUnique_update db id user.id a _ _ _ hfind]
    simp only [Option.map_some', hs]
  · intro session db id xs user uid a hauth hfind hqs hwf hent
    obtain ⟨g, hg⟩ := grade_total xs a.questions hwf hent
    obtain ⟨s, hs, hle⟩ := grade_score_le_100 a.questions (some xs) g hqs hg
    have hsub := submit_total session db id (some xs) user uid a g hauth hfind hg
    exact ⟨_, s, by rw [hsub], hs, Nat.zero_le s, hle⟩

/-- C24 (witness). A first generation, in a store without any assessment, stores `a2`
with score 0; in the scenario of the specification the submission of `["B", "C"]` stores
the score 50. -/
theorem quizScore_within_0_100_witness :
    emptyStoreDb.assessments = [] ∧
    (generateAssessment (exampleEnv oneQuestionJson) (some "clerk1") emptyStoreDb
        exampleRequest).1 = .ok ⟨"a2", "u1", "SQL", [exampleQuestion "A"], .int 0, none, 6⟩ ∧
    ((⟨"a2", "u1", "SQL", [exampleQuestion "A"], .int 0, none, 6⟩ : Assessment).quizScore =
        .int 0 ∧
      (⟨"a2", "u1", "SQL", [exampleQuestion "A"], .int 0, none, 6⟩ : Assessment) ∈
        (generateAssessment (exampleEnv oneQuestionJson) (some "clerk1") emptyStoreDb
          exampleRequest).2.assessments) ∧
    (∃ r, (generateAssessment (exampleEnv oneQuestionJson) (some "clerk1") emptyStoreDb
        exampleRequest).1 = .ok r ∧ r.quizScore = .int 0) ∧
    (submitAssessmentAnswers (some "clerk1") scenarioDb "a1" scenarioAnswers).1 =
      .ok scenarioResult ∧
    scenarioResult.quizScore = .int 50 ∧
    (∃ s, scenarioResult.quizScore = .int s ∧ 0 ≤ s ∧ s ≤ 100 ∧
      ((submitAssessmentAnswers (some "clerk1") scenarioDb "a1"
          scenarioAnswers).2.findUnique "a1" exampleUser.id).map
        (fun x => x.quizScore) = some (.int s)) ∧
    (∃ r s, (submitAssessmentAnswers (some "clerk1") scenarioDb "a1"
        (some [.str "B", .str "C"])).1 = .ok r ∧
      r.quizScore = .int s ∧ 0 ≤ s ∧ s ≤ 100) :=
  ⟨by rfl, by rfl,
   quizScore_within_0_100.1 (exampleEnv oneQuestionJson) (some "clerk1") emptyStoreDb
     exampleRequest _ (by rfl),
   quizScore_within_0_100.2.1 (exampleEnv oneQuestionJson) (some "clerk1") emptyStoreDb
     exampleRequest exampleUser "clerk1" oneQuestionJson [exampleQuestion "A"]
     (by rfl) (by rfl) (by rfl),
   by rfl, by rfl,
   quizScore_within_0_100.2.2.1 (some "clerk1") scenarioDb "a1" scenarioAnswers exampleUser
     "clerk1" (exampleAssessment [exampleQuestion "B", exampleQuestion "D"]) scenarioResult
     (by rfl) (by rfl) (by decide) (by rfl),
   quizScore_within_0_100.2.2.2 (some "clerk1") scenarioDb "a1" [.str "B", .str "C"]
     exampleUser "clerk1" (exampleAssessment [exampleQuestion "B", exampleQuestion "D"])
     (by rfl) (by rfl) (by decide) (by decide) (by decide)⟩

end SensAI
